import Mathlib

/-!
Navigation3D: grid, node graph and A* search.

A shallow embedding of `NavigationVolume3D.cpp`, `NavigationVolume3D.h` and `NavNode.h`.

* `float` values are elements of a linearly ordered field `K` with a floor function
  (exact arithmetic); `int32` values are `Int`. The index computation of `GetNode`,
  `GetTotalDivisions` and `ConvertLocationToCoordinates` are given a second time with the
  machine types (`int32` wrap-around, rounding of `float` operations, conversion of a
  `float` to `int32`) in the part on machine arithmetic.
* `NavNode*` is the index of the node in the `Nodes` array.
* Engine services that are not part of the repository are parameters: the actor
  transform (`FTransform`), the square root used by `FVector::Distance` (`sqrt`) and
  the physics query `BoxOverlapActors`.
* The loops of `FindPath` carry an iteration bound `fuel`; a run that uses it up yields
  `none`.
* The `std::multiset` is the sequence of its elements in iteration order; `insert` places
  the new element at the upper bound found from the front of the sequence, which is where
  the container places it as long as the sequence is ordered by `FScore` (`InsertAdmits`
  describes the positions of a tree descent on a sequence that is not).
-/

namespace Navigation3D

/-! ## Engine value types -/

/-- Engine type `FIntVector`: three `int32` components. -/
@[ext]
structure FIntVector where
  X : Int
  Y : Int
  Z : Int
deriving DecidableEq, Repr

/-- Engine type `FVector`: three `float` components. -/
@[ext]
structure FVector (K : Type) where
  X : K
  Y : K
  Z : K
deriving DecidableEq, Repr

/-- Engine type `FTransform`, seen through the two library calls the volume makes on it. -/
structure FTransform (K : Type) where
  TransformLocation : FVector K → FVector K
  InverseTransformLocation : FVector K → FVector K

/-- The constant `FLT_MAX` (largest finite single-precision value, `2^128 - 2^104`). -/
def FLT_MAX {K : Type} [LinearOrderedField K] : K := 340282346638528859811704183484516925440

/-- Class `NavNode` (NavNode.h): `Neighbors` holds node pointers, i.e. indices into `Nodes`. -/
structure NavNode (K : Type) where
  Coordinates : FIntVector
  Neighbors : List Nat
  FScore : K

/-- A default-constructed `NavNode`: no neighbours, `FScore = FLT_MAX`
(the coordinates are not initialised by the constructor; zero stands for them). -/
def NavNode.new {K : Type} [LinearOrderedField K] : NavNode K :=
  { Coordinates := ⟨0, 0, 0⟩, Neighbors := [], FScore := FLT_MAX }

instance {K : Type} [LinearOrderedField K] : Inhabited (NavNode K) := ⟨NavNode.new⟩

/-- The pathfinding-relevant members of `ANavigationVolume3D`. -/
structure ANavigationVolume3D (K : Type) where
  DivisionsX : Int
  DivisionsY : Int
  DivisionsZ : Int
  DivisionSize : K
  MinSharedNeighborAxes : Int
  ActorTransform : FTransform K
  Nodes : List (NavNode K)

section Grid

variable {K : Type} [LinearOrderedField K] [FloorRing K]

/-- Accessor `GetTotalDivisions`, the product taken in `Int`: the value of the `int32`
expression whenever that does not overflow (`GetTotalDivisions_int32`). -/
def GetTotalDivisions (v : ANavigationVolume3D K) : Int :=
  v.DivisionsX * v.DivisionsY * v.DivisionsZ

/-- Accessor `GetGridSizeX`. -/
def GetGridSizeX (v : ANavigationVolume3D K) : K := (v.DivisionsX : K) * v.DivisionSize

/-- Accessor `GetGridSizeY`. -/
def GetGridSizeY (v : ANavigationVolume3D K) : K := (v.DivisionsY : K) * v.DivisionSize

/-- Accessor `GetGridSizeZ`. -/
def GetGridSizeZ (v : ANavigationVolume3D K) : K := (v.DivisionsZ : K) * v.DivisionSize

/-- Helper `AreCoordinatesValid`. -/
def AreCoordinatesValid (v : ANavigationVolume3D K) (coordinates : FIntVector) : Bool :=
  decide (coordinates.X ≥ 0) && decide (coordinates.X < v.DivisionsX) &&
  decide (coordinates.Y ≥ 0) && decide (coordinates.Y < v.DivisionsY) &&
  decide (coordinates.Z ≥ 0) && decide (coordinates.Z < v.DivisionsZ)

/-- Engine function `FMath::Clamp` on `int32`: `X < Min ? Min : X < Max ? X : Max`. -/
def FMath.Clamp (x min max : Int) : Int :=
  if x < min then min else if x < max then x else max

/-- Helper `ClampCoordinates` (the in-place update is returned as the new value). -/
def ClampCoordinates (v : ANavigationVolume3D K) (coordinates : FIntVector) : FIntVector :=
  { X := FMath.Clamp coordinates.X 0 (v.DivisionsX - 1),
    Y := FMath.Clamp coordinates.Y 0 (v.DivisionsY - 1),
    Z := FMath.Clamp coordinates.Z 0 (v.DivisionsZ - 1) }

/-- The array index computed by `GetNode`, taken in `Int`: the value of the `int32`
computation whenever no step of it overflows (`GetNodeIndex_int32`). -/
def GetNodeIndex (v : ANavigationVolume3D K) (coordinates : FIntVector) : Int :=
  let coordinates := ClampCoordinates v coordinates
  let divisionPerLevel := v.DivisionsX * v.DivisionsY
  (coordinates.Z * divisionPerLevel) + (coordinates.Y * v.DivisionsX) + coordinates.X

/-- Function `GetNode`: the pointer `&Nodes[index]`, represented by `index`. -/
def GetNode (v : ANavigationVolume3D K) (coordinates : FIntVector) : Nat :=
  (GetNodeIndex v coordinates).toNat

/-- Conversion of a `float` to an integer: truncation toward zero, without the bounds of
`int32` (`FloatToInt32` is the assignment to an `int32` member). -/
def FloatToInt (x : K) : Int := if 0 ≤ x then ⌊x⌋ else ⌈x⌉

/-- The grid-space point that `ConvertLocationToCoordinates` turns into a coordinate,
before the clamp. -/
def ConvertLocationToCoordinates_unclamped (v : ANavigationVolume3D K)
    (gridSpaceLocation : FVector K) : FIntVector :=
  { X := FloatToInt ((v.DivisionsX : K) * (gridSpaceLocation.X / GetGridSizeX v)),
    Y := FloatToInt ((v.DivisionsY : K) * (gridSpaceLocation.Y / GetGridSizeY v)),
    Z := FloatToInt ((v.DivisionsZ : K) * (gridSpaceLocation.Z / GetGridSizeZ v)) }

/-- Function `ConvertLocationToCoordinates`. -/
def ConvertLocationToCoordinates (v : ANavigationVolume3D K) (location : FVector K) :
    FIntVector :=
  let gridSpaceLocation := v.ActorTransform.InverseTransformLocation location
  ClampCoordinates v (ConvertLocationToCoordinates_unclamped v gridSpaceLocation)

/-- The local `gridSpaceLocation` of `ConvertCoordinatesToLocation`. -/
def ConvertCoordinatesToLocation_gridSpaceLocation (v : ANavigationVolume3D K)
    (coordinates : FIntVector) : FVector K :=
  let clampedCoordinates := ClampCoordinates v coordinates
  { X := ((clampedCoordinates.X : K) * v.DivisionSize) + (v.DivisionSize * (1 / 2)),
    Y := ((clampedCoordinates.Y : K) * v.DivisionSize) + (v.DivisionSize * (1 / 2)),
    Z := ((clampedCoordinates.Z : K) * v.DivisionSize) + (v.DivisionSize * (1 / 2)) }

/-- Function `ConvertCoordinatesToLocation`. -/
def ConvertCoordinatesToLocation (v : ANavigationVolume3D K) (coordinates : FIntVector) :
    FVector K :=
  v.ActorTransform.TransformLocation (ConvertCoordinatesToLocation_gridSpaceLocation v coordinates)

end Grid

/-! ## Graph construction (`BeginPlay`) -/

section Graph

variable {K : Type} [LinearOrderedField K] [FloorRing K]

/-- Dereference of a node pointer: `Nodes[index]`. -/
def nodeAt (nodes : List (NavNode K)) (node : Nat) : NavNode K := nodes.getD node default

/-- The statement `node->Neighbors.push_back(neighbor)`. -/
def pushNeighbor (nodes : List (NavNode K)) (node neighbor : Nat) : List (NavNode K) :=
  nodes.set node { nodeAt nodes node with Neighbors := (nodeAt nodes node).Neighbors ++ [neighbor] }

/-- The statement `node->Coordinates = coordinates`. -/
def setCoordinates (nodes : List (NavNode K)) (node : Nat) (coordinates : FIntVector) :
    List (NavNode K) :=
  nodes.set node { nodeAt nodes node with Coordinates := coordinates }

/-- The statement `node->FScore = fScore`. -/
def setFScore (nodes : List (NavNode K)) (node : Nat) (fScore : K) : List (NavNode K) :=
  nodes.set node { nodeAt nodes node with FScore := fScore }

/-- The lambda `addNeighborIfValid` of `BeginPlay`. -/
def addNeighborIfValid (v : ANavigationVolume3D K) (nodes : List (NavNode K)) (node : Nat)
    (neighbor_coordinates : FIntVector) : List (NavNode K) :=
  if AreCoordinatesValid v neighbor_coordinates then
    let sharedAxes : Int :=
      (if (nodeAt nodes node).Coordinates.X = neighbor_coordinates.X then 1 else 0) +
      (if (nodeAt nodes node).Coordinates.Y = neighbor_coordinates.Y then 1 else 0) +
      (if (nodeAt nodes node).Coordinates.Z = neighbor_coordinates.Z then 1 else 0)
    if sharedAxes ≥ v.MinSharedNeighborAxes ∧ sharedAxes < 3 then
      pushNeighbor nodes node (GetNode v neighbor_coordinates)
    else nodes
  else nodes

/-- The offsets of the 26 `addNeighborIfValid` calls of the loop body, in source order
(above: front, middle, back; middle: front, middle, back; below: front, middle, back). -/
def neighborOffsets : List FIntVector :=
  [⟨1, -1, 1⟩, ⟨1, 0, 1⟩, ⟨1, 1, 1⟩, ⟨0, -1, 1⟩, ⟨0, 0, 1⟩, ⟨0, 1, 1⟩,
   ⟨-1, -1, 1⟩, ⟨-1, 0, 1⟩, ⟨-1, 1, 1⟩,
   ⟨1, -1, 0⟩, ⟨1, 0, 0⟩, ⟨1, 1, 0⟩, ⟨0, -1, 0⟩, ⟨0, 1, 0⟩,
   ⟨-1, -1, 0⟩, ⟨-1, 0, 0⟩, ⟨-1, 1, 0⟩,
   ⟨1, -1, -1⟩, ⟨1, 0, -1⟩, ⟨1, 1, -1⟩, ⟨0, -1, -1⟩, ⟨0, 0, -1⟩, ⟨0, 1, -1⟩,
   ⟨-1, -1, -1⟩, ⟨-1, 0, -1⟩, ⟨-1, 1, -1⟩]

/-- The body of the innermost `BeginPlay` loop for the cell `(x, y, z)`. -/
def BeginPlay_body (v : ANavigationVolume3D K) (nodes : List (NavNode K)) (x y z : Int) :
    List (NavNode K) :=
  let node := GetNode v ⟨x, y, z⟩
  let nodes := setCoordinates nodes node ⟨x, y, z⟩
  neighborOffsets.foldl
    (fun nodes d => addNeighborIfValid v nodes node ⟨x + d.X, y + d.Y, z + d.Z⟩) nodes

/-- The three nested loops of `BeginPlay` over a freshly allocated array. -/
def BeginPlay_nodes (v : ANavigationVolume3D K) : List (NavNode K) :=
  (List.range v.DivisionsZ.toNat).foldl (fun nodes (z : Nat) =>
    (List.range v.DivisionsY.toNat).foldl (fun nodes (y : Nat) =>
      (List.range v.DivisionsX.toNat).foldl (fun nodes (x : Nat) =>
        BeginPlay_body v nodes (x : Int) (y : Int) (z : Int)) nodes) nodes)
    (List.replicate (GetTotalDivisions v).toNat NavNode.new)

/-- Function `BeginPlay`: allocates `Nodes` and fills in coordinates and neighbours. -/
def BeginPlay (v : ANavigationVolume3D K) : ANavigationVolume3D K :=
  { v with Nodes := BeginPlay_nodes v }

end Graph

/-! ## Search (`FindPath`) -/

section Search

variable {K : Type} [LinearOrderedField K] [FloorRing K]

/-- Constructor `FVector(FIntVector)`. -/
def FVector.ofIntVector (c : FIntVector) : FVector K := ⟨(c.X : K), (c.Y : K), (c.Z : K)⟩

/-- Engine function `FVector::DistSquared`. -/
def FVector.DistSquared (V1 V2 : FVector K) : K :=
  (V2.X - V1.X) ^ 2 + (V2.Y - V1.Y) ^ 2 + (V2.Z - V1.Z) ^ 2

/-- Engine function `FVector::Distance`, over the square root `sqrt`. -/
def FVector.Distance (sqrt : K → K) (V1 V2 : FVector K) : K :=
  sqrt (FVector.DistSquared V1 V2)

/-- Comparator `NodeCompare` (NavNode.h), reading the nodes' current `FScore`. -/
def NodeCompare (nodes : List (NavNode K)) (lhs rhs : Nat) : Bool :=
  decide ((nodeAt nodes lhs).FScore < (nodeAt nodes rhs).FScore)

/-- The call `openSet.insert(p)` on the `std::multiset<NavNode*, NodeCompare>`, held as the
sequence of its elements in iteration order: the new element goes before the first element
that compares greater (after every element that does not), as read off the nodes' current
`FScore`. On a sequence ordered by `FScore` this is the position the container chooses.
`FindPath` writes `neighbor->FScore` while an entry of `neighbor` may be in the container;
after that the sequence need not be ordered, and the position found by the descent of the
container's tree depends on the shape of the tree and can differ from this one. -/
def multisetInsert (nodes : List (NavNode K)) : List Nat → Nat → List Nat
  | [], p => [p]
  | e :: es, p =>
    if NodeCompare nodes p e then p :: e :: es else e :: multisetInsert nodes es p

/-- The local containers of `FindPath` together with the node array it writes `FScore` to. -/
structure SearchState (K : Type) where
  Nodes : List (NavNode K)
  openSet : List Nat
  cameFrom : Nat → Option Nat
  gScores : Nat → Option K

/-- The lambda `h` of `FindPath`. -/
def h (sqrt : K → K) (nodes : List (NavNode K)) (endNode node : Nat) : K :=
  FVector.Distance sqrt (FVector.ofIntVector (nodeAt nodes endNode).Coordinates)
    (FVector.ofIntVector (nodeAt nodes node).Coordinates)

/-- The lambda `distance` of `FindPath`. -/
def distance (sqrt : K → K) (nodes : List (NavNode K)) (node1 node2 : Nat) : K :=
  FVector.Distance sqrt (FVector.ofIntVector (nodeAt nodes node1).Coordinates)
    (FVector.ofIntVector (nodeAt nodes node2).Coordinates)

/-- The lambda `gScore` of `FindPath`. -/
def gScore (gScores : Nat → Option K) (node : Nat) : K :=
  match gScores node with
  | some g => g
  | none => FLT_MAX

/-- One iteration of `for (NavNode* neighbor : current->Neighbors)`. The physics query
`BoxOverlapActors` is called with the box centre and the box half-extent. -/
def relaxNeighbor (sqrt : K → K) (BoxOverlapActors : FVector K → FVector K → Bool)
    (v : ANavigationVolume3D K) (endNode current : Nat) (st : SearchState K) (neighbor : Nat) :
    SearchState K :=
  let tentative_gScore := gScore st.gScores current + distance sqrt st.Nodes current neighbor
  if tentative_gScore < gScore st.gScores neighbor then
    let worldLocation := ConvertCoordinatesToLocation v (nodeAt st.Nodes neighbor).Coordinates
    let halfExtent : FVector K := ⟨v.DivisionSize / 2, v.DivisionSize / 2, v.DivisionSize / 2⟩
    let traversable := !(BoxOverlapActors worldLocation halfExtent)
    if traversable = true then
      let fScore := tentative_gScore + h sqrt st.Nodes endNode neighbor
      let nodes := setFScore st.Nodes neighbor fScore
      { Nodes := nodes,
        openSet := multisetInsert nodes st.openSet neighbor,
        cameFrom := Function.update st.cameFrom neighbor (some current),
        gScores := Function.update st.gScores neighbor (some tentative_gScore) }
    else st
  else st

/-- The inner `while (true)` of `FindPath` that rebuilds the path from `cameFrom`;
`none` when the iteration bound is used up. -/
def rebuildPath (v : ANavigationVolume3D K) (nodes : List (NavNode K))
    (cameFrom : Nat → Option Nat) : Nat → Nat → List (FVector K) → Option (List (FVector K))
  | 0, _, _ => none
  | fuel + 1, current, out_path =>
    match cameFrom current with
    | some prev =>
      rebuildPath v nodes cameFrom fuel prev
        (ConvertCoordinatesToLocation v (nodeAt nodes prev).Coordinates :: out_path)
    | none => some out_path

/-- The loop `while (openSet.empty() == false)` of `FindPath` with the return that follows
it; the result is the returned `bool` and `out_path`, or `none` when the iteration bound is
used up. -/
def searchLoop (sqrt : K → K) (BoxOverlapActors : FVector K → FVector K → Bool)
    (v : ANavigationVolume3D K) (endNode : Nat) (out_path : List (FVector K)) :
    Nat → SearchState K → Option (Bool × List (FVector K))
  | 0, _ => none
  | fuel + 1, st =>
    match st.openSet with
    | [] => some (false, out_path)
    | current :: rest =>
      if current = endNode then
        (rebuildPath v st.Nodes st.cameFrom fuel current
          (out_path ++ [ConvertCoordinatesToLocation v (nodeAt st.Nodes current).Coordinates])).map
          (fun out_path => (true, out_path))
      else
        searchLoop sqrt BoxOverlapActors v endNode out_path fuel
          ((nodeAt st.Nodes current).Neighbors.foldl
            (relaxNeighbor sqrt BoxOverlapActors v endNode current)
            { st with openSet := rest })

/-- The state of `FindPath` when the loop is entered. -/
def FindPath_init (sqrt : K → K) (v : ANavigationVolume3D K) (startNode endNode : Nat) :
    SearchState K :=
  let nodes := setFScore v.Nodes startNode (h sqrt v.Nodes endNode startNode)
  { Nodes := nodes,
    openSet := multisetInsert nodes [] startNode,
    cameFrom := fun _ => none,
    gScores := Function.update (fun _ => none) startNode (some 0) }

/-- Engine function `TArray::Empty`. -/
def TArray.Empty {α : Type} (_ : List α) : List α := []

/-- Function `FindPath`. `out_path` is the caller's array; the result is the returned `bool`
with the final `out_path`. `fuel` bounds the number of loop iterations. -/
def FindPath (sqrt : K → K) (BoxOverlapActors : FVector K → FVector K → Bool)
    (fuel : Nat) (v : ANavigationVolume3D K) (start destination : FVector K)
    (out_path : List (FVector K)) : Option (Bool × List (FVector K)) :=
  let out_path := TArray.Empty out_path
  let startNode := GetNode v (ConvertLocationToCoordinates v start)
  let endNode := GetNode v (ConvertLocationToCoordinates v destination)
  searchLoop sqrt BoxOverlapActors v endNode out_path fuel
    (FindPath_init sqrt v startNode endNode)

end Search

end Navigation3D

namespace Navigation3D

/-! ## Notions used to state the properties of the graph -/

section GraphSpec

variable {K : Type} [LinearOrderedField K] [FloorRing K]

/-- The number of axes on which two coordinates agree. -/
def sharedAxesCount (a b : FIntVector) : Int :=
  (if a.X = b.X then 1 else 0) + (if a.Y = b.Y then 1 else 0) + (if a.Z = b.Z then 1 else 0)

/-- The coordinate `a` moved by the offset `d`. -/
def FIntVector.offset (a d : FIntVector) : FIntVector := ⟨a.X + d.X, a.Y + d.Y, a.Z + d.Z⟩

/-- The test under which `addNeighborIfValid` appends the candidate `nc` to the node whose
coordinates are `a`. -/
def neighborAccepted (v : ANavigationVolume3D K) (a nc : FIntVector) : Bool :=
  AreCoordinatesValid v nc &&
    decide (sharedAxesCount a nc ≥ v.MinSharedNeighborAxes ∧ sharedAxesCount a nc < 3)

/-- The neighbour list one loop body builds for the cell `a`, in order. -/
def cellNeighbors (v : ANavigationVolume3D K) (a : FIntVector) : List Nat :=
  ((neighborOffsets.map a.offset).filter (neighborAccepted v a)).map (GetNode v)

/-- The cells in the order in which the loops of `BeginPlay` visit them. -/
def gridCells (v : ANavigationVolume3D K) : List FIntVector :=
  (List.range v.DivisionsZ.toNat).flatMap fun (z : Nat) =>
    (List.range v.DivisionsY.toNat).flatMap fun (y : Nat) =>
      (List.range v.DivisionsX.toNat).map fun (x : Nat) => ⟨(x : Int), (y : Int), (z : Int)⟩

end GraphSpec

end Navigation3D

namespace Navigation3D

/-! ## Notions used to state the properties of the search -/

section SearchSpec

variable {K : Type} [LinearOrderedField K] [FloorRing K]

/-- The world location `FindPath` computes for a node: the centre of its cell. -/
def nodeLocation (v : ANavigationVolume3D K) (node : Nat) : FVector K :=
  ConvertCoordinatesToLocation v (nodeAt v.Nodes node).Coordinates

/-- The box half-extent `FVector(GetDivisionSize() / 2.0f)` of the overlap query. -/
def boxHalfExtent (v : ANavigationVolume3D K) : FVector K :=
  ⟨v.DivisionSize / 2, v.DivisionSize / 2, v.DivisionSize / 2⟩

/-- The cell of a node is reported obstructed by the overlap query. -/
def nodeObstructed (BoxOverlapActors : FVector K → FVector K → Bool)
    (v : ANavigationVolume3D K) (node : Nat) : Bool :=
  BoxOverlapActors (nodeLocation v node) (boxHalfExtent v)

/-- A node sequence in which every node is in the neighbour list of the one before it. -/
def IsNeighborPath (nodes : List (NavNode K)) (ns : List Nat) : Prop :=
  List.Chain' (fun a b => b ∈ (nodeAt nodes a).Neighbors) ns

/-- The search state writes nothing but `FScore` to the nodes of the volume. -/
def SameGraph (nodes nodes' : List (NavNode K)) : Prop :=
  ∀ i, (nodeAt nodes' i).Coordinates = (nodeAt nodes i).Coordinates ∧
    (nodeAt nodes' i).Neighbors = (nodeAt nodes i).Neighbors

/-- A node the search has reached: the start node or a node with a `cameFrom` entry. -/
def Reached (startNode : Nat) (cameFrom : Nat → Option Nat) (n : Nat) : Prop :=
  n = startNode ∨ ∃ p, cameFrom n = some p

/-- Invariant of the `FindPath` loop relating `cameFrom` and `openSet` to the graph. -/
structure SearchInv (BoxOverlapActors : FVector K → FVector K → Bool)
    (v : ANavigationVolume3D K) (startNode : Nat) (st : SearchState K) : Prop where
  graph : SameGraph v.Nodes st.Nodes
  came : ∀ n p, st.cameFrom n = some p →
    n ∈ (nodeAt v.Nodes p).Neighbors ∧ Reached startNode st.cameFrom p ∧
      nodeObstructed BoxOverlapActors v n = false
  opened : ∀ n ∈ st.openSet, Reached startNode st.cameFrom n

end SearchSpec

end Navigation3D

namespace Navigation3D

/-! ## Concrete volumes -/

/-- A volume with a 3 x 4 x 5 grid of cells of size 100, placed by the identity transform. -/
def sampleVolume : ANavigationVolume3D ℚ :=
  { DivisionsX := 3, DivisionsY := 4, DivisionsZ := 5, DivisionSize := 100,
    MinSharedNeighborAxes := 0, ActorTransform := ⟨id, id⟩, Nodes := [] }

/-- A square root on the rationals, exact on the squares of rationals. -/
def ratSqrt (x : ℚ) : ℚ := (Nat.sqrt x.num.toNat : ℚ) / (Nat.sqrt x.den : ℚ)

/-- The configuration of a row of two cells of size 100, placed by the identity transform. -/
def lineConfig : ANavigationVolume3D ℚ :=
  { DivisionsX := 2, DivisionsY := 1, DivisionsZ := 1, DivisionSize := 100,
    MinSharedNeighborAxes := 0, ActorTransform := ⟨id, id⟩, Nodes := [] }

/-- The row of two cells after `BeginPlay`. -/
def lineVolume : ANavigationVolume3D ℚ := BeginPlay lineConfig

/-- An overlap query that reports nothing. -/
def noOverlap : FVector ℚ → FVector ℚ → Bool := fun _ _ => false

/-- An overlap query that reports an obstruction exactly for boxes centred at `x < 100`,
that is, in the row of two cells, for the cell `(0, 0, 0)`. -/
def firstCellOverlap : FVector ℚ → FVector ℚ → Bool := fun centre _ => decide (centre.X < 100)

/-- The configuration of a row of three cells of size 100, placed by the identity
transform. -/
def corridorConfig : ANavigationVolume3D ℚ :=
  { DivisionsX := 3, DivisionsY := 1, DivisionsZ := 1, DivisionSize := 100,
    MinSharedNeighborAxes := 0, ActorTransform := ⟨id, id⟩, Nodes := [] }

/-- An overlap query that reports an obstruction exactly for boxes centred at
`100 < x < 200`, that is, in the row of three cells, for the cell `(1, 0, 0)`. -/
def middleCellOverlap : FVector ℚ → FVector ℚ → Bool :=
  fun centre _ => decide (100 < centre.X ∧ centre.X < 200)

/-- The configuration of a 3 x 3 x 3 grid of cells of size 100 over the reals, placed by the
identity transform. -/
def cubeConfig : ANavigationVolume3D ℝ :=
  { DivisionsX := 3, DivisionsY := 3, DivisionsZ := 3, DivisionSize := 100,
    MinSharedNeighborAxes := 0, ActorTransform := ⟨id, id⟩, Nodes := [] }

end Navigation3D

namespace Navigation3D

/-! ## Notions used to reason about the run of the search -/

section TermSpec

variable {K : Type} [LinearOrderedField K] [FloorRing K]

/-- The state after the loop body has taken `current` off the open set and gone through
its neighbours. -/
def expandNode (sqrt : K → K) (BoxOverlapActors : FVector K → FVector K → Bool)
    (v : ANavigationVolume3D K) (endNode : Nat) (st : SearchState K) (current : Nat)
    (rest : List Nat) : SearchState K :=
  (nodeAt st.Nodes current).Neighbors.foldl
    (relaxNeighbor sqrt BoxOverlapActors v endNode current) { st with openSet := rest }

/-- The sum of the distances between consecutive nodes of a node sequence. -/
def pathCost (sqrt : K → K) (nodes : List (NavNode K)) : List Nat → K
  | [] => 0
  | [_] => 0
  | a :: b :: rest => distance sqrt nodes a b + pathCost sqrt nodes (b :: rest)

/-- The cost of a node sequence that is listed from its last node back to its first. -/
def revCost (sqrt : K → K) (nodes : List (NavNode K)) : List Nat → K
  | [] => 0
  | [_] => 0
  | n :: p :: rest => revCost sqrt nodes (p :: rest) + distance sqrt nodes p n

/-- A node sequence, listed from its last node back to the start node, that follows
neighbour lists, repeats no node, and on which the recorded `gScore` of every node is at
most the cost of the sequence up to that node. -/
def GoodRev (sqrt : K → K) (nodes : List (NavNode K)) (startNode : Nat)
    (gScores : Nat → Option K) : List Nat → Prop
  | [] => False
  | [s] => s = startNode ∧ gScore gScores s ≤ 0
  | n :: p :: rest =>
    n ∈ (nodeAt nodes p).Neighbors ∧ n ∉ p :: rest ∧
      gScore gScores n ≤ revCost sqrt nodes (n :: p :: rest) ∧
      GoodRev sqrt nodes startNode gScores (p :: rest)

/-- The node sequences without repetition over the nodes `0 .. M-1`. -/
def simplePaths (M : Nat) : Finset (List Nat) :=
  (Finset.range M).powerset.biUnion fun s => s.val.lists

/-- The number of pairs of a node and a repetition-free node sequence whose cost is below
the node's recorded `gScore`. -/
def searchMeasure (sqrt : K → K) (nodes : List (NavNode K)) (gScores : Nat → Option K) : Nat :=
  ((Finset.range nodes.length ×ˢ simplePaths nodes.length).filter
    (fun x => revCost sqrt nodes x.2 < gScore gScores x.1)).card

/-- Every node pointer held in the array points into the array. -/
def NeighborsInRange (nodes : List (NavNode K)) : Prop :=
  ∀ p, ∀ x ∈ (nodeAt nodes p).Neighbors, x < nodes.length

/-- Invariant of the `FindPath` loop about `gScores`: every recorded value is the cost of a
repetition-free neighbour path from the start node. -/
structure TermInv (sqrt : K → K) (v : ANavigationVolume3D K) (startNode : Nat)
    (st : SearchState K) : Prop where
  graph : SameGraph v.Nodes st.Nodes
  opened : ∀ n ∈ st.openSet, ∃ g, st.gScores n = some g
  witness : ∀ n g, st.gScores n = some g →
    ∃ rp, rp.head? = some n ∧ GoodRev sqrt v.Nodes startNode st.gScores rp ∧
      revCost sqrt v.Nodes rp = g

end TermSpec

end Navigation3D

namespace Navigation3D

/-! ## Notions used to reason about the cost of the returned path -/

section OptSpec

variable {K : Type} [LinearOrderedField K] [FloorRing K]

/-- The node has an entry in the open set before which no entry has a greater `FScore`. -/
def Queued (st : SearchState K) (n : Nat) : Prop :=
  ∃ pre post, st.openSet = pre ++ n :: post ∧
    ∀ e ∈ pre, (nodeAt st.Nodes e).FScore ≤ (nodeAt st.Nodes n).FScore

/-- Every neighbour of the node has a recorded `gScore` that the edge from the node, taken
at the value `g`, cannot lower. -/
def Relaxed (sqrt : K → K) (v : ANavigationVolume3D K) (gScores : Nat → Option K) (n : Nat)
    (g : K) : Prop :=
  ∀ m ∈ (nodeAt v.Nodes n).Neighbors, gScore gScores m ≤ g + distance sqrt v.Nodes n m

/-- The part of the loop invariant that also holds inside the `for` loop over the
neighbours. -/
structure OptCore (sqrt : K → K) (v : ANavigationVolume3D K) (startNode endNode : Nat)
    (st : SearchState K) : Prop where
  term : TermInv sqrt v startNode st
  length : st.Nodes.length = v.Nodes.length
  fscore : ∀ n g, st.gScores n = some g →
    (nodeAt st.Nodes n).FScore = g + h sqrt v.Nodes endNode n
  below : ∀ n g, st.gScores n = some g → g < FLT_MAX
  came : ∀ n p, st.cameFrom n = some p →
    n ∈ (nodeAt v.Nodes p).Neighbors ∧
      gScore st.gScores p + distance sqrt v.Nodes p n ≤ gScore st.gScores n
  startG : gScore st.gScores startNode ≤ 0
  goal : (∃ g, st.gScores endNode = some g) → endNode ∈ st.openSet

/-- Invariant of the `FindPath` loop on a grid without obstructions: a node with a recorded
`gScore` either has all its edges relaxed or waits in the open set behind entries that are
not greater. -/
structure OptInv (sqrt : K → K) (v : ANavigationVolume3D K) (startNode endNode : Nat)
    (st : SearchState K) : Prop where
  core : OptCore sqrt v startNode endNode st
  settled : ∀ n g, st.gScores n = some g →
    Relaxed sqrt v st.gScores n g ∨ Queued st n

/-- Invariant of the `for` loop over the neighbours of `current`, of which those in `done`
have been gone through. -/
structure MidInv (sqrt : K → K) (v : ANavigationVolume3D K) (startNode endNode : Nat)
    (current : Nat) (gc : K) (done : List Nat) (st : SearchState K) : Prop where
  core : OptCore sqrt v startNode endNode st
  settled : ∀ n g, st.gScores n = some g → n ≠ current →
    Relaxed sqrt v st.gScores n g ∨ Queued st n
  curG : st.gScores current = some gc
  curDone : ∀ m ∈ done, gScore st.gScores m ≤ gc + distance sqrt v.Nodes current m

/-- A node sequence, listed from its last node back to its first, that follows neighbour
lists. -/
def IsRevPath (nodes : List (NavNode K)) (rp : List Nat) : Prop :=
  List.Chain' (fun n p => n ∈ (nodeAt nodes p).Neighbors) rp

end OptSpec

end Navigation3D

namespace Navigation3D

/-! ## Further concrete volumes -/

/-- The configuration of a 4 x 3 x 1 grid of cells of size 100 over the reals, placed by
the identity transform. -/
def wallConfig : ANavigationVolume3D ℝ :=
  { DivisionsX := 4, DivisionsY := 3, DivisionsZ := 1, DivisionSize := 100,
    MinSharedNeighborAxes := 0, ActorTransform := ⟨id, id⟩, Nodes := [] }

/-- An overlap query that reports an obstruction exactly for boxes centred at `x = 150`
with `y ≤ 150` and at `x = 250` with `y ≠ 150`, that is, in the 4 x 3 x 1 grid, for the
cells `(1, 0, 0)`, `(1, 1, 0)`, `(2, 0, 0)` and `(2, 2, 0)`. -/
def wallOverlap {K : Type} [LinearOrderedField K] : FVector K → FVector K → Bool :=
  fun centre _ =>
    decide ((centre.X = 150 ∧ centre.Y ≤ 150) ∨ (centre.X = 250 ∧ centre.Y ≠ 150))

/-! ## Notions used to reason about particular runs -/

section RunSpec

variable {K : Type} [LinearOrderedField K] [FloorRing K]

/-- The sum of the three coordinates stored in a node. -/
def coordinateSum (nodes : List (NavNode K)) (n : Nat) : Int :=
  (nodeAt nodes n).Coordinates.X + (nodeAt nodes n).Coordinates.Y +
    (nodeAt nodes n).Coordinates.Z

/-- The state of `FindPath` when the loop condition is evaluated for the `k`-th time after
the first, `none` when the loop has been left before. -/
def loopState (sqrt : K → K) (BoxOverlapActors : FVector K → FVector K → Bool)
    (v : ANavigationVolume3D K) (endNode : Nat) : Nat → SearchState K → Option (SearchState K)
  | 0, st => some st
  | k + 1, st =>
    match st.openSet with
    | [] => none
    | current :: rest =>
      if current = endNode then none
      else loopState sqrt BoxOverlapActors v endNode k
        (expandNode sqrt BoxOverlapActors v endNode st current rest)

/-- Every neighbour of the node that is not reported obstructed has a recorded `gScore`
that the edge from the node, taken at the value `g`, cannot lower. -/
def RelaxedFree (sqrt : K → K) (BoxOverlapActors : FVector K → FVector K → Bool)
    (v : ANavigationVolume3D K) (gScores : Nat → Option K) (n : Nat) (g : K) : Prop :=
  ∀ m ∈ (nodeAt v.Nodes n).Neighbors, nodeObstructed BoxOverlapActors v m = false →
    gScore gScores m ≤ g + distance sqrt v.Nodes n m

/-- Invariant of the `FindPath` loop under any overlap query: a node with a recorded
`gScore` either has all its edges to unobstructed neighbours relaxed or waits in the open
set behind entries that are not greater. -/
structure FreeInv (sqrt : K → K) (BoxOverlapActors : FVector K → FVector K → Bool)
    (v : ANavigationVolume3D K) (startNode endNode : Nat) (st : SearchState K) : Prop where
  core : OptCore sqrt v startNode endNode st
  settled : ∀ n g, st.gScores n = some g →
    RelaxedFree sqrt BoxOverlapActors v st.gScores n g ∨ Queued st n

/-- Invariant of the `for` loop over the neighbours of `current` under any overlap query;
the neighbours in `done` have been gone through. -/
structure FreeMidInv (sqrt : K → K) (BoxOverlapActors : FVector K → FVector K → Bool)
    (v : ANavigationVolume3D K) (startNode endNode : Nat) (current : Nat) (gc : K)
    (done : List Nat) (st : SearchState K) : Prop where
  core : OptCore sqrt v startNode endNode st
  settled : ∀ n g, st.gScores n = some g → n ≠ current →
    RelaxedFree sqrt BoxOverlapActors v st.gScores n g ∨ Queued st n
  curG : st.gScores current = some gc
  curDone : ∀ m ∈ done, nodeObstructed BoxOverlapActors v m = false →
    gScore st.gScores m ≤ gc + distance sqrt v.Nodes current m

end RunSpec

end Navigation3D

namespace Navigation3D

/-! ## Notions used to compare two runs of the search -/

section SimSpec

variable {K : Type} [LinearOrderedField K] [FloorRing K]

/-- Two states of `FindPath` that agree on the local containers and on the coordinates and
neighbours of every node, and whose node arrays hold the same `FScore` for every node of
the open set; the `FScore` of the other nodes may differ. -/
structure ScratchSim (st st' : SearchState K) : Prop where
  graph : SameGraph st.Nodes st'.Nodes
  length : st'.Nodes.length = st.Nodes.length
  openSet : st'.openSet = st.openSet
  cameFrom : st'.cameFrom = st.cameFrom
  gScores : st'.gScores = st.gScores
  fscore : ∀ n ∈ st.openSet, (nodeAt st'.Nodes n).FScore = (nodeAt st.Nodes n).FScore

end SimSpec

end Navigation3D

namespace Navigation3D

/-! ## Insert positions of a search tree -/

section TreeInsert

variable {K : Type} [LinearOrderedField K] [FloorRing K]

/-- The positions at which `std::multiset::insert` can place `p` in the sequence `es` when
the container is a search tree and the sequence need not be ordered. The new leaf lies
between two neighbours of the iteration order that are both on the descent path: the
descent went right at the one before it, which `p` therefore does not compare less than,
and left at the one after it, which `p` compares less than. Which of these positions is
taken depends on the shape of the tree. -/
def InsertAdmits (nodes : List (NavNode K)) (es : List Nat) (p : Nat) (es' : List Nat) :
    Prop :=
  ∃ front back : List Nat, es = front ++ back ∧ es' = front ++ p :: back ∧
    (∀ a, front.getLast? = some a → NodeCompare nodes p a = false) ∧
    (∀ b, back.head? = some b → NodeCompare nodes p b = true)

end TreeInsert

/-! ## Machine arithmetic

The definitions above compute the `int32` members in `Int` and the `float` members in an
ordered field, without overflow or rounding. The definitions of this part follow the same
source lines with the machine types: an `int32` result is wrapped into the `int32` range, a
`float` result is rounded by the rounding `fl` of the float type, and the conversion of a
`float` to `int32` is `FloatToInt32`. -/

/-- Engine constant `MIN_int32`. -/
def MIN_int32 : Int := -2147483648

/-- Engine constant `MAX_int32`. -/
def MAX_int32 : Int := 2147483647

/-- The value an `int32` operation delivers when the exact result is `n`: two's complement
wrap-around into `[MIN_int32, MAX_int32]`. -/
def wrapInt32 (n : Int) : Int := (n - MIN_int32) % 4294967296 + MIN_int32

section Machine

variable {K : Type} [LinearOrderedField K] [FloorRing K]

/-- Accessor `GetTotalDivisions`, `return DivisionsX * DivisionsY * DivisionsZ;` in
`int32`. -/
def GetTotalDivisions_int32 (v : ANavigationVolume3D K) : Int :=
  wrapInt32 (wrapInt32 (v.DivisionsX * v.DivisionsY) * v.DivisionsZ)

/-- The array index computed by `GetNode`, in `int32`. -/
def GetNodeIndex_int32 (v : ANavigationVolume3D K) (coordinates : FIntVector) : Int :=
  let coordinates := ClampCoordinates v coordinates
  let divisionPerLevel := wrapInt32 (v.DivisionsX * v.DivisionsY)
  wrapInt32 (wrapInt32 (wrapInt32 (coordinates.Z * divisionPerLevel) +
    wrapInt32 (coordinates.Y * v.DivisionsX)) + coordinates.X)

/-- The assignment of a `float` to an `int32` member, as in `coordinates.X = ...` of
`ConvertLocationToCoordinates`: truncation toward zero when the truncated value is an
`int32`. Outside that range the language defines no result; the value taken here is the
one the x86 conversion instructions deliver, `MIN_int32`. -/
def FloatToInt32 (x : K) : Int :=
  if MIN_int32 ≤ FloatToInt x ∧ FloatToInt x ≤ MAX_int32 then FloatToInt x else MIN_int32

/-- Accessor `GetGridSizeX`, every operation rounded by `fl`. -/
def GetGridSizeX_float (fl : K → K) (v : ANavigationVolume3D K) : K :=
  fl (fl (v.DivisionsX : K) * v.DivisionSize)

/-- Accessor `GetGridSizeY`, every operation rounded by `fl`. -/
def GetGridSizeY_float (fl : K → K) (v : ANavigationVolume3D K) : K :=
  fl (fl (v.DivisionsY : K) * v.DivisionSize)

/-- Accessor `GetGridSizeZ`, every operation rounded by `fl`. -/
def GetGridSizeZ_float (fl : K → K) (v : ANavigationVolume3D K) : K :=
  fl (fl (v.DivisionsZ : K) * v.DivisionSize)

/-- Function `ConvertLocationToCoordinates` with machine arithmetic: the conversion of a
division count to `float`, the division and the multiplication are each rounded by `fl`,
and the result is assigned to the `int32` coordinate by `FloatToInt32`. With `fl = id` the
`float` operations are exact. -/
def ConvertLocationToCoordinates_float (fl : K → K) (v : ANavigationVolume3D K)
    (location : FVector K) : FIntVector :=
  let gridSpaceLocation := v.ActorTransform.InverseTransformLocation location
  ClampCoordinates v
    { X := FloatToInt32
        (fl (fl (v.DivisionsX : K) * fl (gridSpaceLocation.X / GetGridSizeX_float fl v))),
      Y := FloatToInt32
        (fl (fl (v.DivisionsY : K) * fl (gridSpaceLocation.Y / GetGridSizeY_float fl v))),
      Z := FloatToInt32
        (fl (fl (v.DivisionsZ : K) * fl (gridSpaceLocation.Z / GetGridSizeZ_float fl v))) }

end Machine

/-- A grid of 65536 x 65536 x 2 cells of size 100, placed by the identity transform. -/
def overflowConfig : ANavigationVolume3D ℚ :=
  { DivisionsX := 65536, DivisionsY := 65536, DivisionsZ := 2, DivisionSize := 100,
    MinSharedNeighborAxes := 0, ActorTransform := ⟨id, id⟩, Nodes := [] }

/-- A grid of 50000 x 50000 x 1 cells of size 100, placed by the identity transform. -/
def wideConfig : ANavigationVolume3D ℚ :=
  { DivisionsX := 50000, DivisionsY := 50000, DivisionsZ := 1, DivisionSize := 100,
    MinSharedNeighborAxes := 0, ActorTransform := ⟨id, id⟩, Nodes := [] }

end Navigation3D

set_option linter.unusedSectionVars false

namespace Navigation3D

section GridLemmas

variable {K : Type} [LinearOrderedField K] [FloorRing K]

theorem FMath.Clamp_of_mem {x lo hi : Int} (h1 : lo ≤ x) (h2 : x ≤ hi) :
    FMath.Clamp x lo hi = x := by
  unfold FMath.Clamp
  split_ifs <;> omega

theorem FMath.Clamp_mem {x lo hi : Int} (h : lo ≤ hi) :
    lo ≤ FMath.Clamp x lo hi ∧ FMath.Clamp x lo hi ≤ hi := by
  unfold FMath.Clamp
  split_ifs <;> omega

theorem AreCoordinatesValid_iff (v : ANavigationVolume3D K) (c : FIntVector) :
    AreCoordinatesValid v c = true ↔
      (0 ≤ c.X ∧ c.X < v.DivisionsX) ∧ (0 ≤ c.Y ∧ c.Y < v.DivisionsY) ∧
        (0 ≤ c.Z ∧ c.Z < v.DivisionsZ) := by
  simp [AreCoordinatesValid, and_assoc]

theorem ClampCoordinates_of_valid (v : ANavigationVolume3D K) (c : FIntVector)
    (hc : AreCoordinatesValid v c = true) : ClampCoordinates v c = c := by
  rw [AreCoordinatesValid_iff] at hc
  obtain ⟨⟨h1, h2⟩, ⟨h3, h4⟩, h5, h6⟩ := hc
  ext <;> simp only [ClampCoordinates] <;> apply FMath.Clamp_of_mem <;> omega

theorem ClampCoordinates_valid (v : ANavigationVolume3D K) (hx : 1 ≤ v.DivisionsX)
    (hy : 1 ≤ v.DivisionsY) (hz : 1 ≤ v.DivisionsZ) (c : FIntVector) :
    AreCoordinatesValid v (ClampCoordinates v c) = true := by
  rw [AreCoordinatesValid_iff]
  have h1 := @FMath.Clamp_mem c.X 0 (v.DivisionsX - 1) (by omega)
  have h2 := @FMath.Clamp_mem c.Y 0 (v.DivisionsY - 1) (by omega)
  have h3 := @FMath.Clamp_mem c.Z 0 (v.DivisionsZ - 1) (by omega)
  simp only [ClampCoordinates]
  omega

theorem FloatToInt_intCast_add_half (n : Int) (hn : 0 ≤ n) :
    FloatToInt ((n : K) + 1 / 2) = n := by
  have h0 : (0 : K) ≤ (n : K) := by exact_mod_cast hn
  have h1 : (0 : K) ≤ (n : K) + 1 / 2 := by linarith
  unfold FloatToInt
  rw [if_pos h1, Int.floor_eq_iff]
  constructor <;> linarith

theorem cell_ratio (d : Int) (s g : K) (hd : 1 ≤ d) (hs : 0 < s) :
    (d : K) * (g / ((d : K) * s)) = g / s := by
  have hd0 : (d : K) ≠ 0 := by
    have : (0 : K) < (d : K) := by exact_mod_cast (by omega : (0 : Int) < d)
    exact ne_of_gt this
  field_simp
  ring

end GridLemmas

section GridClaims

variable {K : Type} [LinearOrderedField K] [FloorRing K]

/-- C9: `ClampCoordinates` is idempotent when every axis has at least one division, and it
leaves a valid coordinate unchanged. -/
theorem C9_clamp_idempotent (v : ANavigationVolume3D K) (hx : 1 ≤ v.DivisionsX)
    (hy : 1 ≤ v.DivisionsY) (hz : 1 ≤ v.DivisionsZ) (c : FIntVector) :
    ClampCoordinates v (ClampCoordinates v c) = ClampCoordinates v c ∧
      (AreCoordinatesValid v c = true → ClampCoordinates v c = c) :=
  ⟨ClampCoordinates_of_valid v _ (ClampCoordinates_valid v hx hy hz c),
    ClampCoordinates_of_valid v c⟩

theorem C9_clamp_idempotent_witness :
    (1 : Int) ≤ sampleVolume.DivisionsX ∧ (1 : Int) ≤ sampleVolume.DivisionsY ∧
      (1 : Int) ≤ sampleVolume.DivisionsZ ∧
      (ClampCoordinates sampleVolume (ClampCoordinates sampleVolume ⟨7, -2, 3⟩) =
          ClampCoordinates sampleVolume ⟨7, -2, 3⟩ ∧
        (AreCoordinatesValid sampleVolume ⟨7, -2, 3⟩ = true →
          ClampCoordinates sampleVolume ⟨7, -2, 3⟩ = ⟨7, -2, 3⟩)) :=
  ⟨by decide, by decide, by decide,
    C9_clamp_idempotent sampleVolume (by decide) (by decide) (by decide) ⟨7, -2, 3⟩⟩

/-- C6: with at least one division per axis, a positive division size and a placement
transform whose inverse undoes it, converting a valid coordinate to a location and back
gives the coordinate again. -/
theorem C6_round_trip (v : ANavigationVolume3D K) (hx : 1 ≤ v.DivisionsX)
    (hy : 1 ≤ v.DivisionsY) (hz : 1 ≤ v.DivisionsZ) (hs : 0 < v.DivisionSize)
    (hT : ∀ p, v.ActorTransform.InverseTransformLocation
      (v.ActorTransform.TransformLocation p) = p)
    (c : FIntVector) (hc : AreCoordinatesValid v c = true) :
    ConvertLocationToCoordinates v (ConvertCoordinatesToLocation v c) = c := by
  have hc' := (AreCoordinatesValid_iff v c).1 hc
  obtain ⟨⟨h1, h2⟩, ⟨h3, h4⟩, h5, h6⟩ := hc'
  have hs0 : v.DivisionSize ≠ 0 := ne_of_gt hs
  have key : ∀ n : Int, ((n : K) * v.DivisionSize + v.DivisionSize * (1 / 2)) / v.DivisionSize
      = (n : K) + 1 / 2 := by
    intro n; field_simp; ring
  unfold ConvertLocationToCoordinates ConvertCoordinatesToLocation
  simp only [hT]
  have hu : ConvertLocationToCoordinates_unclamped v
      (ConvertCoordinatesToLocation_gridSpaceLocation v c) = c := by
    unfold ConvertLocationToCoordinates_unclamped ConvertCoordinatesToLocation_gridSpaceLocation
    simp only [ClampCoordinates_of_valid v c hc, GetGridSizeX, GetGridSizeY, GetGridSizeZ]
    rw [cell_ratio _ _ _ hx hs, cell_ratio _ _ _ hy hs, cell_ratio _ _ _ hz hs, key, key, key,
      FloatToInt_intCast_add_half _ h1, FloatToInt_intCast_add_half _ h3,
      FloatToInt_intCast_add_half _ h5]
  rw [hu]
  exact ClampCoordinates_of_valid v c hc

theorem C6_round_trip_witness :
    (1 : Int) ≤ sampleVolume.DivisionsX ∧ (1 : Int) ≤ sampleVolume.DivisionsY ∧
      (1 : Int) ≤ sampleVolume.DivisionsZ ∧ 0 < sampleVolume.DivisionSize ∧
      (∀ p, sampleVolume.ActorTransform.InverseTransformLocation
        (sampleVolume.ActorTransform.TransformLocation p) = p) ∧
      AreCoordinatesValid sampleVolume ⟨2, 0, 4⟩ = true ∧
      ConvertLocationToCoordinates sampleVolume
        (ConvertCoordinatesToLocation sampleVolume ⟨2, 0, 4⟩) = ⟨2, 0, 4⟩ :=
  ⟨by decide, by decide, by decide, by norm_num [sampleVolume], fun _ => rfl, by decide,
    C6_round_trip sampleVolume (by decide) (by decide) (by decide) (by norm_num [sampleVolume])
      (fun _ => rfl) ⟨2, 0, 4⟩ (by decide)⟩

end GridClaims

end Navigation3D

namespace Navigation3D

section GraphLemmas

variable {K : Type} [LinearOrderedField K] [FloorRing K]

theorem nodeAt_set_eq (nodes : List (NavNode K)) (i : Nat) (n : NavNode K)
    (hi : i < nodes.length) : nodeAt (nodes.set i n) i = n := by
  simp [nodeAt, List.getElem?_set_self hi]

theorem nodeAt_set_ne (nodes : List (NavNode K)) (i j : Nat) (n : NavNode K) (hij : i ≠ j) :
    nodeAt (nodes.set i n) j = nodeAt nodes j := by
  simp [nodeAt, List.getElem?_set_ne hij]

theorem mixed_radix_inj (D x x' q q' : Int) (hx : 0 ≤ x ∧ x < D) (hx' : 0 ≤ x' ∧ x' < D)
    (h : x + D * q = x' + D * q') : x = x' ∧ q = q' := by
  have hD : 0 < D := by omega
  have e1 : (x + D * q) % D = x := by
    rw [Int.add_mul_emod_self_left]; exact Int.emod_eq_of_lt hx.1 hx.2
  have e2 : (x' + D * q') % D = x' := by
    rw [Int.add_mul_emod_self_left]; exact Int.emod_eq_of_lt hx'.1 hx'.2
  have hxx : x = x' := by rw [← e1, ← e2, h]
  refine ⟨hxx, ?_⟩
  have : D * q = D * q' := by omega
  exact mul_left_cancel₀ (ne_of_gt hD) this

theorem GetNodeIndex_of_valid (v : ANavigationVolume3D K) (c : FIntVector)
    (hc : AreCoordinatesValid v c = true) :
    GetNodeIndex v c = c.X + v.DivisionsX * (c.Y + v.DivisionsY * c.Z) := by
  unfold GetNodeIndex
  simp only [ClampCoordinates_of_valid v c hc]
  ring

theorem GetNodeIndex_bounds (v : ANavigationVolume3D K) (c : FIntVector)
    (hc : AreCoordinatesValid v c = true) :
    0 ≤ GetNodeIndex v c ∧ GetNodeIndex v c < GetTotalDivisions v := by
  rw [GetNodeIndex_of_valid v c hc]
  obtain ⟨⟨h1, h2⟩, ⟨h3, h4⟩, h5, h6⟩ := (AreCoordinatesValid_iff v c).1 hc
  unfold GetTotalDivisions
  have hq1 : 0 ≤ c.Y + v.DivisionsY * c.Z := by
    have := mul_nonneg (show (0 : Int) ≤ v.DivisionsY by omega) h5
    linarith
  have hq2 : c.Y + v.DivisionsY * c.Z + 1 ≤ v.DivisionsY * v.DivisionsZ := by
    have : v.DivisionsY * (c.Z + 1) ≤ v.DivisionsY * v.DivisionsZ :=
      mul_le_mul_of_nonneg_left (by omega) (by omega)
    linarith
  constructor
  · have := mul_nonneg (show (0 : Int) ≤ v.DivisionsX by omega) hq1
    linarith
  · have : v.DivisionsX * (c.Y + v.DivisionsY * c.Z + 1) ≤
        v.DivisionsX * (v.DivisionsY * v.DivisionsZ) :=
      mul_le_mul_of_nonneg_left hq2 (by omega)
    linarith

theorem GetNodeIndex_inj (v : ANavigationVolume3D K) (c c' : FIntVector)
    (hc : AreCoordinatesValid v c = true) (hc' : AreCoordinatesValid v c' = true)
    (h : GetNodeIndex v c = GetNodeIndex v c') : c = c' := by
  rw [GetNodeIndex_of_valid v c hc, GetNodeIndex_of_valid v c' hc'] at h
  obtain ⟨hx, hy, hz⟩ := (AreCoordinatesValid_iff v c).1 hc
  obtain ⟨hx', hy', hz'⟩ := (AreCoordinatesValid_iff v c').1 hc'
  obtain ⟨e1, e2⟩ := mixed_radix_inj _ _ _ _ _ hx hx' h
  obtain ⟨e3, e4⟩ := mixed_radix_inj _ _ _ _ _ hy hy' e2
  ext <;> assumption

theorem GetNode_inj (v : ANavigationVolume3D K) (c c' : FIntVector)
    (hc : AreCoordinatesValid v c = true) (hc' : AreCoordinatesValid v c' = true)
    (h : GetNode v c = GetNode v c') : c = c' := by
  apply GetNodeIndex_inj v c c' hc hc'
  have h1 := (GetNodeIndex_bounds v c hc).1
  have h2 := (GetNodeIndex_bounds v c' hc').1
  unfold GetNode at h
  omega

theorem GetNode_lt (v : ANavigationVolume3D K) (c : FIntVector)
    (hc : AreCoordinatesValid v c = true) : GetNode v c < (GetTotalDivisions v).toNat := by
  have h1 := GetNodeIndex_bounds v c hc
  unfold GetNode
  omega

end GraphLemmas

end Navigation3D

namespace Navigation3D

section BeginPlayLemmas

variable {K : Type} [LinearOrderedField K] [FloorRing K]

theorem addNeighborIfValid_eq (v : ANavigationVolume3D K) (nodes : List (NavNode K)) (i : Nat)
    (nc : FIntVector) :
    addNeighborIfValid v nodes i nc =
      if neighborAccepted v (nodeAt nodes i).Coordinates nc then
        pushNeighbor nodes i (GetNode v nc) else nodes := by
  unfold addNeighborIfValid neighborAccepted sharedAxesCount
  by_cases hv : AreCoordinatesValid v nc = true
  · simp [hv]
  · simp [hv]

theorem foldl_addNeighborIfValid (v : ANavigationVolume3D K) (i : Nat) (ncs : List FIntVector) :
    ∀ nodes : List (NavNode K), i < nodes.length →
      ncs.foldl (fun nodes nc => addNeighborIfValid v nodes i nc) nodes =
        nodes.set i { nodeAt nodes i with
          Neighbors := (nodeAt nodes i).Neighbors ++
            (ncs.filter (neighborAccepted v (nodeAt nodes i).Coordinates)).map (GetNode v) } := by
  induction ncs with
  | nil =>
    intro nodes hi
    simp only [List.foldl_nil, List.filter_nil, List.map_nil, List.append_nil]
    apply List.ext_getElem? 
    intro j
    by_cases hij : i = j
    · subst hij
      rw [List.getElem?_set_self hi]
      simp [nodeAt, List.getElem?_eq_getElem hi]
    · rw [List.getElem?_set_ne hij]
  | cons nc ncs ih =>
    intro nodes hi
    rw [List.foldl_cons, addNeighborIfValid_eq]
    by_cases hacc : neighborAccepted v (nodeAt nodes i).Coordinates nc = true
    · rw [if_pos hacc]
      have hlen : i < (pushNeighbor nodes i (GetNode v nc)).length := by
        simp [pushNeighbor, hi]
      rw [ih _ hlen]
      have hn : nodeAt (pushNeighbor nodes i (GetNode v nc)) i =
          { nodeAt nodes i with Neighbors := (nodeAt nodes i).Neighbors ++ [GetNode v nc] } := by
        unfold pushNeighbor
        rw [nodeAt_set_eq _ _ _ hi]
      rw [hn]
      simp only [pushNeighbor, List.set_set, List.filter_cons, hacc, if_true, List.map_cons,
        List.append_assoc, List.singleton_append]
    · rw [if_neg hacc, ih _ hi]
      simp only [List.filter_cons, hacc, Bool.false_eq_true, if_false]

theorem BeginPlay_body_eq (v : ANavigationVolume3D K) (nodes : List (NavNode K))
    (c : FIntVector) (hi : GetNode v c < nodes.length) :
    BeginPlay_body v nodes c.X c.Y c.Z =
      nodes.set (GetNode v c)
        { Coordinates := c,
          Neighbors := (nodeAt nodes (GetNode v c)).Neighbors ++ cellNeighbors v c,
          FScore := (nodeAt nodes (GetNode v c)).FScore } := by
  unfold BeginPlay_body
  have hc : (⟨c.X, c.Y, c.Z⟩ : FIntVector) = c := rfl
  simp only [hc]
  have hfold : ∀ nodes' : List (NavNode K),
      neighborOffsets.foldl (fun nodes d =>
        addNeighborIfValid v nodes (GetNode v c) ⟨c.X + d.X, c.Y + d.Y, c.Z + d.Z⟩) nodes' =
      (neighborOffsets.map c.offset).foldl
        (fun nodes nc => addNeighborIfValid v nodes (GetNode v c) nc) nodes' := by
    intro nodes'
    rw [List.foldl_map]
    rfl
  rw [hfold]
  have hlen : GetNode v c < (setCoordinates nodes (GetNode v c) c).length := by
    simp [setCoordinates, hi]
  rw [foldl_addNeighborIfValid v _ _ _ hlen]
  have hn : nodeAt (setCoordinates nodes (GetNode v c) c) (GetNode v c) =
      { nodeAt nodes (GetNode v c) with Coordinates := c } := by
    unfold setCoordinates
    rw [nodeAt_set_eq _ _ _ hi]
  rw [hn]
  simp only [setCoordinates, List.set_set, cellNeighbors]

theorem BeginPlay_nodes_eq (v : ANavigationVolume3D K) :
    BeginPlay_nodes v =
      (gridCells v).foldl (fun nodes c => BeginPlay_body v nodes c.X c.Y c.Z)
        (List.replicate (GetTotalDivisions v).toNat NavNode.new) := by
  unfold BeginPlay_nodes gridCells
  simp only [List.flatMap_def, List.foldl_flatten, List.foldl_map]

theorem mem_gridCells (v : ANavigationVolume3D K) (c : FIntVector) :
    c ∈ gridCells v ↔ AreCoordinatesValid v c = true := by
  rw [AreCoordinatesValid_iff]
  unfold gridCells
  simp only [List.mem_flatMap, List.mem_map, List.mem_range]
  constructor
  · rintro ⟨z, hz, y, hy, x, hx, rfl⟩
    simp only
    omega
  · rintro ⟨⟨h1, h2⟩, ⟨h3, h4⟩, h5, h6⟩
    refine ⟨c.Z.toNat, by omega, c.Y.toNat, by omega, c.X.toNat, by omega, ?_⟩
    ext <;> simp only <;> omega

theorem nodup_gridCells (v : ANavigationVolume3D K) : (gridCells v).Nodup := by
  unfold gridCells
  rw [List.nodup_flatMap]
  refine ⟨fun z _ => ?_, ?_⟩
  · rw [List.nodup_flatMap]
    refine ⟨fun y _ => ?_, ?_⟩
    · apply List.Nodup.map _ (List.nodup_range _)
      intro x x' hxx
      have := congrArg FIntVector.X hxx
      simpa using this
    · apply List.Pairwise.imp _ (List.nodup_range _)
      intro y y' hyy
      simp only [Function.onFun, List.disjoint_left, List.mem_map, not_exists, not_and]
      rintro c ⟨x, _, rfl⟩ x' _ h
      have := congrArg FIntVector.Y h
      simp only at this
      omega
  · apply List.Pairwise.imp _ (List.nodup_range _)
    intro z z' hzz
    simp only [Function.onFun, List.disjoint_left, List.mem_flatMap, List.mem_map,
      not_exists, not_and]
    rintro c ⟨y, _, x, _, rfl⟩ y' _ x' _ h
    have := congrArg FIntVector.Z h
    simp only at this
    omega

theorem foldl_body_length (v : ANavigationVolume3D K) (cs : List FIntVector) :
    ∀ nodes : List (NavNode K),
      (∀ c ∈ cs, GetNode v c < nodes.length) →
      (cs.foldl (fun nodes c => BeginPlay_body v nodes c.X c.Y c.Z) nodes).length =
        nodes.length := by
  induction cs with
  | nil => intro nodes _; rfl
  | cons c cs ih =>
    intro nodes hlt
    rw [List.foldl_cons, BeginPlay_body_eq v nodes c (hlt c (List.mem_cons_self _ _))]
    rw [ih]
    · simp
    · intro c' hc'
      simpa using hlt c' (List.mem_cons_of_mem _ hc')

theorem foldl_body_nodeAt (v : ANavigationVolume3D K) (a : FIntVector)
    (ha : AreCoordinatesValid v a = true) (cs : List FIntVector) :
    ∀ nodes : List (NavNode K), cs.Nodup →
      (∀ c ∈ cs, AreCoordinatesValid v c = true) →
      (GetTotalDivisions v).toNat = nodes.length →
      nodeAt (cs.foldl (fun nodes c => BeginPlay_body v nodes c.X c.Y c.Z) nodes)
          (GetNode v a) =
        if a ∈ cs then
          { Coordinates := a,
            Neighbors := (nodeAt nodes (GetNode v a)).Neighbors ++ cellNeighbors v a,
            FScore := (nodeAt nodes (GetNode v a)).FScore }
        else nodeAt nodes (GetNode v a) := by
  induction cs with
  | nil => intro nodes _ _ _; simp
  | cons c cs ih =>
    intro nodes hnd hval hlen
    have hcv := hval c (List.mem_cons_self _ _)
    have hci : GetNode v c < nodes.length := hlen ▸ GetNode_lt v c hcv
    have hai : GetNode v a < nodes.length := hlen ▸ GetNode_lt v a ha
    rw [List.foldl_cons, BeginPlay_body_eq v nodes c hci]
    rw [ih _ (List.nodup_cons.1 hnd).2 (fun c' hc' => hval c' (List.mem_cons_of_mem _ hc'))
      (by simpa using hlen)]
    by_cases hac : a = c
    · subst hac
      have hnot : a ∉ cs := (List.nodup_cons.1 hnd).1
      simp only [hnot, if_false, List.mem_cons, true_or, if_true]
      rw [nodeAt_set_eq _ _ _ hai]
    · have hne : GetNode v c ≠ GetNode v a := fun h => hac (GetNode_inj v c a hcv ha h).symm
      simp only [List.mem_cons, hac, false_or]
      rw [nodeAt_set_ne _ _ _ _ hne]

theorem nodeAt_replicate_new (n i : Nat) :
    nodeAt (List.replicate n (NavNode.new : NavNode K)) i = NavNode.new := by
  unfold nodeAt
  rw [List.getD_eq_getElem?_getD, List.getElem?_replicate]
  split_ifs <;> rfl

/-- After `BeginPlay`, the node of a valid cell holds the cell's coordinates and the
neighbours accepted for it, in the order of the calls. -/
theorem BeginPlay_nodeAt (v : ANavigationVolume3D K) (a : FIntVector)
    (ha : AreCoordinatesValid v a = true) :
    nodeAt (BeginPlay v).Nodes (GetNode v a) =
      { Coordinates := a, Neighbors := cellNeighbors v a, FScore := FLT_MAX } := by
  show nodeAt (BeginPlay_nodes v) (GetNode v a) = _
  rw [BeginPlay_nodes_eq, foldl_body_nodeAt v a ha _ _ (nodup_gridCells v)
    (fun c hc => (mem_gridCells v c).1 hc) (by simp)]
  rw [if_pos ((mem_gridCells v a).2 ha), nodeAt_replicate_new]
  rfl

theorem BeginPlay_length (v : ANavigationVolume3D K) :
    (BeginPlay v).Nodes.length = (GetTotalDivisions v).toNat := by
  show (BeginPlay_nodes v).length = _
  rw [BeginPlay_nodes_eq, foldl_body_length]
  · simp
  · intro c hc
    simpa using GetNode_lt v c ((mem_gridCells v c).1 hc)

end BeginPlayLemmas

end Navigation3D

namespace Navigation3D

section NeighborLemmas

variable {K : Type} [LinearOrderedField K] [FloorRing K]

theorem mem_neighborOffsets (d : FIntVector) :
    d ∈ neighborOffsets ↔
      (-1 ≤ d.X ∧ d.X ≤ 1) ∧ (-1 ≤ d.Y ∧ d.Y ≤ 1) ∧ (-1 ≤ d.Z ∧ d.Z ≤ 1) ∧
        d ≠ ⟨0, 0, 0⟩ := by
  constructor
  · intro h
    simp only [neighborOffsets, List.mem_cons, List.mem_singleton, List.not_mem_nil,
      or_false] at h
    rcases h with h | h | h | h | h | h | h | h | h | h | h | h | h | h | h | h | h | h | h |
      h | h | h | h | h | h | h <;> subst h <;> decide
  · rcases d with ⟨x, y, z⟩
    rintro ⟨⟨h1, h2⟩, ⟨h3, h4⟩, ⟨h5, h6⟩, h7⟩
    simp only at h1 h2 h3 h4 h5 h6
    have hx : x = -1 ∨ x = 0 ∨ x = 1 := by omega
    have hy : y = -1 ∨ y = 0 ∨ y = 1 := by omega
    have hz : z = -1 ∨ z = 0 ∨ z = 1 := by omega
    rcases hx with rfl | rfl | rfl <;> rcases hy with rfl | rfl | rfl <;>
      rcases hz with rfl | rfl | rfl <;> first | decide | exact absurd rfl h7

theorem nodup_neighborOffsets : neighborOffsets.Nodup := by decide

theorem offset_injective (a : FIntVector) : Function.Injective a.offset := by
  intro d d' h
  have h1 := congrArg FIntVector.X h
  have h2 := congrArg FIntVector.Y h
  have h3 := congrArg FIntVector.Z h
  simp only [FIntVector.offset] at h1 h2 h3
  ext <;> omega

theorem sharedAxesCount_lt_three (a b : FIntVector) : sharedAxesCount a b < 3 ↔ a ≠ b := by
  unfold sharedAxesCount
  constructor
  · rintro h rfl
    simp at h
  · intro h
    by_contra hcon
    apply h
    ext <;> by_contra hne <;> simp only [hne, if_false] at hcon <;>
      split_ifs at hcon <;> omega

theorem neighborAccepted_iff (v : ANavigationVolume3D K) (a b : FIntVector) :
    neighborAccepted v a b = true ↔
      AreCoordinatesValid v b = true ∧ a ≠ b ∧
        sharedAxesCount a b ≥ v.MinSharedNeighborAxes := by
  unfold neighborAccepted
  simp only [Bool.and_eq_true, decide_eq_true_eq, sharedAxesCount_lt_three]
  tauto

theorem mem_cellNeighbors (v : ANavigationVolume3D K) (a : FIntVector) (j : Nat) :
    j ∈ cellNeighbors v a ↔
      ∃ b, ((-1 ≤ b.X - a.X ∧ b.X - a.X ≤ 1) ∧ (-1 ≤ b.Y - a.Y ∧ b.Y - a.Y ≤ 1) ∧
          (-1 ≤ b.Z - a.Z ∧ b.Z - a.Z ≤ 1)) ∧
        AreCoordinatesValid v b = true ∧ a ≠ b ∧
        sharedAxesCount a b ≥ v.MinSharedNeighborAxes ∧ GetNode v b = j := by
  unfold cellNeighbors
  simp only [List.mem_map, List.mem_filter, neighborAccepted_iff, mem_neighborOffsets]
  constructor
  · rintro ⟨b, ⟨⟨d, hd, rfl⟩, hv, hne, hs⟩, rfl⟩
    refine ⟨a.offset d, ?_, hv, hne, hs, rfl⟩
    simp only [FIntVector.offset]
    omega
  · rintro ⟨b, hb, hv, hne, hs, rfl⟩
    refine ⟨b, ⟨⟨⟨b.X - a.X, b.Y - a.Y, b.Z - a.Z⟩, ⟨?_, ?_⟩⟩, hv, hne, hs⟩, rfl⟩
    · refine ⟨hb.1, hb.2.1, hb.2.2, ?_⟩
      intro h0
      apply hne
      have h1 := congrArg FIntVector.X h0
      have h2 := congrArg FIntVector.Y h0
      have h3 := congrArg FIntVector.Z h0
      simp only at h1 h2 h3
      ext <;> omega
    · ext <;> simp only [FIntVector.offset] <;> omega

theorem nodup_cellNeighbors (v : ANavigationVolume3D K) (a : FIntVector) :
    (cellNeighbors v a).Nodup := by
  unfold cellNeighbors
  apply List.Nodup.map_on
  · intro b hb b' hb' hbb
    rw [List.mem_filter, neighborAccepted_iff] at hb hb'
    exact GetNode_inj v b b' hb.2.1 hb'.2.1 hbb
  · exact List.Nodup.filter _ (List.Nodup.map (offset_injective a) nodup_neighborOffsets)

end NeighborLemmas

section NeighborClaims

variable {K : Type} [LinearOrderedField K] [FloorRing K]

/-- C10: after `BeginPlay`, for a valid coordinate `a` and any coordinate `b`, the neighbour
list of the node at `a` holds a node whose coordinates are `b` exactly when `b` is within
the grid, differs from `a` by an offset in `{-1,0,1}^3` other than zero and agrees with `a`
on at least `MinSharedNeighborAxes` axes; for a valid `b` that node is `GetNode b`; and no
node is listed twice. -/
theorem C10_neighbors_characterised (v : ANavigationVolume3D K) (a b : FIntVector)
    (ha : AreCoordinatesValid v a = true) :
    ((∃ j ∈ (nodeAt (BeginPlay v).Nodes (GetNode v a)).Neighbors,
          (nodeAt (BeginPlay v).Nodes j).Coordinates = b) ↔
        (AreCoordinatesValid v b = true ∧
          ((-1 ≤ b.X - a.X ∧ b.X - a.X ≤ 1) ∧ (-1 ≤ b.Y - a.Y ∧ b.Y - a.Y ≤ 1) ∧
            (-1 ≤ b.Z - a.Z ∧ b.Z - a.Z ≤ 1)) ∧ b ≠ a ∧
          sharedAxesCount a b ≥ v.MinSharedNeighborAxes)) ∧
      (AreCoordinatesValid v b = true →
        (GetNode v b ∈ (nodeAt (BeginPlay v).Nodes (GetNode v a)).Neighbors ↔
          (((-1 ≤ b.X - a.X ∧ b.X - a.X ≤ 1) ∧ (-1 ≤ b.Y - a.Y ∧ b.Y - a.Y ≤ 1) ∧
            (-1 ≤ b.Z - a.Z ∧ b.Z - a.Z ≤ 1)) ∧ b ≠ a ∧
          sharedAxesCount a b ≥ v.MinSharedNeighborAxes))) ∧
      (nodeAt (BeginPlay v).Nodes (GetNode v a)).Neighbors.Nodup := by
  rw [BeginPlay_nodeAt v a ha]
  simp only
  refine ⟨⟨?_, ?_⟩, ?_, nodup_cellNeighbors v a⟩
  · rintro ⟨j, hj, hjb⟩
    obtain ⟨b', hoff, hv, hne, hs, rfl⟩ := (mem_cellNeighbors v a j).1 hj
    rw [BeginPlay_nodeAt v b' hv] at hjb
    simp only at hjb
    subst hjb
    exact ⟨hv, hoff, fun h => hne h.symm, hs⟩
  · rintro ⟨hv, hoff, hne, hs⟩
    refine ⟨GetNode v b, (mem_cellNeighbors v a _).2 ⟨b, hoff, hv, fun h => hne h.symm, hs, rfl⟩,
      ?_⟩
    rw [BeginPlay_nodeAt v b hv]
  · intro hv
    constructor
    · intro hj
      obtain ⟨b', hoff, hv', hne, hs, hbb⟩ := (mem_cellNeighbors v a _).1 hj
      have := GetNode_inj v b' b hv' hv hbb
      subst this
      exact ⟨hoff, fun h => hne h.symm, hs⟩
    · rintro ⟨hoff, hne, hs⟩
      exact (mem_cellNeighbors v a _).2 ⟨b, hoff, hv, fun h => hne h.symm, hs, rfl⟩

theorem C10_neighbors_characterised_witness :
    AreCoordinatesValid sampleVolume ⟨0, 3, 2⟩ = true ∧
    (((∃ j ∈ (nodeAt (BeginPlay sampleVolume).Nodes (GetNode sampleVolume ⟨0, 3, 2⟩)).Neighbors,
          (nodeAt (BeginPlay sampleVolume).Nodes j).Coordinates = ⟨1, 2, 3⟩) ↔
        (AreCoordinatesValid sampleVolume ⟨1, 2, 3⟩ = true ∧
          ((-1 ≤ (1 : Int) - 0 ∧ (1 : Int) - 0 ≤ 1) ∧ (-1 ≤ (2 : Int) - 3 ∧ (2 : Int) - 3 ≤ 1) ∧
            (-1 ≤ (3 : Int) - 2 ∧ (3 : Int) - 2 ≤ 1)) ∧
          (⟨1, 2, 3⟩ : FIntVector) ≠ ⟨0, 3, 2⟩ ∧
          sharedAxesCount ⟨0, 3, 2⟩ ⟨1, 2, 3⟩ ≥ sampleVolume.MinSharedNeighborAxes)) ∧
      (AreCoordinatesValid sampleVolume ⟨1, 2, 3⟩ = true →
        (GetNode sampleVolume ⟨1, 2, 3⟩ ∈
            (nodeAt (BeginPlay sampleVolume).Nodes (GetNode sampleVolume ⟨0, 3, 2⟩)).Neighbors ↔
          (((-1 ≤ (1 : Int) - 0 ∧ (1 : Int) - 0 ≤ 1) ∧
              (-1 ≤ (2 : Int) - 3 ∧ (2 : Int) - 3 ≤ 1) ∧
              (-1 ≤ (3 : Int) - 2 ∧ (3 : Int) - 2 ≤ 1)) ∧
            (⟨1, 2, 3⟩ : FIntVector) ≠ ⟨0, 3, 2⟩ ∧
            sharedAxesCount ⟨0, 3, 2⟩ ⟨1, 2, 3⟩ ≥ sampleVolume.MinSharedNeighborAxes))) ∧
      (nodeAt (BeginPlay sampleVolume).Nodes (GetNode sampleVolume ⟨0, 3, 2⟩)).Neighbors.Nodup) :=
  ⟨by decide, C10_neighbors_characterised sampleVolume ⟨0, 3, 2⟩ ⟨1, 2, 3⟩ (by decide)⟩

end NeighborClaims

end Navigation3D

namespace Navigation3D

section SearchLemmas

variable {K : Type} [LinearOrderedField K] [FloorRing K]

theorem SameGraph.refl (nodes : List (NavNode K)) : SameGraph nodes nodes :=
  fun _ => ⟨rfl, rfl⟩

theorem SameGraph.setFScore {nodes nodes' : List (NavNode K)} (hg : SameGraph nodes nodes')
    (i : Nat) (f : K) : SameGraph nodes (setFScore nodes' i f) := by
  intro j
  unfold Navigation3D.setFScore
  by_cases hij : i = j
  · subst hij
    by_cases hi : i < nodes'.length
    · rw [nodeAt_set_eq _ _ _ hi]
      exact hg i
    · rw [List.set_eq_of_length_le (by omega)]
      exact hg i
  · rw [nodeAt_set_ne _ _ _ _ hij]
    exact hg j

theorem mem_multisetInsert (nodes : List (NavNode K)) (l : List Nat) (p x : Nat) :
    x ∈ multisetInsert nodes l p ↔ x = p ∨ x ∈ l := by
  induction l with
  | nil => simp [multisetInsert]
  | cons e es ih =>
    unfold multisetInsert
    split_ifs
    · simp
    · simp only [List.mem_cons, ih]
      tauto

theorem Reached.update {startNode : Nat} {cameFrom : Nat → Option Nat} {n : Nat}
    (h : Reached startNode cameFrom n) (m c : Nat) :
    Reached startNode (Function.update cameFrom m (some c)) n := by
  by_cases hnm : n = m
  · right
    exact ⟨c, by rw [hnm, Function.update_same]⟩
  · rcases h with h | ⟨p, hp⟩
    · exact Or.inl h
    · right
      exact ⟨p, by rw [Function.update_noteq hnm]; exact hp⟩

theorem relaxNeighbor_inv (sqrt : K → K) (B : FVector K → FVector K → Bool)
    (v : ANavigationVolume3D K) (startNode endNode current : Nat) (st : SearchState K)
    (neighbor : Nat) (hinv : SearchInv B v startNode st)
    (hcur : Reached startNode st.cameFrom current)
    (hnb : neighbor ∈ (nodeAt v.Nodes current).Neighbors) :
    SearchInv B v startNode (relaxNeighbor sqrt B v endNode current st neighbor) ∧
      Reached startNode (relaxNeighbor sqrt B v endNode current st neighbor).cameFrom
        current := by
  unfold relaxNeighbor
  simp only
  split_ifs with h1 h2
  · refine ⟨⟨hinv.graph.setFScore _ _, ?_, ?_⟩, hcur.update _ _⟩
    · intro n p hnp
      simp only at hnp
      by_cases hn : n = neighbor
      · subst hn
        rw [Function.update_same] at hnp
        cases hnp
        refine ⟨hnb, hcur.update _ _, ?_⟩
        have hc := (hinv.graph n).1
        simp only [Bool.not_eq_true', hc] at h2
        exact h2
      · rw [Function.update_noteq hn] at hnp
        obtain ⟨a, b, c⟩ := hinv.came n p hnp
        exact ⟨a, b.update _ _, c⟩
    · intro n hn
      simp only [mem_multisetInsert] at hn
      rcases hn with rfl | hn
      · right
        exact ⟨current, by simp⟩
      · exact (hinv.opened n hn).update _ _
  · exact ⟨hinv, hcur⟩
  · exact ⟨hinv, hcur⟩

theorem foldl_relaxNeighbor_inv (sqrt : K → K) (B : FVector K → FVector K → Bool)
    (v : ANavigationVolume3D K) (startNode endNode current : Nat) (nbs : List Nat) :
    ∀ st : SearchState K, SearchInv B v startNode st →
      Reached startNode st.cameFrom current →
      (∀ n ∈ nbs, n ∈ (nodeAt v.Nodes current).Neighbors) →
      SearchInv B v startNode (nbs.foldl (relaxNeighbor sqrt B v endNode current) st) := by
  induction nbs with
  | nil => intro st h _ _; exact h
  | cons n nbs ih =>
    intro st hinv hcur hsub
    rw [List.foldl_cons]
    obtain ⟨h1, h2⟩ := relaxNeighbor_inv sqrt B v startNode endNode current st n hinv hcur
      (hsub n (List.mem_cons_self _ _))
    exact ih _ h1 h2 (fun m hm => hsub m (List.mem_cons_of_mem _ hm))

theorem rebuildPath_spec (v : ANavigationVolume3D K) (nodes : List (NavNode K))
    (cameFrom : Nat → Option Nat) (P : Nat → Prop) (R : Nat → Nat → Prop)
    (hstep : ∀ n p, cameFrom n = some p → R p n ∧ P p) :
    ∀ (fuel current : Nat) (acc path : List (FVector K)), P current →
      rebuildPath v nodes cameFrom fuel current acc = some path →
      ∃ (pre : List Nat) (first : Nat),
        path = pre.map (fun n => ConvertCoordinatesToLocation v (nodeAt nodes n).Coordinates)
          ++ acc ∧
        (pre ++ [current]).head? = some first ∧ cameFrom first = none ∧ P first ∧
        List.Chain' R (pre ++ [current]) ∧
        ∀ n ∈ (pre ++ [current]).tail, ∃ p, cameFrom n = some p := by
  intro fuel
  induction fuel with
  | zero => intro current acc path _ h; simp [rebuildPath] at h
  | succ fuel ih =>
    intro current acc path hP h
    unfold rebuildPath at h
    cases hc : cameFrom current with
    | none =>
      rw [hc] at h
      simp only [Option.some.injEq] at h
      exact ⟨[], current, by simp [h], rfl, hc, hP, by simp, by simp⟩
    | some prev =>
      rw [hc] at h
      simp only at h
      obtain ⟨hR, hPp⟩ := hstep current prev hc
      obtain ⟨pre, first, hpath, hhead, hfirst, hPf, hchain, htail⟩ := ih prev _ path hPp h
      refine ⟨pre ++ [prev], first, ?_, ?_, hfirst, hPf, ?_, ?_⟩
      · rw [hpath]; simp
      · rw [List.head?_append, hhead]; rfl
      · rw [List.chain'_append]
        refine ⟨hchain, List.chain'_singleton _, ?_⟩
        intro x hx y hy
        simp only [List.getLast?_concat, Option.mem_def, Option.some.injEq] at hx
        simp only [List.head?_cons, Option.mem_def, Option.some.injEq] at hy
        subst hx hy
        exact hR
      · intro n hn
        have : (pre ++ [prev] ++ [current]).tail = (pre ++ [prev]).tail ++ [current] := by
          cases pre <;> simp
        rw [this, List.mem_append] at hn
        rcases hn with hn | hn
        · exact htail n hn
        · simp only [List.mem_singleton] at hn
          subst hn
          exact ⟨prev, hc⟩

theorem searchLoop_true_spec (sqrt : K → K) (B : FVector K → FVector K → Bool)
    (v : ANavigationVolume3D K) (startNode endNode : Nat) :
    ∀ (fuel : Nat) (st : SearchState K) (path : List (FVector K)),
      SearchInv B v startNode st →
      searchLoop sqrt B v endNode [] fuel st = some (true, path) →
      ∃ ns : List Nat, path = ns.map (nodeLocation v) ∧
        ns.head? = some startNode ∧ ns.getLast? = some endNode ∧
        IsNeighborPath v.Nodes ns ∧ ∀ n ∈ ns.tail, nodeObstructed B v n = false := by
  intro fuel
  induction fuel with
  | zero => intro st path _ h; simp [searchLoop] at h
  | succ fuel ih =>
    intro st path hinv h
    unfold searchLoop at h
    cases ho : st.openSet with
    | nil => rw [ho] at h; simp at h
    | cons current rest =>
      rw [ho] at h
      simp only at h
      have hcur : Reached startNode st.cameFrom current :=
        hinv.opened current (by rw [ho]; exact List.mem_cons_self _ _)
      split_ifs at h with hce
      · subst hce
        simp only [Option.map_eq_some', Prod.mk.injEq, true_and, exists_eq_right] at h
        obtain ⟨pre, first, hpath, hhead, hfirst, hPf, hchain, htail⟩ :=
          rebuildPath_spec v st.Nodes st.cameFrom (Reached startNode st.cameFrom)
            (fun p n => n ∈ (nodeAt v.Nodes p).Neighbors)
            (fun n p hnp => ⟨(hinv.came n p hnp).1, (hinv.came n p hnp).2.1⟩)
            fuel current _ path hcur h
        have hfs : first = startNode := by
          rcases hPf with h | ⟨p, hp⟩
          · exact h
          · rw [hfirst] at hp; cases hp
        refine ⟨pre ++ [current], ?_, ?_, List.getLast?_concat _, hchain, ?_⟩
        · rw [hpath]
          have hloc : ∀ n, ConvertCoordinatesToLocation v (nodeAt st.Nodes n).Coordinates =
              nodeLocation v n := fun n => by
            unfold nodeLocation; rw [(hinv.graph n).1]
          simp [hloc]
        · rw [hhead, hfs]
        · intro n hn
          obtain ⟨p, hp⟩ := htail n hn
          exact (hinv.came n p hp).2.2
      · apply ih _ path _ h
        have hinv' : SearchInv B v startNode { st with openSet := rest } :=
          ⟨hinv.graph, hinv.came, fun n hn => hinv.opened n (by
            rw [ho]; exact List.mem_cons_of_mem _ hn)⟩
        apply foldl_relaxNeighbor_inv sqrt B v startNode endNode current _ _ hinv' hcur
        intro n hn
        rw [(hinv.graph current).2] at hn
        exact hn

theorem FindPath_init_inv (sqrt : K → K) (B : FVector K → FVector K → Bool)
    (v : ANavigationVolume3D K) (startNode endNode : Nat) :
    SearchInv B v startNode (FindPath_init sqrt v startNode endNode) := by
  refine ⟨(SameGraph.refl _).setFScore _ _, ?_, ?_⟩
  · intro n p h
    simp [FindPath_init] at h
  · intro n hn
    simp only [FindPath_init, mem_multisetInsert, List.not_mem_nil, or_false] at hn
    exact Or.inl hn

/-- When `FindPath` returns `true`, `out_path` lists the cell centres of a node sequence
from the start node to the end node along neighbour lists, obstruction-free after its
first node. -/
theorem FindPath_true_spec (sqrt : K → K) (B : FVector K → FVector K → Bool) (fuel : Nat)
    (v : ANavigationVolume3D K) (start destination : FVector K)
    (out_path path : List (FVector K))
    (hret : FindPath sqrt B fuel v start destination out_path = some (true, path)) :
    ∃ ns : List Nat, path = ns.map (nodeLocation v) ∧
      ns.head? = some (GetNode v (ConvertLocationToCoordinates v start)) ∧
      ns.getLast? = some (GetNode v (ConvertLocationToCoordinates v destination)) ∧
      IsNeighborPath v.Nodes ns ∧ ∀ n ∈ ns.tail, nodeObstructed B v n = false := by
  unfold FindPath at hret
  exact searchLoop_true_spec sqrt B v _ _ fuel _ path (FindPath_init_inv sqrt B v _ _) hret

end SearchLemmas

end Navigation3D

namespace Navigation3D

section SampleRuns

theorem lineVolume_eq : lineVolume =
    { DivisionsX := 2, DivisionsY := 1, DivisionsZ := 1, DivisionSize := 100,
      MinSharedNeighborAxes := 0, ActorTransform := ⟨id, id⟩,
      Nodes := [⟨⟨0, 0, 0⟩, [1], FLT_MAX⟩, ⟨⟨1, 0, 0⟩, [0], FLT_MAX⟩] } := by rfl

theorem ratSqrt_zero : ratSqrt 0 = 0 := by norm_num [ratSqrt]

theorem ratSqrt_one : ratSqrt 1 = 1 := by norm_num [ratSqrt]

theorem lineVolume_cell_first :
    ConvertLocationToCoordinates lineVolume ⟨50, 50, 50⟩ = ⟨0, 0, 0⟩ := by
  rw [lineVolume_eq]
  norm_num [ConvertLocationToCoordinates, ConvertLocationToCoordinates_unclamped,
    ClampCoordinates, FMath.Clamp, FloatToInt, GetGridSizeX, GetGridSizeY, GetGridSizeZ]

theorem lineVolume_cell_second :
    ConvertLocationToCoordinates lineVolume ⟨150, 50, 50⟩ = ⟨1, 0, 0⟩ := by
  rw [lineVolume_eq]
  norm_num [ConvertLocationToCoordinates, ConvertLocationToCoordinates_unclamped,
    ClampCoordinates, FMath.Clamp, FloatToInt, GetGridSizeX, GetGridSizeY, GetGridSizeZ]

/-- On the free row of two cells the search from the first cell to the second returns
`true` with the two cell centres, whatever `out_path` held before. -/
theorem lineVolume_run :
    FindPath ratSqrt noOverlap 5 lineVolume ⟨50, 50, 50⟩ ⟨150, 50, 50⟩ [⟨7, 7, 7⟩] =
      some (true, [⟨50, 50, 50⟩, ⟨150, 50, 50⟩]) := by
  unfold FindPath
  rw [lineVolume_cell_first, lineVolume_cell_second, lineVolume_eq]
  simp [searchLoop, FindPath_init, GetNode, GetNodeIndex, ClampCoordinates, FMath.Clamp,
    TArray.Empty, setFScore, h, distance, nodeAt, FVector.Distance, FVector.DistSquared,
    FVector.ofIntVector, ratSqrt_zero, ratSqrt_one, multisetInsert, relaxNeighbor, gScore,
    Function.update, rebuildPath, ConvertCoordinatesToLocation,
    ConvertCoordinatesToLocation_gridSpaceLocation, NodeCompare, FLT_MAX, noOverlap]
  norm_num

end SampleRuns

section PathClaims

variable {K : Type} [LinearOrderedField K] [FloorRing K]

theorem searchLoop_false_spec (sqrt : K → K) (B : FVector K → FVector K → Bool)
    (v : ANavigationVolume3D K) (endNode : Nat) (out_path : List (FVector K)) :
    ∀ (fuel : Nat) (st : SearchState K) (path : List (FVector K)),
      searchLoop sqrt B v endNode out_path fuel st = some (false, path) → path = out_path := by
  intro fuel
  induction fuel with
  | zero => intro st path h; simp [searchLoop] at h
  | succ fuel ih =>
    intro st path h
    unfold searchLoop at h
    cases ho : st.openSet with
    | nil => rw [ho] at h; simp only [Option.some.injEq, Prod.mk.injEq, true_and] at h; exact h.symm
    | cons current rest =>
      rw [ho] at h
      simp only at h
      split_ifs at h with hce
      · simp at h
      · exact ih _ path h

/-- C1: whenever `FindPath` returns `true`, `out_path` is the list of cell-centre locations
of a node sequence that starts at the node of the start point's cell, ends at the node of
the destination point's cell, and in which every node is in the neighbour list of the node
before it. -/
theorem C1_path_follows_neighbors (sqrt : K → K) (BoxOverlapActors : FVector K → FVector K → Bool)
    (fuel : Nat) (v : ANavigationVolume3D K) (start destination : FVector K)
    (out_path path : List (FVector K))
    (hret : FindPath sqrt BoxOverlapActors fuel v start destination out_path =
      some (true, path)) :
    ∃ ns : List Nat,
      path = ns.map (fun n => ConvertCoordinatesToLocation v (nodeAt v.Nodes n).Coordinates) ∧
      ns.head? = some (GetNode v (ConvertLocationToCoordinates v start)) ∧
      ns.getLast? = some (GetNode v (ConvertLocationToCoordinates v destination)) ∧
      List.Chain' (fun a b => b ∈ (nodeAt v.Nodes a).Neighbors) ns := by
  obtain ⟨ns, h1, h2, h3, h4, _⟩ :=
    FindPath_true_spec sqrt BoxOverlapActors fuel v start destination out_path path hret
  exact ⟨ns, h1, h2, h3, h4⟩

theorem C1_path_follows_neighbors_witness :
    FindPath ratSqrt noOverlap 5 lineVolume ⟨50, 50, 50⟩ ⟨150, 50, 50⟩ [⟨7, 7, 7⟩] =
        some (true, [⟨50, 50, 50⟩, ⟨150, 50, 50⟩]) ∧
      ∃ ns : List Nat,
        ([⟨50, 50, 50⟩, ⟨150, 50, 50⟩] : List (FVector ℚ)) = ns.map (fun n =>
          ConvertCoordinatesToLocation lineVolume (nodeAt lineVolume.Nodes n).Coordinates) ∧
        ns.head? = some (GetNode lineVolume
          (ConvertLocationToCoordinates lineVolume ⟨50, 50, 50⟩)) ∧
        ns.getLast? = some (GetNode lineVolume
          (ConvertLocationToCoordinates lineVolume ⟨150, 50, 50⟩)) ∧
        List.Chain' (fun a b => b ∈ (nodeAt lineVolume.Nodes a).Neighbors) ns :=
  ⟨lineVolume_run,
    C1_path_follows_neighbors ratSqrt noOverlap 5 lineVolume ⟨50, 50, 50⟩ ⟨150, 50, 50⟩
      [⟨7, 7, 7⟩] _ lineVolume_run⟩

/-- C2: whenever `FindPath` returns `true`, every point of `out_path` after the first is the
centre of a cell for which the overlap query, asked as the search asks it, reports no
obstruction. -/
theorem C2_path_avoids_obstacles (sqrt : K → K)
    (BoxOverlapActors : FVector K → FVector K → Bool)
    (fuel : Nat) (v : ANavigationVolume3D K) (start destination : FVector K)
    (out_path path : List (FVector K))
    (hret : FindPath sqrt BoxOverlapActors fuel v start destination out_path =
      some (true, path)) :
    ∃ ns : List Nat,
      path = ns.map (fun n => ConvertCoordinatesToLocation v (nodeAt v.Nodes n).Coordinates) ∧
      ns.head? = some (GetNode v (ConvertLocationToCoordinates v start)) ∧
      (∀ n ∈ ns.tail, BoxOverlapActors
        (ConvertCoordinatesToLocation v (nodeAt v.Nodes n).Coordinates)
        ⟨v.DivisionSize / 2, v.DivisionSize / 2, v.DivisionSize / 2⟩ = false) ∧
      ∀ p ∈ path.tail,
        BoxOverlapActors p ⟨v.DivisionSize / 2, v.DivisionSize / 2, v.DivisionSize / 2⟩ =
          false := by
  obtain ⟨ns, h1, h2, _, _, h5⟩ :=
    FindPath_true_spec sqrt BoxOverlapActors fuel v start destination out_path path hret
  refine ⟨ns, h1, h2, h5, ?_⟩
  intro p hp
  rw [h1, ← List.map_tail, List.mem_map] at hp
  obtain ⟨n, hn, rfl⟩ := hp
  exact h5 n hn

theorem C2_path_avoids_obstacles_witness :
    FindPath ratSqrt noOverlap 5 lineVolume ⟨50, 50, 50⟩ ⟨150, 50, 50⟩ [⟨7, 7, 7⟩] =
        some (true, [⟨50, 50, 50⟩, ⟨150, 50, 50⟩]) ∧
      ∃ ns : List Nat,
        ([⟨50, 50, 50⟩, ⟨150, 50, 50⟩] : List (FVector ℚ)) = ns.map (fun n =>
          ConvertCoordinatesToLocation lineVolume (nodeAt lineVolume.Nodes n).Coordinates) ∧
        ns.head? = some (GetNode lineVolume
          (ConvertLocationToCoordinates lineVolume ⟨50, 50, 50⟩)) ∧
        (∀ n ∈ ns.tail, noOverlap
          (ConvertCoordinatesToLocation lineVolume (nodeAt lineVolume.Nodes n).Coordinates)
          ⟨lineVolume.DivisionSize / 2, lineVolume.DivisionSize / 2,
            lineVolume.DivisionSize / 2⟩ = false) ∧
        ∀ p ∈ ([⟨50, 50, 50⟩, ⟨150, 50, 50⟩] : List (FVector ℚ)).tail,
          noOverlap p ⟨lineVolume.DivisionSize / 2, lineVolume.DivisionSize / 2,
            lineVolume.DivisionSize / 2⟩ = false :=
  ⟨lineVolume_run,
    C2_path_avoids_obstacles ratSqrt noOverlap 5 lineVolume ⟨50, 50, 50⟩ ⟨150, 50, 50⟩
      [⟨7, 7, 7⟩] _ lineVolume_run⟩

/-- C4: whatever `out_path` held before the call, when `FindPath` returns `false` the
final `out_path` is empty, and when it returns `true` the final `out_path` is not empty. -/
theorem C4_no_partial_path (sqrt : K → K) (BoxOverlapActors : FVector K → FVector K → Bool)
    (fuel : Nat) (v : ANavigationVolume3D K) (start destination : FVector K)
    (out_path path : List (FVector K)) (result : Bool)
    (hret : FindPath sqrt BoxOverlapActors fuel v start destination out_path =
      some (result, path)) :
    (result = false → path = []) ∧ (result = true → path ≠ []) := by
  constructor
  · intro hr
    subst hr
    unfold FindPath at hret
    exact searchLoop_false_spec sqrt BoxOverlapActors v _ _ fuel _ path hret
  · intro hr
    subst hr
    obtain ⟨ns, h1, h2, _⟩ :=
      FindPath_true_spec sqrt BoxOverlapActors fuel v start destination out_path path hret
    rw [h1]
    cases ns with
    | nil => simp at h2
    | cons n ns => simp

theorem C4_no_partial_path_witness :
    FindPath ratSqrt noOverlap 5 lineVolume ⟨50, 50, 50⟩ ⟨150, 50, 50⟩ [⟨7, 7, 7⟩] =
        some (true, [⟨50, 50, 50⟩, ⟨150, 50, 50⟩]) ∧
      ((true = false → ([⟨50, 50, 50⟩, ⟨150, 50, 50⟩] : List (FVector ℚ)) = []) ∧
        (true = true → ([⟨50, 50, 50⟩, ⟨150, 50, 50⟩] : List (FVector ℚ)) ≠ [])) :=
  ⟨lineVolume_run,
    C4_no_partial_path ratSqrt noOverlap 5 lineVolume ⟨50, 50, 50⟩ ⟨150, 50, 50⟩
      [⟨7, 7, 7⟩] _ true lineVolume_run⟩

end PathClaims

end Navigation3D

namespace Navigation3D

section TermLemmas

variable {K : Type} [LinearOrderedField K] [FloorRing K]

theorem mem_simplePaths (M : Nat) (l : List Nat) (hnd : l.Nodup) (hlt : ∀ x ∈ l, x < M) :
    l ∈ simplePaths M := by
  unfold simplePaths
  rw [Finset.mem_biUnion]
  refine ⟨l.toFinset, ?_, ?_⟩
  · rw [Finset.mem_powerset]
    intro x hx
    rw [List.mem_toFinset] at hx
    exact Finset.mem_range.2 (hlt x hx)
  · rw [Multiset.mem_lists_iff, List.toFinset_val, hnd.dedup]
    rfl

theorem length_multisetInsert (nodes : List (NavNode K)) (l : List Nat) (p : Nat) :
    (multisetInsert nodes l p).length = l.length + 1 := by
  induction l with
  | nil => rfl
  | cons e es ih =>
    unfold multisetInsert
    split_ifs
    · rfl
    · simp [ih]

theorem distance_sameGraph {nodes nodes' : List (NavNode K)} (hg : SameGraph nodes nodes')
    (sqrt : K → K) (a b : Nat) : distance sqrt nodes' a b = distance sqrt nodes a b := by
  unfold distance
  rw [(hg a).1, (hg b).1]

theorem h_sameGraph {nodes nodes' : List (NavNode K)} (hg : SameGraph nodes nodes')
    (sqrt : K → K) (a b : Nat) : h sqrt nodes' a b = h sqrt nodes a b := by
  unfold h
  rw [(hg a).1, (hg b).1]

theorem distance_nonneg (sqrt : K → K) (hsq : ∀ x, 0 ≤ x → 0 ≤ sqrt x) (nodes : List (NavNode K))
    (a b : Nat) : 0 ≤ distance sqrt nodes a b := by
  apply hsq
  unfold FVector.DistSquared
  positivity

theorem revCost_nonneg (sqrt : K → K) (hsq : ∀ x, 0 ≤ x → 0 ≤ sqrt x) (nodes : List (NavNode K)) :
    ∀ rp : List Nat, 0 ≤ revCost sqrt nodes rp
  | [] => le_refl _
  | [_] => le_refl _
  | n :: p :: rest => by
    unfold revCost
    have := revCost_nonneg sqrt hsq nodes (p :: rest)
    have := distance_nonneg sqrt hsq nodes p n
    linarith

theorem revCost_tail_le (sqrt : K → K) (hsq : ∀ x, 0 ≤ x → 0 ≤ sqrt x) (nodes : List (NavNode K))
    (n : Nat) (rp : List Nat) : revCost sqrt nodes rp ≤ revCost sqrt nodes (n :: rp) := by
  cases rp with
  | nil => exact le_refl _
  | cons p rest =>
    show _ ≤ revCost sqrt nodes (p :: rest) + distance sqrt nodes p n
    have := distance_nonneg sqrt hsq nodes p n
    linarith

theorem gScore_update (gs : Nat → Option K) (nb : Nat) (t : K) (x : Nat) :
    gScore (Function.update gs nb (some t)) x = if x = nb then t else gScore gs x := by
  unfold gScore
  by_cases hx : x = nb
  · subst hx; simp
  · simp [Function.update_noteq hx, hx]

theorem GoodRev.mono (sqrt : K → K) (nodes : List (NavNode K)) (startNode : Nat)
    (gs gs' : Nat → Option K) (hle : ∀ x, gScore gs' x ≤ gScore gs x) :
    ∀ rp : List Nat, GoodRev sqrt nodes startNode gs rp → GoodRev sqrt nodes startNode gs' rp
  | [] => fun h => h
  | [s] => fun h => ⟨h.1, le_trans (hle s) h.2⟩
  | n :: p :: rest => fun h =>
    ⟨h.1, h.2.1, le_trans (hle n) h.2.2.1,
      GoodRev.mono sqrt nodes startNode gs gs' hle (p :: rest) h.2.2.2⟩

theorem GoodRev.le_of_mem (sqrt : K → K) (hsq : ∀ x, 0 ≤ x → 0 ≤ sqrt x) (nodes : List (NavNode K))
    (startNode : Nat) (gs : Nat → Option K) :
    ∀ rp : List Nat, GoodRev sqrt nodes startNode gs rp →
      ∀ x ∈ rp, gScore gs x ≤ revCost sqrt nodes rp
  | [] => fun h => absurd h (by simp [GoodRev])
  | [s] => fun h x hx => by
    simp only [List.mem_singleton] at hx
    subst hx
    exact h.2
  | n :: p :: rest => fun h x hx => by
    rcases List.mem_cons.1 hx with hx | hx
    · subst hx; exact h.2.2.1
    · exact le_trans (GoodRev.le_of_mem sqrt hsq nodes startNode gs (p :: rest) h.2.2.2 x hx)
        (revCost_tail_le sqrt hsq nodes n (p :: rest))

theorem GoodRev.nodup (sqrt : K → K) (nodes : List (NavNode K)) (startNode : Nat)
    (gs : Nat → Option K) :
    ∀ rp : List Nat, GoodRev sqrt nodes startNode gs rp → rp.Nodup
  | [] => fun _ => List.nodup_nil
  | [_] => fun _ => List.nodup_singleton _
  | _ :: p :: rest => fun h =>
    List.nodup_cons.2 ⟨h.2.1, GoodRev.nodup sqrt nodes startNode gs (p :: rest) h.2.2.2⟩

theorem GoodRev.lt_length (sqrt : K → K) (nodes : List (NavNode K)) (startNode : Nat)
    (gs : Nat → Option K) (hwf : NeighborsInRange nodes) (hs : startNode < nodes.length) :
    ∀ rp : List Nat, GoodRev sqrt nodes startNode gs rp → ∀ x ∈ rp, x < nodes.length
  | [] => fun _ x hx => absurd hx (List.not_mem_nil x)
  | [s] => fun h x hx => by
    simp only [List.mem_singleton] at hx
    subst hx
    rw [h.1]; exact hs
  | n :: p :: rest => fun h x hx => by
    rcases List.mem_cons.1 hx with hx | hx
    · subst hx; exact hwf p x h.1
    · exact GoodRev.lt_length sqrt nodes startNode gs hwf hs (p :: rest) h.2.2.2 x hx

theorem relaxNeighbor_term (sqrt : K → K) (hsq : ∀ x, 0 ≤ x → 0 ≤ sqrt x)
    (B : FVector K → FVector K → Bool) (v : ANavigationVolume3D K)
    (hwf : NeighborsInRange v.Nodes) (startNode endNode current : Nat)
    (hs : startNode < v.Nodes.length) (st : SearchState K) (neighbor : Nat)
    (hinv : TermInv sqrt v startNode st) (hcur : ∃ g, st.gScores current = some g)
    (hnb : neighbor ∈ (nodeAt v.Nodes current).Neighbors) :
    TermInv sqrt v startNode (relaxNeighbor sqrt B v endNode current st neighbor) ∧
      (∃ g, (relaxNeighbor sqrt B v endNode current st neighbor).gScores current = some g) ∧
      (relaxNeighbor sqrt B v endNode current st neighbor).openSet.length +
          2 * searchMeasure sqrt v.Nodes
            (relaxNeighbor sqrt B v endNode current st neighbor).gScores ≤
        st.openSet.length + 2 * searchMeasure sqrt v.Nodes st.gScores := by
  unfold relaxNeighbor
  simp only
  split_ifs with h1 h2
  · obtain ⟨gc, hgc⟩ := hcur
    obtain ⟨rp, hhead, hgood, hcost⟩ := hinv.witness current gc hgc
    have hgcur : gScore st.gScores current = gc := by simp [gScore, hgc]
    rw [hgcur, distance_sameGraph hinv.graph] at h1
    simp only [hgcur, distance_sameGraph hinv.graph]
    set t := gc + distance sqrt v.Nodes current neighbor with ht
    have hle : ∀ x, gScore (Function.update st.gScores neighbor (some t)) x ≤
        gScore st.gScores x := by
      intro x
      rw [gScore_update]
      split_ifs with hx
      · subst hx; exact le_of_lt h1
      · exact le_refl _
    have hnotin : neighbor ∉ rp := by
      intro hmem
      have h3 := GoodRev.le_of_mem sqrt hsq v.Nodes startNode st.gScores rp hgood neighbor hmem
      have h4 := distance_nonneg sqrt hsq v.Nodes current neighbor
      rw [hcost] at h3
      linarith
    obtain ⟨rest, hrp⟩ : ∃ rest, rp = current :: rest := by
      cases rp with
      | nil => simp at hhead
      | cons a rest => simp only [List.head?_cons, Option.some.injEq] at hhead; exact ⟨rest, by rw [hhead]⟩
    have hcostnew : revCost sqrt v.Nodes (neighbor :: rp) = t := by
      rw [hrp]
      show revCost sqrt v.Nodes (current :: rest) + distance sqrt v.Nodes current neighbor = t
      rw [← hrp, hcost]
    have hgoodnew : GoodRev sqrt v.Nodes startNode
        (Function.update st.gScores neighbor (some t)) (neighbor :: rp) := by
      have hm := GoodRev.mono sqrt v.Nodes startNode st.gScores _ hle rp hgood
      rw [hrp] at hm hnotin ⊢
      refine ⟨hnb, hnotin, ?_, hm⟩
      rw [← hrp, hcostnew, gScore_update, if_pos rfl]
    refine ⟨⟨hinv.graph.setFScore _ _, ?_, ?_⟩, ?_, ?_⟩
    · intro n hn
      simp only [mem_multisetInsert] at hn
      by_cases hnn : n = neighbor
      · exact ⟨t, by rw [hnn]; exact Function.update_same _ _ _⟩
      · rcases hn with hn | hn
        · exact absurd hn hnn
        · obtain ⟨g, hg⟩ := hinv.opened n hn
          exact ⟨g, (Function.update_noteq hnn _ _).trans hg⟩
    · intro n g hg
      simp only at hg
      by_cases hnn : n = neighbor
      · subst hnn
        rw [Function.update_same, Option.some.injEq] at hg
        rw [← hg]
        exact ⟨n :: rp, rfl, hgoodnew, hcostnew⟩
      · rw [Function.update_noteq hnn] at hg
        obtain ⟨rp', hh', hg', hc'⟩ := hinv.witness n g hg
        exact ⟨rp', hh', GoodRev.mono sqrt v.Nodes startNode st.gScores _ hle rp' hg', hc'⟩
    · by_cases hcn : current = neighbor
      · exact ⟨t, by rw [hcn]; exact Function.update_same _ _ _⟩
      · exact ⟨gc, (Function.update_noteq hcn _ _).trans hgc⟩
    · simp only [length_multisetInsert]
      have hlt : searchMeasure sqrt v.Nodes (Function.update st.gScores neighbor (some t)) <
          searchMeasure sqrt v.Nodes st.gScores := by
        unfold searchMeasure
        apply Finset.card_lt_card
        rw [Finset.ssubset_iff_of_subset]
        · refine ⟨(neighbor, neighbor :: rp), ?_, ?_⟩
          · rw [Finset.mem_filter, Finset.mem_product]
            refine ⟨⟨Finset.mem_range.2 (hwf current neighbor hnb), ?_⟩, ?_⟩
            · apply mem_simplePaths
              · exact List.nodup_cons.2 ⟨hnotin, GoodRev.nodup sqrt v.Nodes startNode _ rp hgood⟩
              · intro x hx
                rcases List.mem_cons.1 hx with hx | hx
                · rw [hx]; exact hwf current neighbor hnb
                · exact GoodRev.lt_length sqrt v.Nodes startNode _ hwf hs rp hgood x hx
            · simp only [hcostnew]; exact h1
          · rw [Finset.mem_filter]
            rintro ⟨_, hlt⟩
            simp only [hcostnew, gScore_update, if_true] at hlt
            exact lt_irrefl _ hlt
        · intro x hx
          rw [Finset.mem_filter] at hx ⊢
          exact ⟨hx.1, lt_of_lt_of_le hx.2 (hle x.1)⟩
      omega
  · exact ⟨hinv, hcur, le_refl _⟩
  · exact ⟨hinv, hcur, le_refl _⟩

theorem foldl_relaxNeighbor_term (sqrt : K → K) (hsq : ∀ x, 0 ≤ x → 0 ≤ sqrt x)
    (B : FVector K → FVector K → Bool) (v : ANavigationVolume3D K)
    (hwf : NeighborsInRange v.Nodes) (startNode endNode current : Nat)
    (hs : startNode < v.Nodes.length) (nbs : List Nat) :
    ∀ st : SearchState K, TermInv sqrt v startNode st →
      (∃ g, st.gScores current = some g) →
      (∀ n ∈ nbs, n ∈ (nodeAt v.Nodes current).Neighbors) →
      TermInv sqrt v startNode (nbs.foldl (relaxNeighbor sqrt B v endNode current) st) ∧
        (nbs.foldl (relaxNeighbor sqrt B v endNode current) st).openSet.length +
            2 * searchMeasure sqrt v.Nodes
              (nbs.foldl (relaxNeighbor sqrt B v endNode current) st).gScores ≤
          st.openSet.length + 2 * searchMeasure sqrt v.Nodes st.gScores := by
  induction nbs with
  | nil => intro st h _ _; exact ⟨h, le_refl _⟩
  | cons n nbs ih =>
    intro st hinv hcur hsub
    rw [List.foldl_cons]
    obtain ⟨h1, h2, h3⟩ := relaxNeighbor_term sqrt hsq B v hwf startNode endNode current hs st n
      hinv hcur (hsub n (List.mem_cons_self _ _))
    obtain ⟨h4, h5⟩ := ih _ h1 h2 (fun m hm => hsub m (List.mem_cons_of_mem _ hm))
    exact ⟨h4, le_trans h5 h3⟩

/-- One pass of the loop body keeps the invariant and lowers the measure
`openSet.size() + 2 * searchMeasure`. -/
theorem expandNode_term (sqrt : K → K) (hsq : ∀ x, 0 ≤ x → 0 ≤ sqrt x)
    (B : FVector K → FVector K → Bool) (v : ANavigationVolume3D K)
    (hwf : NeighborsInRange v.Nodes) (startNode endNode : Nat)
    (hs : startNode < v.Nodes.length) (st : SearchState K) (current : Nat) (rest : List Nat)
    (hinv : TermInv sqrt v startNode st) (ho : st.openSet = current :: rest) :
    TermInv sqrt v startNode (expandNode sqrt B v endNode st current rest) ∧
      (expandNode sqrt B v endNode st current rest).openSet.length +
          2 * searchMeasure sqrt v.Nodes
            (expandNode sqrt B v endNode st current rest).gScores <
        st.openSet.length + 2 * searchMeasure sqrt v.Nodes st.gScores := by
  have hinv' : TermInv sqrt v startNode { st with openSet := rest } :=
    ⟨hinv.graph, fun n hn => hinv.opened n (by rw [ho]; exact List.mem_cons_of_mem _ hn),
      hinv.witness⟩
  have hcur : ∃ g, st.gScores current = some g :=
    hinv.opened current (by rw [ho]; exact List.mem_cons_self _ _)
  obtain ⟨h1, h2⟩ := foldl_relaxNeighbor_term sqrt hsq B v hwf startNode endNode current hs
    (nodeAt st.Nodes current).Neighbors { st with openSet := rest } hinv' hcur
    (fun n hn => by rw [(hinv.graph current).2] at hn; exact hn)
  refine ⟨h1, ?_⟩
  unfold expandNode
  simp only [ho, List.length_cons] at h2 ⊢
  omega

theorem FindPath_init_term (sqrt : K → K) (v : ANavigationVolume3D K)
    (startNode endNode : Nat) :
    TermInv sqrt v startNode (FindPath_init sqrt v startNode endNode) := by
  refine ⟨(SameGraph.refl _).setFScore _ _, ?_, ?_⟩
  · intro n hn
    simp only [FindPath_init, mem_multisetInsert, List.not_mem_nil, or_false] at hn
    exact ⟨0, by simp [FindPath_init, hn]⟩
  · intro n g hg
    simp only [FindPath_init] at hg
    by_cases hn : n = startNode
    · subst hn
      rw [Function.update_same] at hg
      cases hg
      refine ⟨[n], rfl, ⟨rfl, ?_⟩, rfl⟩
      simp [gScore, FindPath_init]
    · rw [Function.update_noteq hn] at hg
      cases hg

end TermLemmas

end Navigation3D

namespace Navigation3D

section BuiltGraph

variable {K : Type} [LinearOrderedField K] [FloorRing K]

theorem exists_cell_of_lt (v : ANavigationVolume3D K) (hx : 1 ≤ v.DivisionsX)
    (hy : 1 ≤ v.DivisionsY) (i : Nat)
    (hi : i < (GetTotalDivisions v).toNat) :
    ∃ c, AreCoordinatesValid v c = true ∧ GetNode v c = i := by
  have hDX : 0 < v.DivisionsX := by omega
  have hDY : 0 < v.DivisionsY := by omega
  have hI : (i : Int) < v.DivisionsX * v.DivisionsY * v.DivisionsZ := by
    unfold GetTotalDivisions at hi
    omega
  have hq0 : 0 ≤ (i : Int) / v.DivisionsX := Int.ediv_nonneg (by omega) (by omega)
  have hq1 : (i : Int) / v.DivisionsX < v.DivisionsY * v.DivisionsZ := by
    apply Int.ediv_lt_of_lt_mul hDX
    calc (i : Int) < v.DivisionsX * v.DivisionsY * v.DivisionsZ := hI
      _ = v.DivisionsY * v.DivisionsZ * v.DivisionsX := by ring
  have hz1 : (i : Int) / v.DivisionsX / v.DivisionsY < v.DivisionsZ := by
    apply Int.ediv_lt_of_lt_mul hDY
    calc (i : Int) / v.DivisionsX < v.DivisionsY * v.DivisionsZ := hq1
      _ = v.DivisionsZ * v.DivisionsY := by ring
  have hvalid : AreCoordinatesValid v
      ⟨(i : Int) % v.DivisionsX, (i : Int) / v.DivisionsX % v.DivisionsY,
        (i : Int) / v.DivisionsX / v.DivisionsY⟩ = true := by
    rw [AreCoordinatesValid_iff]
    exact ⟨⟨Int.emod_nonneg _ (ne_of_gt hDX), Int.emod_lt_of_pos _ hDX⟩,
      ⟨Int.emod_nonneg _ (ne_of_gt hDY), Int.emod_lt_of_pos _ hDY⟩,
      Int.ediv_nonneg hq0 (by omega), hz1⟩
  refine ⟨_, hvalid, ?_⟩
  unfold GetNode
  rw [GetNodeIndex_of_valid v _ hvalid]
  simp only
  rw [Int.emod_add_ediv, Int.emod_add_ediv]
  simp

theorem BeginPlay_valid_iff (v : ANavigationVolume3D K) (c : FIntVector) :
    AreCoordinatesValid (BeginPlay v) c = AreCoordinatesValid v c := rfl

theorem BeginPlay_GetNode (v : ANavigationVolume3D K) (c : FIntVector) :
    GetNode (BeginPlay v) c = GetNode v c := rfl

theorem BeginPlay_nodeAt_out (v : ANavigationVolume3D K) (i : Nat)
    (hi : (GetTotalDivisions v).toNat ≤ i) :
    nodeAt (BeginPlay v).Nodes i = NavNode.new := by
  unfold nodeAt
  rw [List.getD_eq_getElem?_getD, List.getElem?_eq_none (by rw [BeginPlay_length]; exact hi)]
  rfl

theorem sharedAxesCount_comm (a b : FIntVector) : sharedAxesCount a b = sharedAxesCount b a := by
  unfold sharedAxesCount
  simp only [eq_comm]

theorem BeginPlay_neighborsInRange (v : ANavigationVolume3D K) (hx : 1 ≤ v.DivisionsX)
    (hy : 1 ≤ v.DivisionsY) :
    NeighborsInRange (BeginPlay v).Nodes := by
  intro p x hxp
  rw [BeginPlay_length]
  by_cases hp : p < (GetTotalDivisions v).toNat
  · obtain ⟨a, ha, rfl⟩ := exists_cell_of_lt v hx hy p hp
    rw [BeginPlay_nodeAt v a ha] at hxp
    obtain ⟨b, _, hb, _, _, rfl⟩ := (mem_cellNeighbors v a x).1 hxp
    exact GetNode_lt v b hb
  · rw [BeginPlay_nodeAt_out v p (by omega)] at hxp
    simp [NavNode.new] at hxp

theorem BeginPlay_neighbors_symm (v : ANavigationVolume3D K) (hx : 1 ≤ v.DivisionsX)
    (hy : 1 ≤ v.DivisionsY) (i j : Nat)
    (hij : j ∈ (nodeAt (BeginPlay v).Nodes i).Neighbors) :
    i ∈ (nodeAt (BeginPlay v).Nodes j).Neighbors := by
  by_cases hp : i < (GetTotalDivisions v).toNat
  · obtain ⟨a, ha, rfl⟩ := exists_cell_of_lt v hx hy i hp
    rw [BeginPlay_nodeAt v a ha] at hij
    obtain ⟨b, hoff, hb, hne, hs, rfl⟩ := (mem_cellNeighbors v a j).1 hij
    rw [BeginPlay_nodeAt v b hb]
    refine (mem_cellNeighbors v b _).2 ⟨a, ?_, ha, fun h => hne h.symm, ?_, rfl⟩
    · omega
    · rw [sharedAxesCount_comm]; exact hs
  · rw [BeginPlay_nodeAt_out v i (by omega)] at hij
    simp [NavNode.new] at hij

theorem GetNode_clamp_lt (v : ANavigationVolume3D K) (hx : 1 ≤ v.DivisionsX)
    (hy : 1 ≤ v.DivisionsY) (hz : 1 ≤ v.DivisionsZ) (c : FIntVector) :
    GetNode v c < (GetTotalDivisions v).toNat := by
  have h1 : GetNode v c = GetNode v (ClampCoordinates v c) := by
    unfold GetNode GetNodeIndex
    simp only [ClampCoordinates_of_valid v _ (ClampCoordinates_valid v hx hy hz c)]
  rw [h1]
  exact GetNode_lt v _ (ClampCoordinates_valid v hx hy hz c)

end BuiltGraph

section LoopLemmas

variable {K : Type} [LinearOrderedField K] [FloorRing K]

theorem searchLoop_cons_ne (sqrt : K → K) (B : FVector K → FVector K → Bool)
    (v : ANavigationVolume3D K) (endNode : Nat) (out_path : List (FVector K)) (fuel : Nat)
    (st : SearchState K) (current : Nat) (rest : List Nat) (ho : st.openSet = current :: rest)
    (hne : current ≠ endNode) :
    searchLoop sqrt B v endNode out_path (fuel + 1) st =
      searchLoop sqrt B v endNode out_path fuel (expandNode sqrt B v endNode st current rest) := by
  conv_lhs => unfold searchLoop
  rw [ho]
  simp only [if_neg hne]
  rfl

theorem searchLoop_nil (sqrt : K → K) (B : FVector K → FVector K → Bool)
    (v : ANavigationVolume3D K) (endNode : Nat) (out_path : List (FVector K)) (fuel : Nat)
    (st : SearchState K) (ho : st.openSet = []) :
    searchLoop sqrt B v endNode out_path (fuel + 1) st = some (false, out_path) := by
  unfold searchLoop
  rw [ho]

theorem rebuildPath_fuel_mono (v : ANavigationVolume3D K) (nodes : List (NavNode K))
    (cameFrom : Nat → Option Nat) :
    ∀ (fuel : Nat) (current : Nat) (acc r : List (FVector K)),
      rebuildPath v nodes cameFrom fuel current acc = some r →
      rebuildPath v nodes cameFrom (fuel + 1) current acc = some r := by
  intro fuel
  induction fuel with
  | zero => intro current acc r h; simp [rebuildPath] at h
  | succ fuel ih =>
    intro current acc r h
    unfold rebuildPath at h ⊢
    cases hc : cameFrom current with
    | none => rw [hc] at h; exact h
    | some prev => rw [hc] at h; exact ih _ _ _ h

/-- A result of the loop does not depend on the iteration bound once the bound suffices. -/
theorem searchLoop_fuel_mono (sqrt : K → K) (B : FVector K → FVector K → Bool)
    (v : ANavigationVolume3D K) (endNode : Nat) (out_path : List (FVector K)) :
    ∀ (fuel : Nat) (st : SearchState K) (r : Bool × List (FVector K)),
      searchLoop sqrt B v endNode out_path fuel st = some r →
      searchLoop sqrt B v endNode out_path (fuel + 1) st = some r := by
  intro fuel
  induction fuel with
  | zero => intro st r h; simp [searchLoop] at h
  | succ fuel ih =>
    intro st r h
    cases ho : st.openSet with
    | nil => rw [searchLoop_nil _ _ _ _ _ _ _ ho] at h ⊢; exact h
    | cons current rest =>
      by_cases hce : current = endNode
      · unfold searchLoop at h ⊢
        rw [ho] at h ⊢
        simp only [if_pos hce, Option.map_eq_some'] at h ⊢
        obtain ⟨p, hp, hr⟩ := h
        exact ⟨p, rebuildPath_fuel_mono v _ _ _ _ _ _ hp, hr⟩
      · rw [searchLoop_cons_ne _ _ _ _ _ _ _ _ _ ho hce] at h ⊢
        exact ih _ _ h

theorem searchLoop_fuel_mono_le (sqrt : K → K) (B : FVector K → FVector K → Bool)
    (v : ANavigationVolume3D K) (endNode : Nat) (out_path : List (FVector K))
    (fuel fuel' : Nat) (hle : fuel ≤ fuel') (st : SearchState K) (r : Bool × List (FVector K))
    (h : searchLoop sqrt B v endNode out_path fuel st = some r) :
    searchLoop sqrt B v endNode out_path fuel' st = some r := by
  induction hle with
  | refl => exact h
  | step _ ih => exact searchLoop_fuel_mono sqrt B v endNode out_path _ st r ih

/-- Two runs of `FindPath` on the same input that both return, return the same. -/
theorem FindPath_fuel_unique (sqrt : K → K) (B : FVector K → FVector K → Bool)
    (v : ANavigationVolume3D K) (start destination : FVector K) (out_path : List (FVector K))
    (fuel fuel' : Nat) (r r' : Bool × List (FVector K))
    (h : FindPath sqrt B fuel v start destination out_path = some r)
    (h' : FindPath sqrt B fuel' v start destination out_path = some r') : r = r' := by
  unfold FindPath at h h'
  have h1 := searchLoop_fuel_mono_le sqrt B v _ _ fuel (max fuel fuel') (le_max_left _ _) _ r h
  have h2 := searchLoop_fuel_mono_le sqrt B v _ _ fuel' (max fuel fuel') (le_max_right _ _) _ r' h'
  rw [h1] at h2
  exact Option.some.inj h2

/-- If an invariant of the loop body excludes the end node from the head of the open set
and the measure falls with every pass, the loop ends with `false`. -/
theorem searchLoop_false_of_inv (sqrt : K → K) (B : FVector K → FVector K → Bool)
    (v : ANavigationVolume3D K) (endNode : Nat) (out_path : List (FVector K))
    (I : SearchState K → Prop)
    (hstep : ∀ st current rest, I st → st.openSet = current :: rest →
      current ≠ endNode ∧ I (expandNode sqrt B v endNode st current rest) ∧
        (expandNode sqrt B v endNode st current rest).openSet.length +
            2 * searchMeasure sqrt v.Nodes
              (expandNode sqrt B v endNode st current rest).gScores <
          st.openSet.length + 2 * searchMeasure sqrt v.Nodes st.gScores) :
    ∀ (m : Nat) (st : SearchState K), I st →
      st.openSet.length + 2 * searchMeasure sqrt v.Nodes st.gScores ≤ m →
      searchLoop sqrt B v endNode out_path (m + 1) st = some (false, out_path) := by
  intro m
  induction m with
  | zero =>
    intro st _ hm
    apply searchLoop_nil
    have : st.openSet.length = 0 := by omega
    exact List.length_eq_zero.1 this
  | succ m ih =>
    intro st hI hm
    cases ho : st.openSet with
    | nil => exact searchLoop_nil _ _ _ _ _ _ _ ho
    | cons current rest =>
      obtain ⟨hne, hI', hlt⟩ := hstep st current rest hI ho
      rw [searchLoop_cons_ne _ _ _ _ _ _ _ _ _ ho hne]
      exact ih _ hI' (by omega)

end LoopLemmas

end Navigation3D

namespace Navigation3D

section BlockedLemmas

variable {K : Type} [LinearOrderedField K] [FloorRing K]

theorem relaxNeighbor_sameGraph (sqrt : K → K) (B : FVector K → FVector K → Bool)
    (v : ANavigationVolume3D K) (endNode current : Nat) (st : SearchState K) (neighbor : Nat)
    (hg : SameGraph v.Nodes st.Nodes) :
    SameGraph v.Nodes (relaxNeighbor sqrt B v endNode current st neighbor).Nodes := by
  unfold relaxNeighbor
  simp only
  split_ifs
  · exact hg.setFScore _ _
  · exact hg
  · exact hg

theorem relaxNeighbor_openSet (sqrt : K → K) (B : FVector K → FVector K → Bool)
    (v : ANavigationVolume3D K) (endNode current : Nat) (st : SearchState K) (neighbor : Nat)
    (hg : SameGraph v.Nodes st.Nodes) :
    ∀ n ∈ (relaxNeighbor sqrt B v endNode current st neighbor).openSet,
      n ∈ st.openSet ∨ (n = neighbor ∧ nodeObstructed B v neighbor = false) := by
  unfold relaxNeighbor
  simp only
  split_ifs with h1 h2
  · intro n hn
    simp only [mem_multisetInsert] at hn
    rcases hn with hn | hn
    · right
      refine ⟨hn, ?_⟩
      have hc := (hg neighbor).1
      simp only [Bool.not_eq_true', hc] at h2
      exact h2
    · exact Or.inl hn
  · intro n hn; exact Or.inl hn
  · intro n hn; exact Or.inl hn

theorem foldl_relaxNeighbor_openSet (sqrt : K → K) (B : FVector K → FVector K → Bool)
    (v : ANavigationVolume3D K) (endNode current : Nat) (nbs : List Nat) :
    ∀ st : SearchState K, SameGraph v.Nodes st.Nodes →
      ∀ n ∈ (nbs.foldl (relaxNeighbor sqrt B v endNode current) st).openSet,
        n ∈ st.openSet ∨ (n ∈ nbs ∧ nodeObstructed B v n = false) := by
  induction nbs with
  | nil => intro st _ n hn; exact Or.inl hn
  | cons nb nbs ih =>
    intro st hg n hn
    rw [List.foldl_cons] at hn
    rcases ih _ (relaxNeighbor_sameGraph sqrt B v endNode current st nb hg) n hn with h | h
    · rcases relaxNeighbor_openSet sqrt B v endNode current st nb hg n h with h' | ⟨h', h''⟩
      · exact Or.inl h'
      · right
        rw [h']
        exact ⟨List.mem_cons_self _ _, h''⟩
    · exact Or.inr ⟨List.mem_cons_of_mem _ h.1, h.2⟩

/-- On a graph with symmetric neighbour lists, if every neighbour of the end node is
obstructed and the start node is neither the end node nor one of its neighbours, the loop
ends with `false`. -/
theorem searchLoop_blocked (sqrt : K → K) (hsq : ∀ x, 0 ≤ x → 0 ≤ sqrt x)
    (B : FVector K → FVector K → Bool) (v : ANavigationVolume3D K)
    (hwf : NeighborsInRange v.Nodes)
    (hsymm : ∀ i j, j ∈ (nodeAt v.Nodes i).Neighbors → i ∈ (nodeAt v.Nodes j).Neighbors)
    (startNode endNode : Nat) (hs : startNode < v.Nodes.length)
    (hblocked : ∀ n ∈ (nodeAt v.Nodes endNode).Neighbors, nodeObstructed B v n = true)
    (hne : startNode ≠ endNode) (hnadj : startNode ∉ (nodeAt v.Nodes endNode).Neighbors)
    (out_path : List (FVector K)) (m : Nat) (st : SearchState K)
    (hinv : TermInv sqrt v startNode st)
    (hopen : ∀ n ∈ st.openSet, n ≠ endNode ∧ (n = startNode ∨ nodeObstructed B v n = false))
    (hm : st.openSet.length + 2 * searchMeasure sqrt v.Nodes st.gScores ≤ m) :
    searchLoop sqrt B v endNode out_path (m + 1) st = some (false, out_path) := by
  refine searchLoop_false_of_inv sqrt B v endNode out_path
    (fun st => TermInv sqrt v startNode st ∧
      ∀ n ∈ st.openSet, n ≠ endNode ∧ (n = startNode ∨ nodeObstructed B v n = false))
    ?_ m st ⟨hinv, hopen⟩ hm
  rintro st current rest ⟨hT, hO⟩ ho
  have hcur := hO current (by rw [ho]; exact List.mem_cons_self _ _)
  obtain ⟨hT', hlt⟩ := expandNode_term sqrt hsq B v hwf startNode endNode hs st current rest hT ho
  refine ⟨hcur.1, ⟨hT', ?_⟩, hlt⟩
  have hend : endNode ∉ (nodeAt v.Nodes current).Neighbors := by
    intro hmem
    have h1 := hsymm current endNode hmem
    rcases hcur.2 with h2 | h2
    · rw [h2] at h1; exact hnadj h1
    · rw [hblocked current h1] at h2; cases h2
  intro n hn
  unfold expandNode at hn
  rcases foldl_relaxNeighbor_openSet sqrt B v endNode current _ { st with openSet := rest }
    hT.graph n hn with h | ⟨h1, h2⟩
  · exact hO n (by rw [ho]; exact List.mem_cons_of_mem _ h)
  · rw [(hT.graph current).2] at h1
    refine ⟨?_, Or.inr h2⟩
    rintro rfl
    exact hend h1

end BlockedLemmas

end Navigation3D

namespace Navigation3D

section BlockedRuns

theorem ratSqrt_nonneg (x : ℚ) (_ : 0 ≤ x) : 0 ≤ ratSqrt x := by
  unfold ratSqrt
  positivity

/-- With the first of two cells obstructed, the search from the first cell to the second
still returns `true`: the start cell is never tested. -/
theorem lineVolume_blocked_run :
    FindPath ratSqrt firstCellOverlap 5 lineVolume ⟨50, 50, 50⟩ ⟨150, 50, 50⟩ [] =
      some (true, [⟨50, 50, 50⟩, ⟨150, 50, 50⟩]) := by
  unfold FindPath
  rw [lineVolume_cell_first, lineVolume_cell_second, lineVolume_eq]
  simp [searchLoop, FindPath_init, GetNode, GetNodeIndex, ClampCoordinates, FMath.Clamp,
    TArray.Empty, setFScore, h, distance, nodeAt, FVector.Distance, FVector.DistSquared,
    FVector.ofIntVector, ratSqrt_zero, ratSqrt_one, multisetInsert, relaxNeighbor, gScore,
    Function.update, rebuildPath, ConvertCoordinatesToLocation,
    ConvertCoordinatesToLocation_gridSpaceLocation, NodeCompare, FLT_MAX, firstCellOverlap]
  norm_num

/-- With the first of two cells obstructed, the search from the second cell to itself
returns `true` with that cell's centre. -/
theorem lineVolume_same_cell_run :
    FindPath ratSqrt firstCellOverlap 5 lineVolume ⟨150, 50, 50⟩ ⟨150, 50, 50⟩ [] =
      some (true, [⟨150, 50, 50⟩]) := by
  unfold FindPath
  rw [lineVolume_cell_second, lineVolume_eq]
  simp [searchLoop, FindPath_init, GetNode, GetNodeIndex, ClampCoordinates, FMath.Clamp,
    TArray.Empty, setFScore, h, distance, nodeAt, FVector.Distance, FVector.DistSquared,
    FVector.ofIntVector, ratSqrt_zero, ratSqrt_one, multisetInsert, relaxNeighbor, gScore,
    Function.update, rebuildPath, ConvertCoordinatesToLocation,
    ConvertCoordinatesToLocation_gridSpaceLocation, NodeCompare, FLT_MAX, firstCellOverlap]
  norm_num

theorem lineVolume_destination_enclosed :
    ∀ n ∈ (nodeAt lineVolume.Nodes
        (GetNode lineVolume (ConvertLocationToCoordinates lineVolume ⟨150, 50, 50⟩))).Neighbors,
      firstCellOverlap
        (ConvertCoordinatesToLocation lineVolume (nodeAt lineVolume.Nodes n).Coordinates)
        ⟨lineVolume.DivisionSize / 2, lineVolume.DivisionSize / 2,
          lineVolume.DivisionSize / 2⟩ = true := by
  rw [lineVolume_cell_second, lineVolume_eq]
  simp [GetNode, GetNodeIndex, ClampCoordinates, FMath.Clamp, nodeAt,
    ConvertCoordinatesToLocation, ConvertCoordinatesToLocation_gridSpaceLocation,
    firstCellOverlap]
  norm_num

theorem corridor_eq : BeginPlay corridorConfig =
    { DivisionsX := 3, DivisionsY := 1, DivisionsZ := 1, DivisionSize := 100,
      MinSharedNeighborAxes := 0, ActorTransform := ⟨id, id⟩,
      Nodes := [⟨⟨0, 0, 0⟩, [1], FLT_MAX⟩, ⟨⟨1, 0, 0⟩, [2, 0], FLT_MAX⟩,
        ⟨⟨2, 0, 0⟩, [1], FLT_MAX⟩] } := by rfl

theorem corridor_cell_first :
    ConvertLocationToCoordinates (BeginPlay corridorConfig) ⟨50, 50, 50⟩ = ⟨0, 0, 0⟩ := by
  rw [corridor_eq]
  norm_num [ConvertLocationToCoordinates, ConvertLocationToCoordinates_unclamped,
    ClampCoordinates, FMath.Clamp, FloatToInt, GetGridSizeX, GetGridSizeY, GetGridSizeZ]

theorem corridor_cell_last :
    ConvertLocationToCoordinates (BeginPlay corridorConfig) ⟨250, 50, 50⟩ = ⟨2, 0, 0⟩ := by
  rw [corridor_eq]
  norm_num [ConvertLocationToCoordinates, ConvertLocationToCoordinates_unclamped,
    ClampCoordinates, FMath.Clamp, FloatToInt, GetGridSizeX, GetGridSizeY, GetGridSizeZ]

theorem corridor_destination_enclosed :
    ∀ n ∈ (nodeAt (BeginPlay corridorConfig).Nodes
        (GetNode (BeginPlay corridorConfig)
          (ConvertLocationToCoordinates (BeginPlay corridorConfig) ⟨250, 50, 50⟩))).Neighbors,
      middleCellOverlap
        (ConvertCoordinatesToLocation (BeginPlay corridorConfig)
          (nodeAt (BeginPlay corridorConfig).Nodes n).Coordinates)
        ⟨(BeginPlay corridorConfig).DivisionSize / 2, (BeginPlay corridorConfig).DivisionSize / 2,
          (BeginPlay corridorConfig).DivisionSize / 2⟩ = true := by
  rw [corridor_cell_last, corridor_eq]
  simp [GetNode, GetNodeIndex, ClampCoordinates, FMath.Clamp, nodeAt,
    ConvertCoordinatesToLocation, ConvertCoordinatesToLocation_gridSpaceLocation,
    middleCellOverlap]
  norm_num

theorem corridor_start_ne_end :
    GetNode (BeginPlay corridorConfig)
        (ConvertLocationToCoordinates (BeginPlay corridorConfig) ⟨50, 50, 50⟩) ≠
      GetNode (BeginPlay corridorConfig)
        (ConvertLocationToCoordinates (BeginPlay corridorConfig) ⟨250, 50, 50⟩) := by
  rw [corridor_cell_first, corridor_cell_last]
  decide

theorem corridor_start_not_adjacent :
    GetNode (BeginPlay corridorConfig)
        (ConvertLocationToCoordinates (BeginPlay corridorConfig) ⟨50, 50, 50⟩) ∉
      (nodeAt (BeginPlay corridorConfig).Nodes
        (GetNode (BeginPlay corridorConfig)
          (ConvertLocationToCoordinates (BeginPlay corridorConfig) ⟨250, 50, 50⟩))).Neighbors := by
  rw [corridor_cell_first, corridor_cell_last, corridor_eq]
  simp [GetNode, GetNodeIndex, ClampCoordinates, FMath.Clamp, nodeAt]

end BlockedRuns

section BlockedClaims

variable {K : Type} [LinearOrderedField K] [FloorRing K]

/-- C5 as stated fails: in the row of two cells with the first cell obstructed, every cell
in the neighbour list of the node of the second cell is reported obstructed, yet `FindPath`
to the second cell returns `true` both from the first cell and from the second cell
itself, and from the first cell it returns `false` for no iteration bound. -/
theorem C5_counterexample :
    (∀ n ∈ (nodeAt lineVolume.Nodes
        (GetNode lineVolume (ConvertLocationToCoordinates lineVolume ⟨150, 50, 50⟩))).Neighbors,
      firstCellOverlap
        (ConvertCoordinatesToLocation lineVolume (nodeAt lineVolume.Nodes n).Coordinates)
        ⟨lineVolume.DivisionSize / 2, lineVolume.DivisionSize / 2,
          lineVolume.DivisionSize / 2⟩ = true) ∧
      FindPath ratSqrt firstCellOverlap 5 lineVolume ⟨50, 50, 50⟩ ⟨150, 50, 50⟩ [] =
        some (true, [⟨50, 50, 50⟩, ⟨150, 50, 50⟩]) ∧
      FindPath ratSqrt firstCellOverlap 5 lineVolume ⟨150, 50, 50⟩ ⟨150, 50, 50⟩ [] =
        some (true, [⟨150, 50, 50⟩]) ∧
      ∀ fuel path, FindPath ratSqrt firstCellOverlap fuel lineVolume ⟨50, 50, 50⟩
        ⟨150, 50, 50⟩ [] ≠ some (false, path) := by
  refine ⟨lineVolume_destination_enclosed, lineVolume_blocked_run, lineVolume_same_cell_run, ?_⟩
  intro fuel path hfalse
  have := FindPath_fuel_unique ratSqrt firstCellOverlap lineVolume _ _ _ _ _ _ _ hfalse
    lineVolume_blocked_run
  simp at this

/-- C5, amended: on the graph built by `BeginPlay` for a grid with at least one division
per axis, with distances that are not negative, if the overlap query reports an obstruction
for every cell in the destination node's neighbour list and the start node is neither the
destination node nor in that list, then `FindPath` returns `false` with an empty
`out_path` for every sufficient iteration bound. -/
theorem C5_enclosed_destination_fails (sqrt : K → K) (hsq : ∀ x, 0 ≤ x → 0 ≤ sqrt x)
    (BoxOverlapActors : FVector K → FVector K → Bool) (cfg : ANavigationVolume3D K)
    (hx : 1 ≤ cfg.DivisionsX) (hy : 1 ≤ cfg.DivisionsY) (hz : 1 ≤ cfg.DivisionsZ)
    (start destination : FVector K) (out_path : List (FVector K))
    (hblocked : ∀ n ∈ (nodeAt (BeginPlay cfg).Nodes
        (GetNode (BeginPlay cfg)
          (ConvertLocationToCoordinates (BeginPlay cfg) destination))).Neighbors,
      BoxOverlapActors
        (ConvertCoordinatesToLocation (BeginPlay cfg) (nodeAt (BeginPlay cfg).Nodes n).Coordinates)
        ⟨(BeginPlay cfg).DivisionSize / 2, (BeginPlay cfg).DivisionSize / 2,
          (BeginPlay cfg).DivisionSize / 2⟩ = true)
    (hne : GetNode (BeginPlay cfg) (ConvertLocationToCoordinates (BeginPlay cfg) start) ≠
      GetNode (BeginPlay cfg) (ConvertLocationToCoordinates (BeginPlay cfg) destination))
    (hnadj : GetNode (BeginPlay cfg) (ConvertLocationToCoordinates (BeginPlay cfg) start) ∉
      (nodeAt (BeginPlay cfg).Nodes
        (GetNode (BeginPlay cfg)
          (ConvertLocationToCoordinates (BeginPlay cfg) destination))).Neighbors) :
    ∃ fuel, ∀ fuel', fuel ≤ fuel' →
      FindPath sqrt BoxOverlapActors fuel' (BeginPlay cfg) start destination out_path =
        some (false, []) := by
  set v := BeginPlay cfg with hv
  set startNode := GetNode v (ConvertLocationToCoordinates v start) with hsn
  set endNode := GetNode v (ConvertLocationToCoordinates v destination) with hen
  have hwf : NeighborsInRange v.Nodes := BeginPlay_neighborsInRange cfg hx hy
  have hs : startNode < v.Nodes.length := by
    rw [hv, BeginPlay_length]
    exact GetNode_clamp_lt cfg hx hy hz _
  have hinit := FindPath_init_term sqrt v startNode endNode
  have hrun := searchLoop_blocked sqrt hsq BoxOverlapActors v hwf
    (BeginPlay_neighbors_symm cfg hx hy) startNode endNode hs hblocked hne hnadj
    (TArray.Empty out_path) _ (FindPath_init sqrt v startNode endNode) hinit
    (by
      intro n hn
      simp only [FindPath_init, mem_multisetInsert, List.not_mem_nil, or_false] at hn
      rw [hn]
      exact ⟨hne, Or.inl rfl⟩)
    (le_refl _)
  refine ⟨(FindPath_init sqrt v startNode endNode).openSet.length +
    2 * searchMeasure sqrt v.Nodes (FindPath_init sqrt v startNode endNode).gScores + 1,
    fun fuel' hle => ?_⟩
  unfold FindPath
  exact searchLoop_fuel_mono_le sqrt BoxOverlapActors v endNode _ _ fuel' hle _ _ hrun

theorem C5_enclosed_destination_fails_witness :
    (∀ x, 0 ≤ x → 0 ≤ ratSqrt x) ∧ (1 : Int) ≤ corridorConfig.DivisionsX ∧
      (1 : Int) ≤ corridorConfig.DivisionsY ∧ (1 : Int) ≤ corridorConfig.DivisionsZ ∧
      (∀ n ∈ (nodeAt (BeginPlay corridorConfig).Nodes
          (GetNode (BeginPlay corridorConfig)
            (ConvertLocationToCoordinates (BeginPlay corridorConfig) ⟨250, 50, 50⟩))).Neighbors,
        middleCellOverlap
          (ConvertCoordinatesToLocation (BeginPlay corridorConfig)
            (nodeAt (BeginPlay corridorConfig).Nodes n).Coordinates)
          ⟨(BeginPlay corridorConfig).DivisionSize / 2,
            (BeginPlay corridorConfig).DivisionSize / 2,
            (BeginPlay corridorConfig).DivisionSize / 2⟩ = true) ∧
      GetNode (BeginPlay corridorConfig)
          (ConvertLocationToCoordinates (BeginPlay corridorConfig) ⟨50, 50, 50⟩) ≠
        GetNode (BeginPlay corridorConfig)
          (ConvertLocationToCoordinates (BeginPlay corridorConfig) ⟨250, 50, 50⟩) ∧
      GetNode (BeginPlay corridorConfig)
          (ConvertLocationToCoordinates (BeginPlay corridorConfig) ⟨50, 50, 50⟩) ∉
        (nodeAt (BeginPlay corridorConfig).Nodes
          (GetNode (BeginPlay corridorConfig)
            (ConvertLocationToCoordinates (BeginPlay corridorConfig)
              ⟨250, 50, 50⟩))).Neighbors ∧
      ∃ fuel, ∀ fuel', fuel ≤ fuel' →
        FindPath ratSqrt middleCellOverlap fuel' (BeginPlay corridorConfig) ⟨50, 50, 50⟩
          ⟨250, 50, 50⟩ [⟨7, 7, 7⟩] = some (false, []) :=
  ⟨ratSqrt_nonneg, by decide, by decide, by decide, corridor_destination_enclosed,
    corridor_start_ne_end, corridor_start_not_adjacent,
    C5_enclosed_destination_fails ratSqrt ratSqrt_nonneg middleCellOverlap corridorConfig
      (by decide) (by decide) (by decide) ⟨50, 50, 50⟩ ⟨250, 50, 50⟩ [⟨7, 7, 7⟩]
      corridor_destination_enclosed corridor_start_ne_end corridor_start_not_adjacent⟩

end BlockedClaims

end Navigation3D

namespace Navigation3D

section Metric

variable {K : Type} [LinearOrderedField K] [FloorRing K]

theorem exactSqrt_zero (sqrt : K → K)
    (hexact : ∀ x, 0 ≤ x → 0 ≤ sqrt x ∧ sqrt x * sqrt x = x) : sqrt 0 = 0 := by
  have h := (hexact 0 (le_refl _)).2
  exact mul_self_eq_zero.1 h

theorem exactSqrt_one (sqrt : K → K)
    (hexact : ∀ x, 0 ≤ x → 0 ≤ sqrt x ∧ sqrt x * sqrt x = x) : sqrt 1 = 1 := by
  obtain ⟨h0, h1⟩ := hexact 1 zero_le_one
  nlinarith

theorem exactSqrt_pos (sqrt : K → K)
    (hexact : ∀ x, 0 ≤ x → 0 ≤ sqrt x ∧ sqrt x * sqrt x = x) (x : K) (hx : 0 < x) :
    0 < sqrt x := by
  obtain ⟨h0, h1⟩ := hexact x (le_of_lt hx)
  rcases eq_or_lt_of_le h0 with h | h
  · rw [← h] at h1; simp at h1; linarith
  · exact h

theorem exactSqrt_le (sqrt : K → K)
    (hexact : ∀ x, 0 ≤ x → 0 ≤ sqrt x ∧ sqrt x * sqrt x = x) (x y : K) (hx : 0 ≤ x)
    (hy : 0 ≤ y) (hxy : x ≤ y * y) : sqrt x ≤ y := by
  obtain ⟨h0, h1⟩ := hexact x hx
  by_contra hcon
  push_neg at hcon
  nlinarith

theorem DistSquared_nonneg (A B : FVector K) : 0 ≤ FVector.DistSquared A B := by
  unfold FVector.DistSquared
  positivity

theorem DistSquared_comm (A B : FVector K) :
    FVector.DistSquared A B = FVector.DistSquared B A := by
  unfold FVector.DistSquared
  ring

theorem cauchy_schwarz3 (u1 u2 u3 w1 w2 w3 : K) :
    (u1 * w1 + u2 * w2 + u3 * w3) ^ 2 ≤
      (u1 ^ 2 + u2 ^ 2 + u3 ^ 2) * (w1 ^ 2 + w2 ^ 2 + w3 ^ 2) := by
  have hid : (u1 ^ 2 + u2 ^ 2 + u3 ^ 2) * (w1 ^ 2 + w2 ^ 2 + w3 ^ 2) -
      (u1 * w1 + u2 * w2 + u3 * w3) ^ 2 =
      (u1 * w2 - u2 * w1) ^ 2 + (u1 * w3 - u3 * w1) ^ 2 + (u2 * w3 - u3 * w2) ^ 2 := by
    ring
  have hnn : 0 ≤ (u1 * w2 - u2 * w1) ^ 2 + (u1 * w3 - u3 * w1) ^ 2 +
      (u2 * w3 - u3 * w2) ^ 2 := by positivity
  linarith

theorem norm_triangle3 (sqrt : K → K)
    (hexact : ∀ x, 0 ≤ x → 0 ≤ sqrt x ∧ sqrt x * sqrt x = x) (u1 u2 u3 w1 w2 w3 : K) :
    sqrt ((u1 + w1) ^ 2 + (u2 + w2) ^ 2 + (u3 + w3) ^ 2) ≤
      sqrt (u1 ^ 2 + u2 ^ 2 + u3 ^ 2) + sqrt (w1 ^ 2 + w2 ^ 2 + w3 ^ 2) := by
  have hu : (0 : K) ≤ u1 ^ 2 + u2 ^ 2 + u3 ^ 2 := by positivity
  have hw : (0 : K) ≤ w1 ^ 2 + w2 ^ 2 + w3 ^ 2 := by positivity
  obtain ⟨ha0, ha1⟩ := hexact _ hu
  obtain ⟨hb0, hb1⟩ := hexact _ hw
  generalize sqrt (u1 ^ 2 + u2 ^ 2 + u3 ^ 2) = a at ha0 ha1 ⊢
  generalize sqrt (w1 ^ 2 + w2 ^ 2 + w3 ^ 2) = b at hb0 hb1 ⊢
  apply exactSqrt_le sqrt hexact _ _ (by positivity) (by linarith)
  have hcs := cauchy_schwarz3 u1 u2 u3 w1 w2 w3
  have hab : 0 ≤ a * b := mul_nonneg ha0 hb0
  have hsq : (u1 * w1 + u2 * w2 + u3 * w3) ^ 2 ≤ (a * b) ^ 2 := by
    have : (a * b) ^ 2 = (a * a) * (b * b) := by ring
    rw [this, ha1, hb1]
    exact hcs
  have hdot : u1 * w1 + u2 * w2 + u3 * w3 ≤ a * b := by
    have := abs_le_of_sq_le_sq' hsq hab
    exact this.2
  have hexp : (u1 + w1) ^ 2 + (u2 + w2) ^ 2 + (u3 + w3) ^ 2 =
      (u1 ^ 2 + u2 ^ 2 + u3 ^ 2) + (w1 ^ 2 + w2 ^ 2 + w3 ^ 2) +
        2 * (u1 * w1 + u2 * w2 + u3 * w3) := by ring
  have hexp2 : (a + b) * (a + b) = a * a + b * b + 2 * (a * b) := by ring
  rw [hexp, hexp2, ha1, hb1]
  linarith

theorem Distance_triangle (sqrt : K → K)
    (hexact : ∀ x, 0 ≤ x → 0 ≤ sqrt x ∧ sqrt x * sqrt x = x) (A B C : FVector K) :
    FVector.Distance sqrt A C ≤ FVector.Distance sqrt A B + FVector.Distance sqrt B C := by
  unfold FVector.Distance FVector.DistSquared
  have h := norm_triangle3 sqrt hexact (B.X - A.X) (B.Y - A.Y) (B.Z - A.Z)
    (C.X - B.X) (C.Y - B.Y) (C.Z - B.Z)
  have e1 : B.X - A.X + (C.X - B.X) = C.X - A.X := by ring
  have e2 : B.Y - A.Y + (C.Y - B.Y) = C.Y - A.Y := by ring
  have e3 : B.Z - A.Z + (C.Z - B.Z) = C.Z - A.Z := by ring
  rw [e1, e2, e3] at h
  exact h

theorem distance_triangle (sqrt : K → K)
    (hexact : ∀ x, 0 ≤ x → 0 ≤ sqrt x ∧ sqrt x * sqrt x = x) (nodes : List (NavNode K))
    (a b c : Nat) :
    distance sqrt nodes a c ≤ distance sqrt nodes a b + distance sqrt nodes b c :=
  Distance_triangle sqrt hexact _ _ _

theorem distance_comm (sqrt : K → K) (nodes : List (NavNode K)) (a b : Nat) :
    distance sqrt nodes a b = distance sqrt nodes b a := by
  unfold distance FVector.Distance
  rw [DistSquared_comm]

theorem distance_self (sqrt : K → K)
    (hexact : ∀ x, 0 ≤ x → 0 ≤ sqrt x ∧ sqrt x * sqrt x = x) (nodes : List (NavNode K))
    (a : Nat) : distance sqrt nodes a a = 0 := by
  unfold distance FVector.Distance FVector.DistSquared
  simp [exactSqrt_zero sqrt hexact]

theorem h_eq_distance (sqrt : K → K) (nodes : List (NavNode K)) (endNode n : Nat) :
    h sqrt nodes endNode n = distance sqrt nodes endNode n := rfl

end Metric

end Navigation3D

namespace Navigation3D

section OptLemmas

variable {K : Type} [LinearOrderedField K] [FloorRing K]

theorem FScore_setFScore_self (nodes : List (NavNode K)) (i : Nat) (f : K)
    (hi : i < nodes.length) : (nodeAt (setFScore nodes i f) i).FScore = f := by
  unfold setFScore
  rw [nodeAt_set_eq _ _ _ hi]

theorem FScore_setFScore_ne (nodes : List (NavNode K)) (i j : Nat) (f : K) (hij : i ≠ j) :
    (nodeAt (setFScore nodes i f) j).FScore = (nodeAt nodes j).FScore := by
  unfold setFScore
  rw [nodeAt_set_ne _ _ _ _ hij]

theorem length_setFScore (nodes : List (NavNode K)) (i : Nat) (f : K) :
    (setFScore nodes i f).length = nodes.length := by
  simp [setFScore]

theorem queued_insert_self (nodes : List (NavNode K)) (nb : Nat) :
    ∀ l : List Nat, ∃ pre post, multisetInsert nodes l nb = pre ++ nb :: post ∧
      ∀ e ∈ pre, (nodeAt nodes e).FScore ≤ (nodeAt nodes nb).FScore := by
  intro l
  induction l with
  | nil => exact ⟨[], [], rfl, by simp⟩
  | cons e es ih =>
    unfold multisetInsert
    split_ifs with hc
    · exact ⟨[], e :: es, rfl, by simp⟩
    · obtain ⟨pre, post, heq, hle⟩ := ih
      refine ⟨e :: pre, post, by rw [heq]; rfl, ?_⟩
      intro x hx
      rcases List.mem_cons.1 hx with hx | hx
      · subst hx
        simp only [NodeCompare, decide_eq_true_eq, not_lt] at hc
        exact hc
      · exact hle x hx

theorem queued_insert_other (nodes : List (NavNode K)) (nb n : Nat) (post : List Nat) :
    ∀ pre : List Nat, (∀ e ∈ pre, (nodeAt nodes e).FScore ≤ (nodeAt nodes n).FScore) →
      ∃ pre' post', multisetInsert nodes (pre ++ n :: post) nb = pre' ++ n :: post' ∧
        ∀ e ∈ pre', (nodeAt nodes e).FScore ≤ (nodeAt nodes n).FScore := by
  intro pre
  induction pre with
  | nil =>
    intro _
    simp only [List.nil_append]
    unfold multisetInsert
    split_ifs with hc
    · refine ⟨[nb], post, rfl, ?_⟩
      intro e he
      simp only [List.mem_singleton] at he
      subst he
      simp only [NodeCompare, decide_eq_true_eq] at hc
      exact le_of_lt hc
    · exact ⟨[], multisetInsert nodes post nb, rfl, by simp⟩
  | cons e pre ih =>
    intro hle
    simp only [List.cons_append]
    unfold multisetInsert
    split_ifs with hc
    · refine ⟨nb :: e :: pre, post, rfl, ?_⟩
      intro x hx
      rcases List.mem_cons.1 hx with hx | hx
      · subst hx
        simp only [NodeCompare, decide_eq_true_eq] at hc
        exact le_trans (le_of_lt hc) (hle e (List.mem_cons_self _ _))
      · exact hle x hx
    · obtain ⟨pre', post', heq, hle'⟩ := ih (fun x hx => hle x (List.mem_cons_of_mem _ hx))
      refine ⟨e :: pre', post', by rw [heq]; rfl, ?_⟩
      intro x hx
      rcases List.mem_cons.1 hx with hx | hx
      · subst hx; exact hle x (List.mem_cons_self _ _)
      · exact hle' x hx

theorem mem_neighbors_lt (nodes : List (NavNode K)) (p n : Nat)
    (h : n ∈ (nodeAt nodes p).Neighbors) : p < nodes.length := by
  by_contra hcon
  unfold nodeAt at h
  rw [List.getD_eq_getElem?_getD, List.getElem?_eq_none (by omega)] at h
  simp [default, NavNode.new] at h

theorem FLT_MAX_pos : (0 : K) < FLT_MAX := by
  unfold FLT_MAX
  norm_num

theorem gScore_nonneg (sqrt : K → K) (hsq : ∀ x, 0 ≤ x → 0 ≤ sqrt x)
    (v : ANavigationVolume3D K) (startNode : Nat) (st : SearchState K)
    (hinv : TermInv sqrt v startNode st) (n : Nat) : 0 ≤ gScore st.gScores n := by
  unfold gScore
  cases hg : st.gScores n with
  | none => exact le_of_lt FLT_MAX_pos
  | some g =>
    obtain ⟨rp, _, _, hc⟩ := hinv.witness n g hg
    simp only
    rw [← hc]
    exact revCost_nonneg sqrt hsq v.Nodes rp

theorem gScore_le_FLT_MAX (gs : Nat → Option K) (hbelow : ∀ n g, gs n = some g → g < FLT_MAX)
    (n : Nat) : gScore gs n ≤ FLT_MAX := by
  unfold gScore
  cases hg : gs n with
  | none => exact le_refl _
  | some g => exact le_of_lt (hbelow n g hg)

theorem gScore_of_some (gs : Nat → Option K) (n : Nat) (g : K) (hg : gs n = some g) :
    gScore gs n = g := by
  simp [gScore, hg]

theorem relaxNeighbor_eq_update (sqrt : K → K) (B : FVector K → FVector K → Bool)
    (hB : ∀ p e, B p e = false) (v : ANavigationVolume3D K) (endNode current : Nat)
    (st : SearchState K) (nb : Nat)
    (h1 : gScore st.gScores current + distance sqrt st.Nodes current nb <
      gScore st.gScores nb) :
    relaxNeighbor sqrt B v endNode current st nb =
      { Nodes := setFScore st.Nodes nb
          (gScore st.gScores current + distance sqrt st.Nodes current nb +
            h sqrt st.Nodes endNode nb),
        openSet := multisetInsert (setFScore st.Nodes nb
          (gScore st.gScores current + distance sqrt st.Nodes current nb +
            h sqrt st.Nodes endNode nb)) st.openSet nb,
        cameFrom := Function.update st.cameFrom nb (some current),
        gScores := Function.update st.gScores nb
          (some (gScore st.gScores current + distance sqrt st.Nodes current nb)) } := by
  unfold relaxNeighbor
  simp only [if_pos h1, hB, Bool.not_false, if_true]

theorem relaxNeighbor_eq_self (sqrt : K → K) (B : FVector K → FVector K → Bool)
    (v : ANavigationVolume3D K) (endNode current : Nat) (st : SearchState K) (nb : Nat)
    (h1 : ¬ gScore st.gScores current + distance sqrt st.Nodes current nb <
      gScore st.gScores nb) :
    relaxNeighbor sqrt B v endNode current st nb = st := by
  unfold relaxNeighbor
  simp only [if_neg h1]

end OptLemmas

end Navigation3D

namespace Navigation3D

section OptStep

variable {K : Type} [LinearOrderedField K] [FloorRing K]

theorem relaxNeighbor_mid (sqrt : K → K) (hsq : ∀ x, 0 ≤ x → 0 ≤ sqrt x)
    (B : FVector K → FVector K → Bool) (hB : ∀ p e, B p e = false)
    (v : ANavigationVolume3D K) (hwf : NeighborsInRange v.Nodes) (startNode endNode : Nat)
    (hs : startNode < v.Nodes.length) (current : Nat) (gc : K) (done : List Nat)
    (st : SearchState K) (nb : Nat)
    (hmid : MidInv sqrt v startNode endNode current gc done st)
    (hnb : nb ∈ (nodeAt v.Nodes current).Neighbors) :
    MidInv sqrt v startNode endNode current gc (nb :: done)
      (relaxNeighbor sqrt B v endNode current st nb) := by
  have hgraph := hmid.core.term.graph
  have hgcur : gScore st.gScores current = gc := gScore_of_some _ _ _ hmid.curG
  have hdist : distance sqrt st.Nodes current nb = distance sqrt v.Nodes current nb :=
    distance_sameGraph hgraph sqrt current nb
  have hd0 : 0 ≤ distance sqrt v.Nodes current nb := distance_nonneg sqrt hsq v.Nodes current nb
  by_cases h1 : gScore st.gScores current + distance sqrt st.Nodes current nb <
      gScore st.gScores nb
  · have hterm := (relaxNeighbor_term sqrt hsq B v hwf startNode endNode current hs st nb
      hmid.core.term ⟨gc, hmid.curG⟩ hnb).1
    rw [relaxNeighbor_eq_update sqrt B hB v endNode current st nb h1] at hterm ⊢
    rw [hgcur, hdist] at h1 hterm ⊢
    rw [h_sameGraph hgraph] at hterm ⊢
    set t := gc + distance sqrt v.Nodes current nb with ht
    set f := t + h sqrt v.Nodes endNode nb with hf
    have hnbM : nb < st.Nodes.length := by
      rw [hmid.core.length]; exact hwf current nb hnb
    have hcn : current ≠ nb := by
      intro hcn
      rw [← hcn, hgcur] at h1
      linarith
    have hle : ∀ x, gScore (Function.update st.gScores nb (some t)) x ≤
        gScore st.gScores x := by
      intro x
      rw [gScore_update]
      split_ifs with hx
      · subst hx; exact le_of_lt h1
      · exact le_refl _
    have hFother : ∀ x, x ≠ nb →
        (nodeAt (setFScore st.Nodes nb f) x).FScore = (nodeAt st.Nodes x).FScore :=
      fun x hx => FScore_setFScore_ne _ _ _ _ (Ne.symm hx)
    have hFnb : (nodeAt (setFScore st.Nodes nb f) nb).FScore = f :=
      FScore_setFScore_self _ _ _ hnbM
    have hFle : ∀ x ∈ st.openSet,
        (nodeAt (setFScore st.Nodes nb f) x).FScore ≤ (nodeAt st.Nodes x).FScore := by
      intro x hx
      by_cases hxn : x = nb
      · subst hxn
        obtain ⟨g, hg⟩ := hmid.core.term.opened x hx
        rw [hFnb, hmid.core.fscore x g hg, hf]
        rw [gScore_of_some _ _ _ hg] at h1
        linarith
      · rw [hFother x hxn]
    refine ⟨⟨hterm, ?_, ?_, ?_, ?_, ?_, ?_⟩, ?_, ?_, ?_⟩
    · show (setFScore st.Nodes nb f).length = _
      rw [length_setFScore]; exact hmid.core.length
    · intro n g hg
      show (nodeAt (setFScore st.Nodes nb f) n).FScore = _
      by_cases hn : n = nb
      · subst hn
        have hg' : Function.update st.gScores n (some t) n = some g := hg
        rw [Function.update_same, Option.some.injEq] at hg'
        rw [hFnb, hf, hg']
      · have hg' : Function.update st.gScores nb (some t) n = some g := hg
        rw [Function.update_noteq hn] at hg'
        rw [hFother n hn]
        exact hmid.core.fscore n g hg'
    · intro n g hg
      by_cases hn : n = nb
      · subst hn
        have hg' : Function.update st.gScores n (some t) n = some g := hg
        rw [Function.update_same, Option.some.injEq] at hg'
        rw [← hg']
        exact lt_of_lt_of_le h1 (gScore_le_FLT_MAX _ hmid.core.below n)
      · have hg' : Function.update st.gScores nb (some t) n = some g := hg
        rw [Function.update_noteq hn] at hg'
        exact hmid.core.below n g hg'
    · intro n p hnp
      show _ ∧ gScore (Function.update st.gScores nb (some t)) p + _ ≤
        gScore (Function.update st.gScores nb (some t)) n
      by_cases hn : n = nb
      · subst hn
        have hnp' : Function.update st.cameFrom n (some current) n = some p := hnp
        rw [Function.update_same, Option.some.injEq] at hnp'
        subst hnp'
        refine ⟨hnb, ?_⟩
        rw [gScore_update, gScore_update, if_pos rfl, if_neg hcn, hgcur]
      · have hnp' : Function.update st.cameFrom nb (some current) n = some p := hnp
        rw [Function.update_noteq hn] at hnp'
        obtain ⟨hm, hc⟩ := hmid.core.came n p hnp'
        refine ⟨hm, ?_⟩
        rw [gScore_update _ _ _ n, if_neg hn]
        exact le_trans (add_le_add_right (hle p) _) hc
    · exact le_trans (hle startNode) hmid.core.startG
    · rintro ⟨g, hg⟩
      show endNode ∈ multisetInsert _ st.openSet nb
      rw [mem_multisetInsert]
      by_cases hn : endNode = nb
      · exact Or.inl hn
      · have hg' : Function.update st.gScores nb (some t) endNode = some g := hg
        rw [Function.update_noteq hn] at hg'
        exact Or.inr (hmid.core.goal ⟨g, hg'⟩)
    · intro n g hg hnc
      by_cases hn : n = nb
      · subst hn
        right
        exact queued_insert_self _ n st.openSet
      · have hg' : Function.update st.gScores nb (some t) n = some g := hg
        rw [Function.update_noteq hn] at hg'
        rcases hmid.settled n g hg' hnc with hrel | ⟨pre, post, hopen, hpre⟩
        · left
          intro m hm
          exact le_trans (hle m) (hrel m hm)
        · right
          have hpre' : ∀ e ∈ pre, (nodeAt (setFScore st.Nodes nb f) e).FScore ≤
              (nodeAt (setFScore st.Nodes nb f) n).FScore := by
            intro e he
            rw [hFother n hn]
            exact le_trans (hFle e (by rw [hopen]; simp [he])) (hpre e he)
          obtain ⟨pre', post', heq, hle'⟩ :=
            queued_insert_other (setFScore st.Nodes nb f) nb n post pre hpre'
          exact ⟨pre', post', by show multisetInsert _ st.openSet nb = _; rw [hopen]; exact heq,
            hle'⟩
    · show Function.update st.gScores nb (some t) current = some gc
      rw [Function.update_noteq hcn]
      exact hmid.curG
    · intro m hm
      show gScore (Function.update st.gScores nb (some t)) m ≤ _
      rcases List.mem_cons.1 hm with hm | hm
      · subst hm
        rw [gScore_update, if_pos rfl]
      · exact le_trans (hle m) (hmid.curDone m hm)
  · rw [relaxNeighbor_eq_self sqrt B v endNode current st nb h1]
    refine ⟨hmid.core, hmid.settled, hmid.curG, ?_⟩
    intro m hm
    rcases List.mem_cons.1 hm with hm | hm
    · subst hm
      rw [hgcur, hdist] at h1
      exact not_lt.1 h1
    · exact hmid.curDone m hm

theorem foldl_relaxNeighbor_mid (sqrt : K → K) (hsq : ∀ x, 0 ≤ x → 0 ≤ sqrt x)
    (B : FVector K → FVector K → Bool) (hB : ∀ p e, B p e = false)
    (v : ANavigationVolume3D K) (hwf : NeighborsInRange v.Nodes) (startNode endNode : Nat)
    (hs : startNode < v.Nodes.length) (current : Nat) (gc : K) (nbs : List Nat) :
    ∀ (done : List Nat) (st : SearchState K),
      MidInv sqrt v startNode endNode current gc done st →
      (∀ n ∈ nbs, n ∈ (nodeAt v.Nodes current).Neighbors) →
      MidInv sqrt v startNode endNode current gc (nbs.reverse ++ done)
        (nbs.foldl (relaxNeighbor sqrt B v endNode current) st) := by
  induction nbs with
  | nil => intro done st h _; exact h
  | cons n nbs ih =>
    intro done st hmid hsub
    rw [List.foldl_cons]
    have h1 := relaxNeighbor_mid sqrt hsq B hB v hwf startNode endNode hs current gc done st n
      hmid (hsub n (List.mem_cons_self _ _))
    have h2 := ih (n :: done) _ h1 (fun m hm => hsub m (List.mem_cons_of_mem _ hm))
    simpa using h2

/-- On a grid without obstructions one pass of the loop body keeps the invariant. -/
theorem expandNode_opt (sqrt : K → K) (hsq : ∀ x, 0 ≤ x → 0 ≤ sqrt x)
    (B : FVector K → FVector K → Bool) (hB : ∀ p e, B p e = false)
    (v : ANavigationVolume3D K) (hwf : NeighborsInRange v.Nodes) (startNode endNode : Nat)
    (hs : startNode < v.Nodes.length) (st : SearchState K) (current : Nat) (rest : List Nat)
    (hinv : OptInv sqrt v startNode endNode st) (ho : st.openSet = current :: rest)
    (hne : current ≠ endNode) :
    OptInv sqrt v startNode endNode (expandNode sqrt B v endNode st current rest) := by
  obtain ⟨gc, hgc⟩ := hinv.core.term.opened current (by rw [ho]; exact List.mem_cons_self _ _)
  have hmid0 : MidInv sqrt v startNode endNode current gc [] { st with openSet := rest } := by
    refine ⟨⟨⟨hinv.core.term.graph, ?_, hinv.core.term.witness⟩, hinv.core.length,
      hinv.core.fscore, hinv.core.below, hinv.core.came, hinv.core.startG, ?_⟩, ?_, hgc, ?_⟩
    · intro n hn
      exact hinv.core.term.opened n (by rw [ho]; exact List.mem_cons_of_mem _ hn)
    · intro hg
      have := hinv.core.goal hg
      rw [ho] at this
      rcases List.mem_cons.1 this with h | h
      · exact absurd h.symm hne
      · exact h
    · intro n g hg hnc
      rcases hinv.settled n g hg with h | ⟨pre, post, hopen, hpre⟩
      · exact Or.inl h
      · right
        rw [ho] at hopen
        cases pre with
        | nil =>
          simp only [List.nil_append, List.cons.injEq] at hopen
          exact absurd hopen.1.symm hnc
        | cons e pre =>
          simp only [List.cons_append, List.cons.injEq] at hopen
          exact ⟨pre, post, hopen.2, fun x hx => hpre x (List.mem_cons_of_mem _ hx)⟩
    · intro m hm
      exact absurd hm (List.not_mem_nil m)
  have hmid := foldl_relaxNeighbor_mid sqrt hsq B hB v hwf startNode endNode hs current gc
    (nodeAt st.Nodes current).Neighbors [] { st with openSet := rest } hmid0
    (fun n hn => by rw [(hinv.core.term.graph current).2] at hn; exact hn)
  refine ⟨hmid.core, ?_⟩
  intro n g hg
  by_cases hnc : n = current
  · left
    subst hnc
    have hg' : g = gc := by
      have := hmid.curG
      unfold expandNode at hg
      rw [this] at hg
      exact (Option.some.inj hg).symm
    intro m hm
    rw [hg']
    apply hmid.curDone m
    rw [List.append_nil, List.mem_reverse, (hinv.core.term.graph n).2]
    exact hm
  · exact hmid.settled n g hg hnc

theorem FindPath_init_opt (sqrt : K → K) (v : ANavigationVolume3D K) (startNode endNode : Nat)
    (hs : startNode < v.Nodes.length) :
    OptInv sqrt v startNode endNode (FindPath_init sqrt v startNode endNode) := by
  have hgs : ∀ n g, (FindPath_init sqrt v startNode endNode).gScores n = some g →
      n = startNode ∧ g = 0 := by
    intro n g hg
    simp only [FindPath_init] at hg
    by_cases hn : n = startNode
    · subst hn
      rw [Function.update_same, Option.some.injEq] at hg
      exact ⟨rfl, hg.symm⟩
    · rw [Function.update_noteq hn] at hg
      cases hg
  refine ⟨⟨FindPath_init_term sqrt v startNode endNode, ?_, ?_, ?_, ?_, ?_, ?_⟩, ?_⟩
  · simp [FindPath_init, length_setFScore]
  · intro n g hg
    obtain ⟨rfl, rfl⟩ := hgs n g hg
    simp only [FindPath_init]
    rw [FScore_setFScore_self _ _ _ hs]
    ring
  · intro n g hg
    obtain ⟨_, rfl⟩ := hgs n g hg
    exact FLT_MAX_pos
  · intro n p hnp
    simp [FindPath_init] at hnp
  · simp [FindPath_init, gScore]
  · rintro ⟨g, hg⟩
    obtain ⟨h1, _⟩ := hgs endNode g hg
    simp [FindPath_init, multisetInsert, h1]
  · intro n g hg
    obtain ⟨rfl, _⟩ := hgs n g hg
    right
    exact ⟨[], [], by simp [FindPath_init, multisetInsert], by simp⟩

end OptStep

end Navigation3D

namespace Navigation3D

section GoalLemmas

variable {K : Type} [LinearOrderedField K] [FloorRing K]

/-- Along any neighbour path from the start node, either the recorded `gScore` of its last
node is at most the path's cost, or a node waiting in the open set bounds the cost from
below, or the cost reaches `FLT_MAX`. -/
theorem frontier (sqrt : K → K)
    (hexact : ∀ x, 0 ≤ x → 0 ≤ sqrt x ∧ sqrt x * sqrt x = x)
    (v : ANavigationVolume3D K) (startNode endNode : Nat) (st : SearchState K)
    (hinv : OptInv sqrt v startNode endNode st) :
    ∀ (rp : List Nat) (x : Nat), IsRevPath v.Nodes rp → rp.head? = some x →
      rp.getLast? = some startNode →
      gScore st.gScores x ≤ revCost sqrt v.Nodes rp ∨
        (∃ y gy, Queued st y ∧ st.gScores y = some gy ∧
          gy + distance sqrt v.Nodes y x ≤ revCost sqrt v.Nodes rp) ∨
        FLT_MAX ≤ revCost sqrt v.Nodes rp
  | [], _, _, hh, _ => by simp at hh
  | [s], x, _, hh, hl => by
    simp only [List.head?_cons, Option.some.injEq] at hh
    simp only [List.getLast?_singleton, Option.some.injEq] at hl
    left
    rw [← hh, hl]
    exact hinv.core.startG
  | n :: p :: rest, x, hchain, hh, hl => by
    have hsq : ∀ x, 0 ≤ x → 0 ≤ sqrt x := fun x hx => (hexact x hx).1
    simp only [List.head?_cons, Option.some.injEq] at hh
    subst hh
    rw [List.getLast?_cons_cons] at hl
    obtain ⟨hnp, hchain'⟩ := List.chain'_cons.1 hchain
    have hd0 := distance_nonneg sqrt hsq v.Nodes p n
    show _ ≤ revCost sqrt v.Nodes (p :: rest) + distance sqrt v.Nodes p n ∨
      (∃ y gy, _ ∧ _ ∧ _ ≤ revCost sqrt v.Nodes (p :: rest) + distance sqrt v.Nodes p n) ∨
      _ ≤ revCost sqrt v.Nodes (p :: rest) + distance sqrt v.Nodes p n
    rcases frontier sqrt hexact v startNode endNode st hinv (p :: rest) p hchain' rfl hl with
      h | ⟨y, gy, hq, hgy, hle⟩ | h
    · cases hgp : st.gScores p with
      | none =>
        right; right
        simp only [gScore, hgp] at h
        linarith
      | some gp =>
        rw [gScore_of_some _ _ _ hgp] at h
        rcases hinv.settled p gp hgp with hrel | hq
        · left
          have := hrel n hnp
          linarith
        · right; left
          exact ⟨p, gp, hq, hgp, by linarith⟩
    · right; left
      refine ⟨y, gy, hq, hgy, ?_⟩
      have := distance_triangle sqrt hexact v.Nodes y p n
      linarith
    · right; right
      linarith

/-- When the end node is at the head of the open set, its recorded `gScore` is at most the
cost of every neighbour path from the start node to it. -/
theorem goal_gScore_le (sqrt : K → K)
    (hexact : ∀ x, 0 ≤ x → 0 ≤ sqrt x ∧ sqrt x * sqrt x = x)
    (v : ANavigationVolume3D K) (startNode endNode : Nat) (st : SearchState K)
    (hinv : OptInv sqrt v startNode endNode st) (rest : List Nat)
    (ho : st.openSet = endNode :: rest) (rp : List Nat) (hchain : IsRevPath v.Nodes rp)
    (hh : rp.head? = some endNode) (hl : rp.getLast? = some startNode) :
    gScore st.gScores endNode ≤ revCost sqrt v.Nodes rp := by
  obtain ⟨ge, hge⟩ := hinv.core.term.opened endNode (by rw [ho]; exact List.mem_cons_self _ _)
  rcases frontier sqrt hexact v startNode endNode st hinv rp endNode hchain hh hl with
    h | ⟨y, gy, ⟨pre, post, hopen, hpre⟩, hgy, hle⟩ | h
  · exact h
  · rw [gScore_of_some _ _ _ hge]
    have hFle : (nodeAt st.Nodes endNode).FScore ≤ (nodeAt st.Nodes y).FScore := by
      rw [ho] at hopen
      cases pre with
      | nil =>
        simp only [List.nil_append, List.cons.injEq] at hopen
        rw [hopen.1]
      | cons e pre =>
        simp only [List.cons_append, List.cons.injEq] at hopen
        apply hpre
        rw [hopen.1]
        exact List.mem_cons_self _ _
    rw [hinv.core.fscore endNode ge hge, hinv.core.fscore y gy hgy, h_eq_distance,
      h_eq_distance, distance_self sqrt hexact, distance_comm sqrt v.Nodes endNode y] at hFle
    linarith
  · rw [gScore_of_some _ _ _ hge]
    exact le_trans (le_of_lt (hinv.core.below endNode ge hge)) h

theorem chain_cost_le (sqrt : K → K) (nodes : List (NavNode K)) (gs : Nat → Option K) :
    ∀ (ns : List Nat) (a b : Nat),
      List.Chain' (fun p n => n ∈ (nodeAt nodes p).Neighbors ∧
        gScore gs p + distance sqrt nodes p n ≤ gScore gs n) ns →
      ns.head? = some a → ns.getLast? = some b →
      gScore gs a + pathCost sqrt nodes ns ≤ gScore gs b
  | [], _, _, _, hh, _ => by simp at hh
  | [s], a, b, _, hh, hl => by
    simp only [List.head?_cons, Option.some.injEq] at hh
    simp only [List.getLast?_singleton, Option.some.injEq] at hl
    rw [← hh, ← hl]
    simp [pathCost]
  | p :: n :: rest, a, b, hchain, hh, hl => by
    simp only [List.head?_cons, Option.some.injEq] at hh
    subst hh
    rw [List.getLast?_cons_cons] at hl
    obtain ⟨hpn, hchain'⟩ := List.chain'_cons.1 hchain
    have ih := chain_cost_le sqrt nodes gs (n :: rest) n b hchain' rfl hl
    show gScore gs p + (distance sqrt nodes p n + pathCost sqrt nodes (n :: rest)) ≤ _
    linarith [hpn.2]

theorem revCost_append_pair (sqrt : K → K) (nodes : List (NavNode K)) (a b : Nat) :
    ∀ l : List Nat, revCost sqrt nodes (l ++ [b, a]) =
      revCost sqrt nodes (l ++ [b]) + distance sqrt nodes a b
  | [] => by simp [revCost]
  | [x] => by
    show revCost sqrt nodes [b, a] + distance sqrt nodes b x =
      revCost sqrt nodes [b] + distance sqrt nodes b x + distance sqrt nodes a b
    simp only [revCost]
    ring
  | x :: y :: l => by
    show revCost sqrt nodes (y :: (l ++ [b, a])) + distance sqrt nodes y x =
      revCost sqrt nodes (y :: (l ++ [b])) + distance sqrt nodes y x + distance sqrt nodes a b
    have ih := revCost_append_pair sqrt nodes a b (y :: l)
    simp only [List.cons_append] at ih
    rw [ih]
    ring

theorem revCost_reverse (sqrt : K → K) (nodes : List (NavNode K)) :
    ∀ ns : List Nat, revCost sqrt nodes ns.reverse = pathCost sqrt nodes ns
  | [] => rfl
  | [_] => rfl
  | a :: b :: rest => by
    have ih := revCost_reverse sqrt nodes (b :: rest)
    rw [List.reverse_cons] at ih
    show _ = distance sqrt nodes a b + pathCost sqrt nodes (b :: rest)
    rw [← ih]
    simp only [List.reverse_cons, List.append_assoc, List.singleton_append]
    rw [revCost_append_pair]
    ring

theorem isRevPath_reverse (nodes : List (NavNode K)) (ns : List Nat) :
    IsRevPath nodes ns.reverse ↔ IsNeighborPath nodes ns := by
  unfold IsRevPath IsNeighborPath
  rw [List.chain'_reverse]
  rfl

/-- With positive edge lengths the walk along `cameFrom` ends within as many steps as
there are nodes. -/
theorem rebuildPath_terminates (sqrt : K → K) (v : ANavigationVolume3D K)
    (startNode endNode : Nat) (st : SearchState K)
    (hcore : OptCore sqrt v startNode endNode st)
    (hpos : ∀ p, ∀ n ∈ (nodeAt v.Nodes p).Neighbors, 0 < distance sqrt v.Nodes p n)
    (nodes : List (NavNode K)) :
    ∀ (k current : Nat),
      ((Finset.range v.Nodes.length).filter
        (fun x => gScore st.gScores x < gScore st.gScores current)).card ≤ k →
      ∀ acc : List (FVector K), ∃ r, rebuildPath v nodes st.cameFrom (k + 1) current acc =
        some r := by
  intro k
  induction k with
  | zero =>
    intro current hk acc
    unfold rebuildPath
    cases hc : st.cameFrom current with
    | none => exact ⟨acc, rfl⟩
    | some p =>
      exfalso
      obtain ⟨hm, hle⟩ := hcore.came current p hc
      have hlt : gScore st.gScores p < gScore st.gScores current := by
        have := hpos p current hm
        linarith
      have hmem : p ∈ (Finset.range v.Nodes.length).filter
          (fun x => gScore st.gScores x < gScore st.gScores current) := by
        rw [Finset.mem_filter, Finset.mem_range]
        exact ⟨mem_neighbors_lt v.Nodes p current hm, hlt⟩
      have := Finset.card_pos.2 ⟨p, hmem⟩
      omega
  | succ k ih =>
    intro current hk acc
    unfold rebuildPath
    cases hc : st.cameFrom current with
    | none => exact ⟨acc, rfl⟩
    | some p =>
      obtain ⟨hm, hle⟩ := hcore.came current p hc
      have hlt : gScore st.gScores p < gScore st.gScores current := by
        have := hpos p current hm
        linarith
      apply ih p
      have hss : (Finset.range v.Nodes.length).filter
          (fun x => gScore st.gScores x < gScore st.gScores p) ⊂
          (Finset.range v.Nodes.length).filter
            (fun x => gScore st.gScores x < gScore st.gScores current) := by
        rw [Finset.ssubset_iff_of_subset]
        · refine ⟨p, ?_, ?_⟩
          · rw [Finset.mem_filter, Finset.mem_range]
            exact ⟨mem_neighbors_lt v.Nodes p current hm, hlt⟩
          · rw [Finset.mem_filter]
            rintro ⟨_, h⟩
            exact lt_irrefl _ h
        · intro x hx
          rw [Finset.mem_filter] at hx ⊢
          exact ⟨hx.1, lt_trans hx.2 hlt⟩
      have := Finset.card_lt_card hss
      omega

theorem rebuildPath_fuel_mono_le (v : ANavigationVolume3D K) (nodes : List (NavNode K))
    (cameFrom : Nat → Option Nat) (fuel fuel' : Nat) (hle : fuel ≤ fuel') (current : Nat)
    (acc r : List (FVector K)) (h : rebuildPath v nodes cameFrom fuel current acc = some r) :
    rebuildPath v nodes cameFrom fuel' current acc = some r := by
  induction hle with
  | refl => exact h
  | step _ ih => exact rebuildPath_fuel_mono v nodes cameFrom _ _ _ _ ih

theorem rebuildPath_enough (sqrt : K → K) (v : ANavigationVolume3D K)
    (startNode endNode : Nat) (st : SearchState K)
    (hcore : OptCore sqrt v startNode endNode st)
    (hpos : ∀ p, ∀ n ∈ (nodeAt v.Nodes p).Neighbors, 0 < distance sqrt v.Nodes p n)
    (nodes : List (NavNode K)) (fuel : Nat) (hfuel : v.Nodes.length + 1 ≤ fuel)
    (current : Nat) (acc : List (FVector K)) :
    ∃ r, rebuildPath v nodes st.cameFrom fuel current acc = some r := by
  have hcard : ((Finset.range v.Nodes.length).filter
      (fun x => gScore st.gScores x < gScore st.gScores current)).card ≤ v.Nodes.length := by
    calc _ ≤ (Finset.range v.Nodes.length).card := Finset.card_filter_le _ _
      _ = v.Nodes.length := Finset.card_range _
  obtain ⟨r, hr⟩ := rebuildPath_terminates sqrt v startNode endNode st hcore hpos nodes
    v.Nodes.length current hcard acc
  exact ⟨r, rebuildPath_fuel_mono_le v nodes st.cameFrom _ _ hfuel _ _ _ hr⟩

end GoalLemmas

end Navigation3D

namespace Navigation3D

section OptRun

variable {K : Type} [LinearOrderedField K] [FloorRing K]

/-- On a graph without obstructions whose end node can be reached from the start node at a
cost below `FLT_MAX`, the loop returns `true` once the iteration bound suffices. -/
theorem searchLoop_opt_returns (sqrt : K → K)
    (hexact : ∀ x, 0 ≤ x → 0 ≤ sqrt x ∧ sqrt x * sqrt x = x)
    (B : FVector K → FVector K → Bool) (hB : ∀ p e, B p e = false)
    (v : ANavigationVolume3D K) (hwf : NeighborsInRange v.Nodes) (startNode endNode : Nat)
    (hs : startNode < v.Nodes.length)
    (hpos : ∀ p, ∀ n ∈ (nodeAt v.Nodes p).Neighbors, 0 < distance sqrt v.Nodes p n)
    (hreach : ∃ rp, IsRevPath v.Nodes rp ∧ rp.head? = some endNode ∧
      rp.getLast? = some startNode ∧ revCost sqrt v.Nodes rp < FLT_MAX) :
    ∀ (m : Nat) (st : SearchState K), OptInv sqrt v startNode endNode st →
      st.openSet.length + 2 * searchMeasure sqrt v.Nodes st.gScores ≤ m →
      ∃ path, searchLoop sqrt B v endNode [] (m + (v.Nodes.length + 2)) st =
        some (true, path) := by
  have hsq : ∀ x, 0 ≤ x → 0 ≤ sqrt x := fun x hx => (hexact x hx).1
  have hnonempty : ∀ st : SearchState K, OptInv sqrt v startNode endNode st →
      st.openSet ≠ [] := by
    intro st hinv ho
    obtain ⟨rp, hchain, hh, hl, hcost⟩ := hreach
    rcases frontier sqrt hexact v startNode endNode st hinv rp endNode hchain hh hl with
      h | ⟨y, gy, ⟨pre, post, hopen, _⟩, _, _⟩ | h
    · cases hg : st.gScores endNode with
      | none =>
        simp only [gScore, hg] at h
        linarith
      | some g =>
        have := hinv.core.goal ⟨g, hg⟩
        rw [ho] at this
        exact absurd this (List.not_mem_nil _)
    · rw [ho] at hopen
      simp at hopen
    · linarith
  intro m
  induction m with
  | zero =>
    intro st hinv hm
    exfalso
    apply hnonempty st hinv
    have : st.openSet.length = 0 := by omega
    exact List.length_eq_zero.1 this
  | succ m ih =>
    intro st hinv hm
    cases ho : st.openSet with
    | nil => exact absurd ho (hnonempty st hinv)
    | cons current rest =>
      by_cases hce : current = endNode
      · have hfuel : m + 1 + (v.Nodes.length + 2) = (m + 1 + v.Nodes.length + 1) + 1 := by omega
        rw [hfuel]
        unfold searchLoop
        rw [ho]
        simp only [if_pos hce]
        obtain ⟨r, hr⟩ := rebuildPath_enough sqrt v startNode endNode st hinv.core hpos st.Nodes
          (m + 1 + v.Nodes.length + 1) (by omega) current
          ([] ++ [ConvertCoordinatesToLocation v (nodeAt st.Nodes current).Coordinates])
        exact ⟨r, by rw [hr]; rfl⟩
      · have hfuel : m + 1 + (v.Nodes.length + 2) = (m + (v.Nodes.length + 2)) + 1 := by omega
        rw [hfuel, searchLoop_cons_ne _ _ _ _ _ _ _ _ _ ho hce]
        have hlt := (expandNode_term sqrt hsq B v hwf startNode endNode hs st current rest
          hinv.core.term ho).2
        exact ih _ (expandNode_opt sqrt hsq B hB v hwf startNode endNode hs st current rest
          hinv ho hce) (by omega)

/-- On a graph without obstructions, a path returned with `true` costs no more than any
neighbour path from the start node to the end node. -/
theorem searchLoop_true_optimal (sqrt : K → K)
    (hexact : ∀ x, 0 ≤ x → 0 ≤ sqrt x ∧ sqrt x * sqrt x = x)
    (B : FVector K → FVector K → Bool) (hB : ∀ p e, B p e = false)
    (v : ANavigationVolume3D K) (hwf : NeighborsInRange v.Nodes) (startNode endNode : Nat)
    (hs : startNode < v.Nodes.length) :
    ∀ (fuel : Nat) (st : SearchState K) (path : List (FVector K)),
      SearchInv B v startNode st → OptInv sqrt v startNode endNode st →
      searchLoop sqrt B v endNode [] fuel st = some (true, path) →
      ∃ ns : List Nat, path = ns.map (nodeLocation v) ∧
        ns.head? = some startNode ∧ ns.getLast? = some endNode ∧
        IsNeighborPath v.Nodes ns ∧
        ∀ ns' : List Nat, IsNeighborPath v.Nodes ns' → ns'.head? = some startNode →
          ns'.getLast? = some endNode →
          pathCost sqrt v.Nodes ns ≤ pathCost sqrt v.Nodes ns' := by
  have hsq : ∀ x, 0 ≤ x → 0 ≤ sqrt x := fun x hx => (hexact x hx).1
  intro fuel
  induction fuel with
  | zero => intro st path _ _ h; simp [searchLoop] at h
  | succ fuel ih =>
    intro st path hinv hopt h
    cases ho : st.openSet with
    | nil => rw [searchLoop_nil _ _ _ _ _ _ _ ho] at h; simp at h
    | cons current rest =>
      have hcur : Reached startNode st.cameFrom current :=
        hinv.opened current (by rw [ho]; exact List.mem_cons_self _ _)
      by_cases hce : current = endNode
      · unfold searchLoop at h
        rw [ho] at h
        simp only [if_pos hce, Option.map_eq_some', Prod.mk.injEq, true_and,
          exists_eq_right] at h
        subst hce
        obtain ⟨pre, first, hpath, hhead, hfirst, hPf, hchain, _⟩ :=
          rebuildPath_spec v st.Nodes st.cameFrom (Reached startNode st.cameFrom)
            (fun p n => n ∈ (nodeAt v.Nodes p).Neighbors ∧
              gScore st.gScores p + distance sqrt v.Nodes p n ≤ gScore st.gScores n)
            (fun n p hnp => ⟨hopt.core.came n p hnp, (hinv.came n p hnp).2.1⟩)
            fuel current _ path hcur h
        have hfs : first = startNode := by
          rcases hPf with h | ⟨p, hp⟩
          · exact h
          · rw [hfirst] at hp; cases hp
        have hlast : (pre ++ [current]).getLast? = some current := List.getLast?_concat _
        refine ⟨pre ++ [current], ?_, ?_, hlast, hchain.imp (fun _ _ hab => hab.1), ?_⟩
        · rw [hpath]
          have hloc : ∀ n, ConvertCoordinatesToLocation v (nodeAt st.Nodes n).Coordinates =
              nodeLocation v n := fun n => by
            unfold nodeLocation; rw [(hinv.graph n).1]
          simp [hloc]
        · rw [hhead, hfs]
        · intro ns' hchain' hh' hl'
          have h1 := chain_cost_le sqrt v.Nodes st.gScores (pre ++ [current]) startNode current
            hchain (by rw [hhead, hfs]) hlast
          have h2 := gScore_nonneg sqrt hsq v startNode st hopt.core.term startNode
          have h3 := goal_gScore_le sqrt hexact v startNode current st hopt rest ho ns'.reverse
            ((isRevPath_reverse v.Nodes ns').2 hchain')
            (by rw [List.head?_reverse]; exact hl')
            (by rw [List.getLast?_reverse]; exact hh')
          rw [revCost_reverse] at h3
          linarith
      · rw [searchLoop_cons_ne _ _ _ _ _ _ _ _ _ ho hce] at h
        apply ih _ path _ _ h
        · have hinv' : SearchInv B v startNode { st with openSet := rest } :=
            ⟨hinv.graph, hinv.came, fun n hn => hinv.opened n (by
              rw [ho]; exact List.mem_cons_of_mem _ hn)⟩
          apply foldl_relaxNeighbor_inv sqrt B v startNode endNode current _ _ hinv' hcur
          intro n hn
          rw [(hinv.graph current).2] at hn
          exact hn
        · exact expandNode_opt sqrt hsq B hB v hwf startNode endNode hs st current rest
            hopt ho hce

end OptRun

end Navigation3D

namespace Navigation3D

section BuiltMetric

variable {K : Type} [LinearOrderedField K] [FloorRing K]

theorem DistSquared_ofIntVector (a b : FIntVector) :
    FVector.DistSquared (FVector.ofIntVector a : FVector K) (FVector.ofIntVector b) =
      (((b.X - a.X) ^ 2 + (b.Y - a.Y) ^ 2 + (b.Z - a.Z) ^ 2 : Int) : K) := by
  unfold FVector.DistSquared FVector.ofIntVector
  push_cast
  ring

theorem BeginPlay_distance (sqrt : K → K) (cfg : ANavigationVolume3D K) (a b : FIntVector)
    (ha : AreCoordinatesValid cfg a = true) (hb : AreCoordinatesValid cfg b = true) :
    distance sqrt (BeginPlay cfg).Nodes (GetNode cfg a) (GetNode cfg b) =
      sqrt (((b.X - a.X) ^ 2 + (b.Y - a.Y) ^ 2 + (b.Z - a.Z) ^ 2 : Int) : K) := by
  unfold distance FVector.Distance
  rw [BeginPlay_nodeAt cfg a ha, BeginPlay_nodeAt cfg b hb, DistSquared_ofIntVector]

theorem BeginPlay_edge_pos (sqrt : K → K)
    (hexact : ∀ x, 0 ≤ x → 0 ≤ sqrt x ∧ sqrt x * sqrt x = x) (cfg : ANavigationVolume3D K)
    (hx : 1 ≤ cfg.DivisionsX) (hy : 1 ≤ cfg.DivisionsY) :
    ∀ p, ∀ n ∈ (nodeAt (BeginPlay cfg).Nodes p).Neighbors,
      0 < distance sqrt (BeginPlay cfg).Nodes p n := by
  intro p n hn
  have hp : p < (GetTotalDivisions cfg).toNat := by
    rw [← BeginPlay_length]
    exact mem_neighbors_lt _ p n hn
  obtain ⟨a, ha, rfl⟩ := exists_cell_of_lt cfg hx hy p hp
  rw [BeginPlay_nodeAt cfg a ha] at hn
  obtain ⟨b, _, hb, hne, _, rfl⟩ := (mem_cellNeighbors cfg a n).1 hn
  rw [BeginPlay_distance sqrt cfg a b ha hb]
  apply exactSqrt_pos sqrt hexact
  have hdiff : b.X - a.X ≠ 0 ∨ b.Y - a.Y ≠ 0 ∨ b.Z - a.Z ≠ 0 := by
    by_contra hcon
    push_neg at hcon
    apply hne
    ext <;> omega
  have hpos : (0 : Int) < (b.X - a.X) ^ 2 + (b.Y - a.Y) ^ 2 + (b.Z - a.Z) ^ 2 := by
    rcases hdiff with h | h | h
    · have := sq_pos_of_ne_zero h
      nlinarith [sq_nonneg (b.Y - a.Y), sq_nonneg (b.Z - a.Z)]
    · have := sq_pos_of_ne_zero h
      nlinarith [sq_nonneg (b.X - a.X), sq_nonneg (b.Z - a.Z)]
    · have := sq_pos_of_ne_zero h
      nlinarith [sq_nonneg (b.X - a.X), sq_nonneg (b.Y - a.Y)]
  exact_mod_cast hpos

/-- From a valid cell other than `a` there is a face-adjacent valid cell one step nearer
to `a`. -/
theorem exists_step (cfg : ANavigationVolume3D K) (a b : FIntVector)
    (ha : AreCoordinatesValid cfg a = true) (hb : AreCoordinatesValid cfg b = true)
    (hne : b ≠ a) :
    ∃ b', AreCoordinatesValid cfg b' = true ∧
      ((-1 ≤ b.X - b'.X ∧ b.X - b'.X ≤ 1) ∧ (-1 ≤ b.Y - b'.Y ∧ b.Y - b'.Y ≤ 1) ∧
        (-1 ≤ b.Z - b'.Z ∧ b.Z - b'.Z ≤ 1)) ∧
      b' ≠ b ∧ sharedAxesCount b' b = 2 ∧
      (b.X - b'.X) ^ 2 + (b.Y - b'.Y) ^ 2 + (b.Z - b'.Z) ^ 2 = 1 ∧
      (b'.X - a.X).natAbs + (b'.Y - a.Y).natAbs + (b'.Z - a.Z).natAbs + 1 =
        (b.X - a.X).natAbs + (b.Y - a.Y).natAbs + (b.Z - a.Z).natAbs := by
  rw [AreCoordinatesValid_iff] at ha hb
  have hdiff : b.X < a.X ∨ a.X < b.X ∨ b.Y < a.Y ∨ a.Y < b.Y ∨ b.Z < a.Z ∨ a.Z < b.Z := by
    by_contra hcon
    push_neg at hcon
    apply hne
    ext <;> omega
  rcases hdiff with h | h | h | h | h | h
  · refine ⟨⟨b.X + 1, b.Y, b.Z⟩, ?_, ?_, ?_, ?_, ?_, ?_⟩
    · rw [AreCoordinatesValid_iff]; simp only; omega
    · simp only; omega
    · intro hc; have := congrArg FIntVector.X hc; simp only at this; omega
    · simp [sharedAxesCount]
    · simp only; ring
    · simp only; omega
  · refine ⟨⟨b.X - 1, b.Y, b.Z⟩, ?_, ?_, ?_, ?_, ?_, ?_⟩
    · rw [AreCoordinatesValid_iff]; simp only; omega
    · simp only; omega
    · intro hc; have := congrArg FIntVector.X hc; simp only at this; omega
    · simp [sharedAxesCount]
    · simp only; ring
    · simp only; omega
  · refine ⟨⟨b.X, b.Y + 1, b.Z⟩, ?_, ?_, ?_, ?_, ?_, ?_⟩
    · rw [AreCoordinatesValid_iff]; simp only; omega
    · simp only; omega
    · intro hc; have := congrArg FIntVector.Y hc; simp only at this; omega
    · simp [sharedAxesCount]
    · simp only; ring
    · simp only; omega
  · refine ⟨⟨b.X, b.Y - 1, b.Z⟩, ?_, ?_, ?_, ?_, ?_, ?_⟩
    · rw [AreCoordinatesValid_iff]; simp only; omega
    · simp only; omega
    · intro hc; have := congrArg FIntVector.Y hc; simp only at this; omega
    · simp [sharedAxesCount]
    · simp only; ring
    · simp only; omega
  · refine ⟨⟨b.X, b.Y, b.Z + 1⟩, ?_, ?_, ?_, ?_, ?_, ?_⟩
    · rw [AreCoordinatesValid_iff]; simp only; omega
    · simp only; omega
    · intro hc; have := congrArg FIntVector.Z hc; simp only at this; omega
    · simp [sharedAxesCount]
    · simp only; ring
    · simp only; omega
  · refine ⟨⟨b.X, b.Y, b.Z - 1⟩, ?_, ?_, ?_, ?_, ?_, ?_⟩
    · rw [AreCoordinatesValid_iff]; simp only; omega
    · simp only; omega
    · intro hc; have := congrArg FIntVector.Z hc; simp only at this; omega
    · simp [sharedAxesCount]
    · simp only; ring
    · simp only; omega

/-- On the built graph with `MinSharedNeighborAxes` at most 2 every cell is reached from
every other along face-adjacent steps, at a cost of at most the number of steps. -/
theorem exists_manhattan_path (sqrt : K → K)
    (hexact : ∀ x, 0 ≤ x → 0 ≤ sqrt x ∧ sqrt x * sqrt x = x) (cfg : ANavigationVolume3D K)
    (hmin : cfg.MinSharedNeighborAxes ≤ 2) (a : FIntVector)
    (ha : AreCoordinatesValid cfg a = true) :
    ∀ (d : Nat) (b : FIntVector), AreCoordinatesValid cfg b = true →
      (b.X - a.X).natAbs + (b.Y - a.Y).natAbs + (b.Z - a.Z).natAbs = d →
      ∃ rp, IsRevPath (BeginPlay cfg).Nodes rp ∧ rp.head? = some (GetNode cfg b) ∧
        rp.getLast? = some (GetNode cfg a) ∧
        revCost sqrt (BeginPlay cfg).Nodes rp ≤ (d : K) := by
  intro d
  induction d with
  | zero =>
    intro b hb hd
    have hba : b = a := by ext <;> omega
    subst hba
    exact ⟨[GetNode cfg b], List.chain'_singleton _, rfl, rfl, by simp [revCost]⟩
  | succ d ih =>
    intro b hb hd
    have hne : b ≠ a := by
      rintro rfl
      simp at hd
    obtain ⟨b', hb', hoff, hne', hshared, hsq1, hstep⟩ := exists_step cfg a b ha hb hne
    obtain ⟨rp, hchain, hh, hl, hcost⟩ := ih b' hb' (by omega)
    obtain ⟨rest, hrp⟩ : ∃ rest, rp = GetNode cfg b' :: rest := by
      cases rp with
      | nil => simp at hh
      | cons x rest =>
        simp only [List.head?_cons, Option.some.injEq] at hh
        exact ⟨rest, by rw [hh]⟩
    subst hrp
    have hedge : GetNode cfg b ∈ (nodeAt (BeginPlay cfg).Nodes (GetNode cfg b')).Neighbors := by
      rw [BeginPlay_nodeAt cfg b' hb']
      exact (mem_cellNeighbors cfg b' _).2 ⟨b, hoff, hb, hne', by rw [hshared]; exact hmin, rfl⟩
    refine ⟨GetNode cfg b :: GetNode cfg b' :: rest, List.Chain'.cons hedge hchain, rfl, ?_, ?_⟩
    · rw [List.getLast?_cons_cons]; exact hl
    · show revCost sqrt (BeginPlay cfg).Nodes (GetNode cfg b' :: rest) +
        distance sqrt (BeginPlay cfg).Nodes (GetNode cfg b') (GetNode cfg b) ≤ _
      rw [BeginPlay_distance sqrt cfg b' b hb' hb, hsq1]
      push_cast
      rw [exactSqrt_one sqrt hexact]
      linarith

end BuiltMetric

end Navigation3D

namespace Navigation3D

section OptClaims

variable {K : Type} [LinearOrderedField K] [FloorRing K]

theorem ConvertLocationToCoordinates_valid (v : ANavigationVolume3D K) (hx : 1 ≤ v.DivisionsX)
    (hy : 1 ≤ v.DivisionsY) (hz : 1 ≤ v.DivisionsZ) (location : FVector K) :
    AreCoordinatesValid v (ConvertLocationToCoordinates v location) = true :=
  ClampCoordinates_valid v hx hy hz _

end OptClaims

end Navigation3D

namespace Navigation3D

/-! ## The shape of the built graph: indices, symmetry and neighbour counts -/

section GraphClaims

variable {K : Type} [LinearOrderedField K] [FloorRing K]

theorem sharedAxesCount_offset (a d : FIntVector) :
    sharedAxesCount a (a.offset d) = sharedAxesCount ⟨0, 0, 0⟩ d := by
  unfold sharedAxesCount FIntVector.offset
  have e1 : (a.X = a.X + d.X) = ((0 : Int) = d.X) := by
    apply propext; constructor <;> intro h <;> omega
  have e2 : (a.Y = a.Y + d.Y) = ((0 : Int) = d.Y) := by
    apply propext; constructor <;> intro h <;> omega
  have e3 : (a.Z = a.Z + d.Z) = ((0 : Int) = d.Z) := by
    apply propext; constructor <;> intro h <;> omega
  simp only [e1, e2, e3]

/-- The number of neighbours of a cell is the number of offsets whose target passes the
test of `addNeighborIfValid`. -/
theorem length_cellNeighbors (v : ANavigationVolume3D K) (a : FIntVector) :
    (cellNeighbors v a).length =
      (neighborOffsets.filter (fun d => AreCoordinatesValid v (a.offset d) &&
        decide (sharedAxesCount ⟨0, 0, 0⟩ d ≥ v.MinSharedNeighborAxes ∧
          sharedAxesCount ⟨0, 0, 0⟩ d < 3))).length := by
  unfold cellNeighbors
  rw [List.length_map, List.filter_map, List.length_map]
  congr 1
  apply List.filter_congr
  intro d _
  simp only [Function.comp, neighborAccepted, sharedAxesCount_offset]

/-- The number of offsets that agree with the zero offset on at least `m` axes. -/
theorem length_offsets_shared (m : Int) (hm : m = 0 ∨ m = 1 ∨ m = 2) :
    (neighborOffsets.filter (fun d => decide (sharedAxesCount ⟨0, 0, 0⟩ d ≥ m ∧
      sharedAxesCount ⟨0, 0, 0⟩ d < 3))).length =
      if m = 0 then 26 else if m = 1 then 18 else 6 := by
  rcases hm with rfl | rfl | rfl <;> decide

theorem length_cellNeighbors_interior (v : ANavigationVolume3D K) (a : FIntVector)
    (hm : v.MinSharedNeighborAxes = 0 ∨ v.MinSharedNeighborAxes = 1 ∨
      v.MinSharedNeighborAxes = 2)
    (hX : 0 < a.X ∧ a.X < v.DivisionsX - 1) (hY : 0 < a.Y ∧ a.Y < v.DivisionsY - 1)
    (hZ : 0 < a.Z ∧ a.Z < v.DivisionsZ - 1) :
    (cellNeighbors v a).length =
      if v.MinSharedNeighborAxes = 0 then 26 else
        if v.MinSharedNeighborAxes = 1 then 18 else 6 := by
  rw [length_cellNeighbors, ← length_offsets_shared _ hm]
  congr 1
  apply List.filter_congr
  intro d hd
  have hv : AreCoordinatesValid v (a.offset d) = true := by
    rw [AreCoordinatesValid_iff]
    obtain ⟨h1, h2, h3, _⟩ := (mem_neighborOffsets d).1 hd
    simp only [FIntVector.offset]
    omega
  rw [hv, Bool.true_and]

theorem length_cellNeighbors_boundary (v : ANavigationVolume3D K) (a : FIntVector)
    (hm : v.MinSharedNeighborAxes = 0 ∨ v.MinSharedNeighborAxes = 1 ∨
      v.MinSharedNeighborAxes = 2)
    (hb : a.X = 0 ∨ a.X = v.DivisionsX - 1 ∨ a.Y = 0 ∨ a.Y = v.DivisionsY - 1 ∨
      a.Z = 0 ∨ a.Z = v.DivisionsZ - 1) :
    (cellNeighbors v a).length <
      if v.MinSharedNeighborAxes = 0 then 26 else
        if v.MinSharedNeighborAxes = 1 then 18 else 6 := by
  rw [length_cellNeighbors, ← length_offsets_shared _ hm, ← List.filter_filter]
  rw [List.length_filter_lt_length_iff_exists]
  have key : ∃ d ∈ neighborOffsets, sharedAxesCount ⟨0, 0, 0⟩ d = 2 ∧
      AreCoordinatesValid v (a.offset d) = false := by
    rcases hb with h | h | h | h | h | h
    · refine ⟨⟨-1, 0, 0⟩, by decide, by decide, ?_⟩
      rw [← Bool.not_eq_true, AreCoordinatesValid_iff]
      simp only [FIntVector.offset]; omega
    · refine ⟨⟨1, 0, 0⟩, by decide, by decide, ?_⟩
      rw [← Bool.not_eq_true, AreCoordinatesValid_iff]
      simp only [FIntVector.offset]; omega
    · refine ⟨⟨0, -1, 0⟩, by decide, by decide, ?_⟩
      rw [← Bool.not_eq_true, AreCoordinatesValid_iff]
      simp only [FIntVector.offset]; omega
    · refine ⟨⟨0, 1, 0⟩, by decide, by decide, ?_⟩
      rw [← Bool.not_eq_true, AreCoordinatesValid_iff]
      simp only [FIntVector.offset]; omega
    · refine ⟨⟨0, 0, -1⟩, by decide, by decide, ?_⟩
      rw [← Bool.not_eq_true, AreCoordinatesValid_iff]
      simp only [FIntVector.offset]; omega
    · refine ⟨⟨0, 0, 1⟩, by decide, by decide, ?_⟩
      rw [← Bool.not_eq_true, AreCoordinatesValid_iff]
      simp only [FIntVector.offset]; omega
  obtain ⟨d, hd, hs, hv⟩ := key
  refine ⟨d, ?_, by rw [hv]; simp⟩
  rw [List.mem_filter]
  refine ⟨hd, ?_⟩
  rw [hs]
  simp only [decide_eq_true_eq]
  omega

/-- C11: After `BeginPlay`, with `MinSharedNeighborAxes` one of 0, 1, 2, a node all of
whose coordinates lie strictly between 0 and the last index of their axis (such nodes exist
exactly when every axis has at least three divisions) has 26, 18 or 6 neighbours
respectively, and a node of the grid with a coordinate equal to 0 or to the last index of
its axis has strictly fewer than that. -/
theorem C11_neighbor_counts (v : ANavigationVolume3D K) (a : FIntVector)
    (ha : AreCoordinatesValid v a = true)
    (hm : v.MinSharedNeighborAxes = 0 ∨ v.MinSharedNeighborAxes = 1 ∨
      v.MinSharedNeighborAxes = 2) :
    (((0 < a.X ∧ a.X < v.DivisionsX - 1) ∧ (0 < a.Y ∧ a.Y < v.DivisionsY - 1) ∧
        (0 < a.Z ∧ a.Z < v.DivisionsZ - 1)) →
      (3 ≤ v.DivisionsX ∧ 3 ≤ v.DivisionsY ∧ 3 ≤ v.DivisionsZ) ∧
      (nodeAt (BeginPlay v).Nodes (GetNode v a)).Neighbors.length =
        if v.MinSharedNeighborAxes = 0 then 26 else
          if v.MinSharedNeighborAxes = 1 then 18 else 6) ∧
    ((a.X = 0 ∨ a.X = v.DivisionsX - 1 ∨ a.Y = 0 ∨ a.Y = v.DivisionsY - 1 ∨
        a.Z = 0 ∨ a.Z = v.DivisionsZ - 1) →
      (nodeAt (BeginPlay v).Nodes (GetNode v a)).Neighbors.length <
        if v.MinSharedNeighborAxes = 0 then 26 else
          if v.MinSharedNeighborAxes = 1 then 18 else 6) := by
  rw [BeginPlay_nodeAt v a ha]
  simp only
  refine ⟨fun h => ⟨by omega, length_cellNeighbors_interior v a hm h.1 h.2.1 h.2.2⟩,
    fun h => length_cellNeighbors_boundary v a hm h⟩

theorem C11_neighbor_counts_witness :
    (((0 < (1 : Int) ∧ (1 : Int) < sampleVolume.DivisionsX - 1) ∧
        (0 < (1 : Int) ∧ (1 : Int) < sampleVolume.DivisionsY - 1) ∧
        (0 < (1 : Int) ∧ (1 : Int) < sampleVolume.DivisionsZ - 1)) →
      (3 ≤ sampleVolume.DivisionsX ∧ 3 ≤ sampleVolume.DivisionsY ∧
        3 ≤ sampleVolume.DivisionsZ) ∧
      (nodeAt (BeginPlay sampleVolume).Nodes
          (GetNode sampleVolume ⟨1, 1, 1⟩)).Neighbors.length =
        if sampleVolume.MinSharedNeighborAxes = 0 then 26 else
          if sampleVolume.MinSharedNeighborAxes = 1 then 18 else 6) ∧
    (((1 : Int) = 0 ∨ (1 : Int) = sampleVolume.DivisionsX - 1 ∨ (1 : Int) = 0 ∨
        (1 : Int) = sampleVolume.DivisionsY - 1 ∨
        (1 : Int) = 0 ∨ (1 : Int) = sampleVolume.DivisionsZ - 1) →
      (nodeAt (BeginPlay sampleVolume).Nodes
          (GetNode sampleVolume ⟨1, 1, 1⟩)).Neighbors.length <
        if sampleVolume.MinSharedNeighborAxes = 0 then 26 else
          if sampleVolume.MinSharedNeighborAxes = 1 then 18 else 6) :=
  C11_neighbor_counts sampleVolume ⟨1, 1, 1⟩ (by decide) (by decide)

/-- C12: After `BeginPlay` on a configuration with at least one division along X and
along Y, so in particular on every configuration with at least one division per axis, the
neighbour relation is symmetric: a node is in the neighbour list of another exactly when
the other is in its own. -/
theorem C12_adjacency_symmetric (v : ANavigationVolume3D K) (hx : 1 ≤ v.DivisionsX)
    (hy : 1 ≤ v.DivisionsY) (A B : Nat) :
    B ∈ (nodeAt (BeginPlay v).Nodes A).Neighbors ↔
      A ∈ (nodeAt (BeginPlay v).Nodes B).Neighbors :=
  ⟨BeginPlay_neighbors_symm v hx hy A B, BeginPlay_neighbors_symm v hx hy B A⟩

theorem C12_adjacency_symmetric_witness :
    5 ∈ (nodeAt (BeginPlay sampleVolume).Nodes 1).Neighbors ↔
      1 ∈ (nodeAt (BeginPlay sampleVolume).Nodes 5).Neighbors :=
  C12_adjacency_symmetric sampleVolume (by decide) (by decide) 1 5

end GraphClaims

end Navigation3D

namespace Navigation3D

/-! ## Configurations outside the documented ranges -/

section Validation

variable {K : Type} [LinearOrderedField K] [FloorRing K]

end Validation

/-! ## Same-cell queries and admissibility of the heuristic -/

section SameCell

variable {K : Type} [LinearOrderedField K] [FloorRing K]

theorem searchLoop_same_cell (sqrt : K → K) (B : FVector K → FVector K → Bool)
    (v : ANavigationVolume3D K) (s : Nat) (fuel : Nat) (hfuel : 2 ≤ fuel) :
    searchLoop sqrt B v s [] fuel (FindPath_init sqrt v s s) =
      some (true, [ConvertCoordinatesToLocation v (nodeAt v.Nodes s).Coordinates]) := by
  obtain ⟨k, rfl⟩ : ∃ k, fuel = k + 1 + 1 := ⟨fuel - 2, by omega⟩
  have hc : (nodeAt (setFScore v.Nodes s (h sqrt v.Nodes s s)) s).Coordinates =
      (nodeAt v.Nodes s).Coordinates := (((SameGraph.refl v.Nodes).setFScore s _) s).1
  simp only [searchLoop, FindPath_init, multisetInsert, if_true, rebuildPath, List.nil_append,
    Option.map_some', hc]

/-- C16: On the graph built by `BeginPlay` for a configuration with at least one
division per axis, with any square root and any overlap query (one that reports every
cell obstructed included), if the start and the destination location convert to the same
cell then `FindPath`, given an iteration bound of at least 2, returns `true` and `out_path`
is the one-element list holding `ConvertCoordinatesToLocation` of that cell. -/
theorem C16_same_cell (sqrt : K → K) (BoxOverlapActors : FVector K → FVector K → Bool)
    (cfg : ANavigationVolume3D K) (hx : 1 ≤ cfg.DivisionsX) (hy : 1 ≤ cfg.DivisionsY)
    (hz : 1 ≤ cfg.DivisionsZ) (start destination : FVector K) (out_path : List (FVector K))
    (hsame : ConvertLocationToCoordinates (BeginPlay cfg) start =
      ConvertLocationToCoordinates (BeginPlay cfg) destination)
    (fuel : Nat) (hfuel : 2 ≤ fuel) :
    FindPath sqrt BoxOverlapActors fuel (BeginPlay cfg) start destination out_path =
      some (true, [ConvertCoordinatesToLocation (BeginPlay cfg)
        (ConvertLocationToCoordinates (BeginPlay cfg) start)]) := by
  unfold FindPath
  simp only [TArray.Empty]
  rw [← hsame, searchLoop_same_cell sqrt BoxOverlapActors _ _ fuel hfuel]
  have hv : AreCoordinatesValid cfg (ConvertLocationToCoordinates (BeginPlay cfg) start) =
      true := ConvertLocationToCoordinates_valid (BeginPlay cfg) hx hy hz start
  rw [BeginPlay_GetNode, BeginPlay_nodeAt cfg _ hv]

theorem C16_same_cell_witness :
    ConvertLocationToCoordinates (BeginPlay lineConfig) ⟨20, 50, 50⟩ =
      ConvertLocationToCoordinates (BeginPlay lineConfig) ⟨80, 10, 90⟩ ∧
    FindPath ratSqrt (fun _ _ => true) 2 (BeginPlay lineConfig) ⟨20, 50, 50⟩ ⟨80, 10, 90⟩
        [⟨7, 7, 7⟩] =
      some (true, [ConvertCoordinatesToLocation (BeginPlay lineConfig)
        (ConvertLocationToCoordinates (BeginPlay lineConfig) ⟨20, 50, 50⟩)]) ∧
    ConvertCoordinatesToLocation (BeginPlay lineConfig)
        (ConvertLocationToCoordinates (BeginPlay lineConfig) ⟨20, 50, 50⟩) = ⟨50, 50, 50⟩ := by
  have hsame : ConvertLocationToCoordinates (BeginPlay lineConfig) ⟨20, 50, 50⟩ =
      ConvertLocationToCoordinates (BeginPlay lineConfig) ⟨80, 10, 90⟩ := by
    norm_num [ConvertLocationToCoordinates, ConvertLocationToCoordinates_unclamped,
      ClampCoordinates, FMath.Clamp, FloatToInt, BeginPlay, lineConfig, GetGridSizeX,
      GetGridSizeY, GetGridSizeZ]
  refine ⟨hsame, C16_same_cell ratSqrt (fun _ _ => true) lineConfig (by decide) (by decide)
    (by decide) ⟨20, 50, 50⟩ ⟨80, 10, 90⟩ [⟨7, 7, 7⟩] hsame 2 (le_refl _), ?_⟩
  norm_num [ConvertLocationToCoordinates, ConvertLocationToCoordinates_unclamped,
    ClampCoordinates, FMath.Clamp, FloatToInt, BeginPlay, lineConfig, GetGridSizeX,
    GetGridSizeY, GetGridSizeZ, ConvertCoordinatesToLocation,
    ConvertCoordinatesToLocation_gridSpaceLocation]

end SameCell

section Admissible

variable {K : Type} [LinearOrderedField K] [FloorRing K]

theorem h_le_pathCost (sqrt : K → K)
    (hexact : ∀ x, 0 ≤ x → 0 ≤ sqrt x ∧ sqrt x * sqrt x = x) (nodes : List (NavNode K))
    (goal : Nat) :
    ∀ (ns : List Nat) (n : Nat), ns.head? = some n → ns.getLast? = some goal →
      h sqrt nodes goal n ≤ pathCost sqrt nodes ns
  | [], _, hh, _ => by simp at hh
  | [a], n, hh, hl => by
    simp only [List.head?_cons, Option.some.injEq] at hh
    simp only [List.getLast?_singleton, Option.some.injEq] at hl
    subst hh; subst hl
    rw [h_eq_distance, distance_self sqrt hexact]
    exact le_refl _
  | a :: b :: rest, n, hh, hl => by
    simp only [List.head?_cons, Option.some.injEq] at hh
    subst hh
    have ih := h_le_pathCost sqrt hexact nodes goal (b :: rest) b rfl
      (by rw [List.getLast?_cons_cons] at hl; exact hl)
    show h sqrt nodes goal a ≤ distance sqrt nodes a b + pathCost sqrt nodes (b :: rest)
    rw [h_eq_distance] at ih ⊢
    have ht := distance_triangle sqrt hexact nodes a b goal
    rw [distance_comm sqrt nodes goal a, distance_comm sqrt nodes goal b] at *
    linarith

/-- C17: With an exact square root, on the graph built by `BeginPlay`, for every goal
node and every node sequence that leads from a node `n` to the goal along neighbour lists,
the heuristic `h(n)`, the Euclidean distance between the coordinates of `n` and of the
goal, is at most the sum of the Euclidean costs of the edges of the sequence; so it is a
lower bound of the cost of every path to the goal and in particular of the least one. (The
proof does not use that the sequence follows neighbour lists.) -/
theorem C17_heuristic_admissible (sqrt : K → K)
    (hexact : ∀ x, 0 ≤ x → 0 ≤ sqrt x ∧ sqrt x * sqrt x = x)
    (cfg : ANavigationVolume3D K) (goal n : Nat) (ns : List Nat)
    (hhead : ns.head? = some n) (hlast : ns.getLast? = some goal)
    (_hpath : IsNeighborPath (BeginPlay cfg).Nodes ns) :
    h sqrt (BeginPlay cfg).Nodes goal n ≤ pathCost sqrt (BeginPlay cfg).Nodes ns :=
  h_le_pathCost sqrt hexact _ goal ns n hhead hlast

theorem cube_diagonal_path : IsNeighborPath (BeginPlay cubeConfig).Nodes [0, 13, 26] := by
  unfold IsNeighborPath
  refine List.Chain'.cons ?_ (List.Chain'.cons ?_ (List.chain'_singleton _))
  · show 13 ∈ (nodeAt (BeginPlay cubeConfig).Nodes 0).Neighbors
    have e : GetNode cubeConfig ⟨0, 0, 0⟩ = 0 := by decide
    rw [← e, BeginPlay_nodeAt cubeConfig ⟨0, 0, 0⟩ (by decide)]
    exact (mem_cellNeighbors cubeConfig _ 13).2
      ⟨⟨1, 1, 1⟩, by decide, by decide, by decide, by decide, by decide⟩
  · show 26 ∈ (nodeAt (BeginPlay cubeConfig).Nodes 13).Neighbors
    have e : GetNode cubeConfig ⟨1, 1, 1⟩ = 13 := by decide
    rw [← e, BeginPlay_nodeAt cubeConfig ⟨1, 1, 1⟩ (by decide)]
    exact (mem_cellNeighbors cubeConfig _ 26).2
      ⟨⟨2, 2, 2⟩, by decide, by decide, by decide, by decide, by decide⟩

theorem C17_heuristic_admissible_witness :
    (∀ x : ℝ, 0 ≤ x → 0 ≤ Real.sqrt x ∧ Real.sqrt x * Real.sqrt x = x) ∧
    IsNeighborPath (BeginPlay cubeConfig).Nodes [0, 13, 26] ∧
    h Real.sqrt (BeginPlay cubeConfig).Nodes 26 0 ≤
      pathCost Real.sqrt (BeginPlay cubeConfig).Nodes [0, 13, 26] :=
  ⟨fun x hx => ⟨Real.sqrt_nonneg x, Real.mul_self_sqrt hx⟩, cube_diagonal_path,
    C17_heuristic_admissible Real.sqrt
      (fun x hx => ⟨Real.sqrt_nonneg x, Real.mul_self_sqrt hx⟩) cubeConfig 26 0 [0, 13, 26]
      rfl rfl cube_diagonal_path⟩

end Admissible

end Navigation3D

namespace Navigation3D

/-! ## The diagonal of the 3 x 3 x 3 grid -/

section Diagonal

variable {K : Type} [LinearOrderedField K] [FloorRing K]

/-- On an unobstructed built grid `FindPath` returns a cheapest neighbour path, in exact
arithmetic and with every insertion into the open set placed as by `multisetInsert`. -/
theorem FindPath_open_grid (sqrt : K → K)
    (hexact : ∀ x, 0 ≤ x → 0 ≤ sqrt x ∧ sqrt x * sqrt x = x)
    (B : FVector K → FVector K → Bool) (hfree : ∀ centre extent, B centre extent = false)
    (cfg : ANavigationVolume3D K)
    (hx : 1 ≤ cfg.DivisionsX) (hy : 1 ≤ cfg.DivisionsY) (hz : 1 ≤ cfg.DivisionsZ)
    (hx32 : cfg.DivisionsX < 2 ^ 31) (hy32 : cfg.DivisionsY < 2 ^ 31)
    (hz32 : cfg.DivisionsZ < 2 ^ 31) (hmin : cfg.MinSharedNeighborAxes ≤ 2)
    (start destination : FVector K) (out_path : List (FVector K)) :
    ∃ (fuel : Nat) (ns : List Nat),
      (∀ fuel', fuel ≤ fuel' →
        FindPath sqrt B fuel' (BeginPlay cfg) start destination out_path =
          some (true, ns.map (nodeLocation (BeginPlay cfg)))) ∧
      ns.head? = some (GetNode (BeginPlay cfg)
        (ConvertLocationToCoordinates (BeginPlay cfg) start)) ∧
      ns.getLast? = some (GetNode (BeginPlay cfg)
        (ConvertLocationToCoordinates (BeginPlay cfg) destination)) ∧
      IsNeighborPath (BeginPlay cfg).Nodes ns ∧
      ∀ ns' : List Nat, IsNeighborPath (BeginPlay cfg).Nodes ns' →
        ns'.head? = some (GetNode (BeginPlay cfg)
          (ConvertLocationToCoordinates (BeginPlay cfg) start)) →
        ns'.getLast? = some (GetNode (BeginPlay cfg)
          (ConvertLocationToCoordinates (BeginPlay cfg) destination)) →
        pathCost sqrt (BeginPlay cfg).Nodes ns ≤ pathCost sqrt (BeginPlay cfg).Nodes ns' := by
  set v := BeginPlay cfg with hv
  set a := ConvertLocationToCoordinates v start with ha
  set b := ConvertLocationToCoordinates v destination with hb
  have hav : AreCoordinatesValid cfg a = true :=
    ConvertLocationToCoordinates_valid v hx hy hz start
  have hbv : AreCoordinatesValid cfg b = true :=
    ConvertLocationToCoordinates_valid v hx hy hz destination
  have hwf : NeighborsInRange v.Nodes := BeginPlay_neighborsInRange cfg hx hy
  have hs : GetNode v a < v.Nodes.length := by
    rw [hv, BeginPlay_length]
    exact GetNode_lt cfg a hav
  have hpos := BeginPlay_edge_pos sqrt hexact cfg hx hy
  have hreach : ∃ rp, IsRevPath v.Nodes rp ∧ rp.head? = some (GetNode v b) ∧
      rp.getLast? = some (GetNode v a) ∧ revCost sqrt v.Nodes rp < FLT_MAX := by
    obtain ⟨rp, h1, h2, h3, h4⟩ := exists_manhattan_path sqrt hexact cfg hmin a hav _ b hbv rfl
    refine ⟨rp, h1, h2, h3, lt_of_le_of_lt h4 ?_⟩
    have hav' := (AreCoordinatesValid_iff cfg a).1 hav
    have hbv' := (AreCoordinatesValid_iff cfg b).1 hbv
    have hd : (b.X - a.X).natAbs + (b.Y - a.Y).natAbs + (b.Z - a.Z).natAbs < 3 * 2 ^ 31 := by
      omega
    have hd' : (((b.X - a.X).natAbs + (b.Y - a.Y).natAbs + (b.Z - a.Z).natAbs : Nat) : K) <
        ((3 * 2 ^ 31 : Nat) : K) := by exact_mod_cast hd
    refine lt_trans hd' ?_
    unfold FLT_MAX
    norm_num
  have hinit := FindPath_init_opt sqrt v (GetNode v a) (GetNode v b) hs
  obtain ⟨path, hrun⟩ := searchLoop_opt_returns sqrt hexact B hfree v hwf
    (GetNode v a) (GetNode v b) hs hpos hreach _ _ hinit (le_refl _)
  obtain ⟨ns, hpath, hhead, hlast, hchain, hopt⟩ :=
    searchLoop_true_optimal sqrt hexact B hfree v hwf (GetNode v a)
      (GetNode v b) hs _ _ path (FindPath_init_inv sqrt B v _ _) hinit hrun
  refine ⟨(FindPath_init sqrt v (GetNode v a) (GetNode v b)).openSet.length +
      2 * searchMeasure sqrt v.Nodes (FindPath_init sqrt v (GetNode v a) (GetNode v b)).gScores +
      (v.Nodes.length + 2), ns, fun fuel' hle => ?_, hhead, hlast, hchain, hopt⟩
  unfold FindPath
  rw [hpath] at hrun
  exact searchLoop_fuel_mono_le sqrt B v _ _ _ fuel' hle _ _ hrun

/-- The two ends of an edge of the built graph are nodes of two distinct cells of the grid
that differ by at most one on every axis. -/
theorem BeginPlay_edge_cells (cfg : ANavigationVolume3D K) (hx : 1 ≤ cfg.DivisionsX)
    (hy : 1 ≤ cfg.DivisionsY) (p n : Nat)
    (hn : n ∈ (nodeAt (BeginPlay cfg).Nodes p).Neighbors) :
    ∃ a b, AreCoordinatesValid cfg a = true ∧ AreCoordinatesValid cfg b = true ∧
      p = GetNode cfg a ∧ n = GetNode cfg b ∧
      ((-1 ≤ b.X - a.X ∧ b.X - a.X ≤ 1) ∧ (-1 ≤ b.Y - a.Y ∧ b.Y - a.Y ≤ 1) ∧
        (-1 ≤ b.Z - a.Z ∧ b.Z - a.Z ≤ 1)) ∧ a ≠ b := by
  have hp : p < (GetTotalDivisions cfg).toNat := by
    rw [← BeginPlay_length]
    exact mem_neighbors_lt _ p n hn
  obtain ⟨a, ha, rfl⟩ := exists_cell_of_lt cfg hx hy p hp
  rw [BeginPlay_nodeAt cfg a ha] at hn
  obtain ⟨b, hoff, hb, hne, _, rfl⟩ := (mem_cellNeighbors cfg a n).1 hn
  exact ⟨a, b, ha, hb, rfl, rfl, hoff, hne⟩

theorem coordinateSum_GetNode (cfg : ANavigationVolume3D K) (a : FIntVector)
    (ha : AreCoordinatesValid cfg a = true) :
    coordinateSum (BeginPlay cfg).Nodes (GetNode cfg a) = a.X + a.Y + a.Z := by
  unfold coordinateSum
  rw [BeginPlay_nodeAt cfg a ha]

theorem unit_offset_facts (d : Int) (hd : -1 ≤ d ∧ d ≤ 1) :
    d ≤ d ^ 2 ∧ d ^ 2 ≤ 1 ∧ 0 ≤ d ^ 2 ∧ (d ^ 2 = 0 → d = 0) := by
  have h : d = -1 ∨ d = 0 ∨ d = 1 := by omega
  rcases h with h | h | h <;> subst h <;> decide

/-- Along an edge of the built graph the coordinate sum grows by at most `sqrt 3` times
the length of the edge, and by exactly that much only on the edge to the cell that is one
further on all three axes. -/
theorem diagonal_edge (sqrt : K → K)
    (hexact : ∀ x, 0 ≤ x → 0 ≤ sqrt x ∧ sqrt x * sqrt x = x) (cfg : ANavigationVolume3D K)
    (hx : 1 ≤ cfg.DivisionsX) (hy : 1 ≤ cfg.DivisionsY) (p n : Nat)
    (hn : n ∈ (nodeAt (BeginPlay cfg).Nodes p).Neighbors) :
    ((coordinateSum (BeginPlay cfg).Nodes n - coordinateSum (BeginPlay cfg).Nodes p : Int) : K)
        ≤ distance sqrt (BeginPlay cfg).Nodes p n * sqrt 3 ∧
      (distance sqrt (BeginPlay cfg).Nodes p n * sqrt 3 ≤
          ((coordinateSum (BeginPlay cfg).Nodes n -
            coordinateSum (BeginPlay cfg).Nodes p : Int) : K) →
        ∃ a, AreCoordinatesValid cfg a = true ∧
          AreCoordinatesValid cfg (a.offset ⟨1, 1, 1⟩) = true ∧
          p = GetNode cfg a ∧ n = GetNode cfg (a.offset ⟨1, 1, 1⟩)) := by
  obtain ⟨a, b, ha, hb, rfl, rfl, ⟨hdx, hdy, hdz⟩, hne⟩ := BeginPlay_edge_cells cfg hx hy p n hn
  rw [coordinateSum_GetNode cfg a ha, coordinateSum_GetNode cfg b hb,
    BeginPlay_distance sqrt cfg a b ha hb]
  obtain ⟨fx1, fx2, fx3, fx4⟩ := unit_offset_facts _ hdx
  obtain ⟨fy1, fy2, fy3, fy4⟩ := unit_offset_facts _ hdy
  obtain ⟨fz1, fz2, fz3, fz4⟩ := unit_offset_facts _ hdz
  set k : Int := (b.X - a.X) ^ 2 + (b.Y - a.Y) ^ 2 + (b.Z - a.Z) ^ 2 with hk
  set s : Int := b.X + b.Y + b.Z - (a.X + a.Y + a.Z) with hs
  have hsk : s ≤ k := by omega
  have hk3 : k ≤ 3 := by omega
  have hk1 : 1 ≤ k := by
    by_contra hcon
    have h0 : (b.X - a.X) ^ 2 = 0 ∧ (b.Y - a.Y) ^ 2 = 0 ∧ (b.Z - a.Z) ^ 2 = 0 := by omega
    apply hne
    have e1 := fx4 h0.1
    have e2 := fy4 h0.2.1
    have e3 := fz4 h0.2.2
    ext <;> omega
  have hkK : (0 : K) ≤ (k : K) := by exact_mod_cast (by omega : (0 : Int) ≤ k)
  obtain ⟨hr0, hr1⟩ := hexact (k : K) hkK
  obtain ⟨ht0, ht1⟩ := hexact 3 (by norm_num)
  have hxx : sqrt (k : K) * sqrt 3 * (sqrt (k : K) * sqrt 3) = ((3 * k : Int) : K) := by
    push_cast
    calc sqrt (k : K) * sqrt 3 * (sqrt (k : K) * sqrt 3)
        = (sqrt (k : K) * sqrt (k : K)) * (sqrt 3 * sqrt 3) := by ring
      _ = 3 * (k : K) := by rw [hr1, ht1]; ring
  have hx0 : 0 ≤ sqrt (k : K) * sqrt 3 := mul_nonneg hr0 ht0
  constructor
  · by_contra hcon
    push_neg at hcon
    have hs0 : (0 : K) < (s : K) := lt_of_le_of_lt hx0 hcon
    have hs1 : 0 < s := by exact_mod_cast hs0
    have hlt : sqrt (k : K) * sqrt 3 * (sqrt (k : K) * sqrt 3) < (s : K) * (s : K) :=
      mul_lt_mul'' hcon hcon hx0 hx0
    rw [hxx] at hlt
    have hlt' : 3 * k < s * s := by exact_mod_cast hlt
    have h4 : s = 1 ∨ s = 2 ∨ s = 3 := by omega
    rcases h4 with h | h | h <;> rw [h] at hlt' hsk <;> omega
  · intro hle
    have hs0 : (0 : K) ≤ (s : K) := le_trans hx0 hle
    have hle2 : sqrt (k : K) * sqrt 3 * (sqrt (k : K) * sqrt 3) ≤ (s : K) * (s : K) :=
      mul_le_mul hle hle hx0 hs0
    rw [hxx] at hle2
    have hle' : 3 * k ≤ s * s := by exact_mod_cast hle2
    have hs0' : 0 ≤ s := by exact_mod_cast hs0
    have hs3 : s = 3 := by
      have h4 : s = 0 ∨ s = 1 ∨ s = 2 ∨ s = 3 := by omega
      rcases h4 with h | h | h | h
      · rw [h] at hle'; omega
      · rw [h] at hle' hsk; omega
      · rw [h] at hle' hsk; omega
      · exact h
    have hb' : b = a.offset ⟨1, 1, 1⟩ := by
      unfold FIntVector.offset
      ext <;> simp only <;> omega
    subst hb'
    exact ⟨a, ha, hb, rfl, rfl⟩

/-- The cost of a neighbour path of the built graph, times `sqrt 3`, is at least the growth
of the coordinate sum from its first to its last node. -/
theorem diagonal_lower (sqrt : K → K)
    (hexact : ∀ x, 0 ≤ x → 0 ≤ sqrt x ∧ sqrt x * sqrt x = x) (cfg : ANavigationVolume3D K)
    (hx : 1 ≤ cfg.DivisionsX) (hy : 1 ≤ cfg.DivisionsY) :
    ∀ (ns : List Nat) (a e : Nat), IsNeighborPath (BeginPlay cfg).Nodes ns →
      ns.head? = some a → ns.getLast? = some e →
      ((coordinateSum (BeginPlay cfg).Nodes e - coordinateSum (BeginPlay cfg).Nodes a : Int) : K)
        ≤ pathCost sqrt (BeginPlay cfg).Nodes ns * sqrt 3
  | [], _, _, _, hh, _ => by simp at hh
  | [x], a, e, _, hh, hl => by
    simp only [List.head?_cons, Option.some.injEq] at hh
    simp only [List.getLast?_singleton, Option.some.injEq] at hl
    subst hh; subst hl
    simp [pathCost]
  | x :: y :: rest, a, e, hc, hh, hl => by
    simp only [List.head?_cons, Option.some.injEq] at hh
    subst hh
    have hc' : IsNeighborPath (BeginPlay cfg).Nodes (y :: rest) := (List.chain'_cons.1 hc).2
    have hxy : y ∈ (nodeAt (BeginPlay cfg).Nodes x).Neighbors := (List.chain'_cons.1 hc).1
    have ih := diagonal_lower sqrt hexact cfg hx hy (y :: rest) y e hc' rfl
      (by rw [List.getLast?_cons_cons] at hl; exact hl)
    have he := (diagonal_edge sqrt hexact cfg hx hy x y hxy).1
    show _ ≤ (distance sqrt (BeginPlay cfg).Nodes x y +
      pathCost sqrt (BeginPlay cfg).Nodes (y :: rest)) * sqrt 3
    push_cast at ih he ⊢
    linarith

end Diagonal

end Navigation3D

namespace Navigation3D

/-! ## Scenario A: the corner-to-corner query on the 3 x 3 x 3 grid -/

section DiagonalStep

variable {K : Type} [LinearOrderedField K] [FloorRing K]

/-- A neighbour path whose cost, times `sqrt 3`, does not exceed the growth of the
coordinate sum starts with the edge to the cell one further on all three axes, and what is
left of it after that edge again does not exceed the growth of the coordinate sum. -/
theorem diagonal_step (sqrt : K → K)
    (hexact : ∀ x, 0 ≤ x → 0 ≤ sqrt x ∧ sqrt x * sqrt x = x) (cfg : ANavigationVolume3D K)
    (hx : 1 ≤ cfg.DivisionsX) (hy : 1 ≤ cfg.DivisionsY) (x y : Nat) (rest : List Nat)
    (e : Nat) (hc : IsNeighborPath (BeginPlay cfg).Nodes (x :: y :: rest))
    (hl : (x :: y :: rest).getLast? = some e)
    (hcost : pathCost sqrt (BeginPlay cfg).Nodes (x :: y :: rest) * sqrt 3 ≤
      ((coordinateSum (BeginPlay cfg).Nodes e -
        coordinateSum (BeginPlay cfg).Nodes x : Int) : K)) :
    (∃ a, AreCoordinatesValid cfg a = true ∧
        AreCoordinatesValid cfg (a.offset ⟨1, 1, 1⟩) = true ∧
        x = GetNode cfg a ∧ y = GetNode cfg (a.offset ⟨1, 1, 1⟩)) ∧
      pathCost sqrt (BeginPlay cfg).Nodes (y :: rest) * sqrt 3 ≤
        ((coordinateSum (BeginPlay cfg).Nodes e -
          coordinateSum (BeginPlay cfg).Nodes y : Int) : K) := by
  have hc' : IsNeighborPath (BeginPlay cfg).Nodes (y :: rest) := (List.chain'_cons.1 hc).2
  have hxy : y ∈ (nodeAt (BeginPlay cfg).Nodes x).Neighbors := (List.chain'_cons.1 hc).1
  have hlow := diagonal_lower sqrt hexact cfg hx hy (y :: rest) y e hc' rfl
    (by rw [List.getLast?_cons_cons] at hl; exact hl)
  obtain ⟨he1, he2⟩ := diagonal_edge sqrt hexact cfg hx hy x y hxy
  have hsplit : pathCost sqrt (BeginPlay cfg).Nodes (x :: y :: rest) =
      distance sqrt (BeginPlay cfg).Nodes x y +
        pathCost sqrt (BeginPlay cfg).Nodes (y :: rest) := rfl
  rw [hsplit] at hcost
  push_cast at hlow he1 he2 hcost ⊢
  constructor
  · apply he2
    linarith
  · linarith

end DiagonalStep

section ScenarioA

theorem realSqrt_exact : ∀ x : ℝ, 0 ≤ x → 0 ≤ Real.sqrt x ∧ Real.sqrt x * Real.sqrt x = x :=
  fun x hx => ⟨Real.sqrt_nonneg x, Real.mul_self_sqrt hx⟩

theorem cube_start_cell :
    ConvertLocationToCoordinates (BeginPlay cubeConfig) ⟨50, 50, 50⟩ = ⟨0, 0, 0⟩ := by
  norm_num [ConvertLocationToCoordinates, ConvertLocationToCoordinates_unclamped,
    ClampCoordinates, FMath.Clamp, FloatToInt, BeginPlay, cubeConfig, GetGridSizeX,
    GetGridSizeY, GetGridSizeZ]

theorem cube_end_cell :
    ConvertLocationToCoordinates (BeginPlay cubeConfig) ⟨250, 250, 250⟩ = ⟨2, 2, 2⟩ := by
  norm_num [ConvertLocationToCoordinates, ConvertLocationToCoordinates_unclamped,
    ClampCoordinates, FMath.Clamp, FloatToInt, BeginPlay, cubeConfig, GetGridSizeX,
    GetGridSizeY, GetGridSizeZ]

theorem cube_locations :
    [0, 13, 26].map (nodeLocation (BeginPlay cubeConfig)) =
      [⟨50, 50, 50⟩, ⟨150, 150, 150⟩, ⟨250, 250, 250⟩] := by
  have e0 : GetNode cubeConfig ⟨0, 0, 0⟩ = 0 := by decide
  have e1 : GetNode cubeConfig ⟨1, 1, 1⟩ = 13 := by decide
  have e2 : GetNode cubeConfig ⟨2, 2, 2⟩ = 26 := by decide
  have h0 := BeginPlay_nodeAt cubeConfig ⟨0, 0, 0⟩ (by decide)
  have h1 := BeginPlay_nodeAt cubeConfig ⟨1, 1, 1⟩ (by decide)
  have h2 := BeginPlay_nodeAt cubeConfig ⟨2, 2, 2⟩ (by decide)
  rw [e0] at h0; rw [e1] at h1; rw [e2] at h2
  simp only [List.map, nodeLocation, h0, h1, h2]
  norm_num [ConvertCoordinatesToLocation, ConvertCoordinatesToLocation_gridSpaceLocation,
    ClampCoordinates, FMath.Clamp, BeginPlay, cubeConfig]

theorem cube_not_adjacent : 26 ∉ (nodeAt (BeginPlay cubeConfig).Nodes 0).Neighbors := by
  have e0 : GetNode cubeConfig ⟨0, 0, 0⟩ = 0 := by decide
  have e2 : GetNode cubeConfig ⟨2, 2, 2⟩ = 26 := by decide
  rw [← e0, BeginPlay_nodeAt cubeConfig ⟨0, 0, 0⟩ (by decide)]
  intro hmem
  obtain ⟨b, hoff, hb, _, _, hg⟩ := (mem_cellNeighbors cubeConfig _ 26).1 hmem
  have hb2 : b = ⟨2, 2, 2⟩ := GetNode_inj cubeConfig b ⟨2, 2, 2⟩ hb (by decide) (hg.trans e2.symm)
  subst hb2
  norm_num at hoff

theorem cube_diagonal_cost :
    pathCost Real.sqrt (BeginPlay cubeConfig).Nodes [0, 13, 26] = 2 * Real.sqrt 3 := by
  have e0 : GetNode cubeConfig ⟨0, 0, 0⟩ = 0 := by decide
  have e1 : GetNode cubeConfig ⟨1, 1, 1⟩ = 13 := by decide
  have e2 : GetNode cubeConfig ⟨2, 2, 2⟩ = 26 := by decide
  have d1 := BeginPlay_distance Real.sqrt cubeConfig ⟨0, 0, 0⟩ ⟨1, 1, 1⟩ (by decide) (by decide)
  have d2 := BeginPlay_distance Real.sqrt cubeConfig ⟨1, 1, 1⟩ ⟨2, 2, 2⟩ (by decide) (by decide)
  rw [e0, e1] at d1
  rw [e1, e2] at d2
  show distance Real.sqrt (BeginPlay cubeConfig).Nodes 0 13 +
    (distance Real.sqrt (BeginPlay cubeConfig).Nodes 13 26 + 0) = _
  rw [d1, d2]
  norm_num
  ring

/-- The only neighbour path of the 3 x 3 x 3 grid from the corner `(0, 0, 0)` to the corner
`(2, 2, 2)` that costs no more than `2 * sqrt 3` is the one through the centre cell. -/
theorem cube_diagonal_unique (ns : List Nat)
    (hc : IsNeighborPath (BeginPlay cubeConfig).Nodes ns) (hh : ns.head? = some 0)
    (hl : ns.getLast? = some 26)
    (hcost : pathCost Real.sqrt (BeginPlay cubeConfig).Nodes ns ≤ 2 * Real.sqrt 3) :
    ns = [0, 13, 26] := by
  have e0 : GetNode cubeConfig ⟨0, 0, 0⟩ = 0 := by decide
  have e1 : GetNode cubeConfig ⟨1, 1, 1⟩ = 13 := by decide
  have e2 : GetNode cubeConfig ⟨2, 2, 2⟩ = 26 := by decide
  have s0 : coordinateSum (BeginPlay cubeConfig).Nodes 0 = 0 := by
    rw [← e0, coordinateSum_GetNode cubeConfig _ (by decide)]; rfl
  have s1 : coordinateSum (BeginPlay cubeConfig).Nodes 13 = 3 := by
    rw [← e1, coordinateSum_GetNode cubeConfig _ (by decide)]; rfl
  have s2 : coordinateSum (BeginPlay cubeConfig).Nodes 26 = 6 := by
    rw [← e2, coordinateSum_GetNode cubeConfig _ (by decide)]; rfl
  have hr := (realSqrt_exact 3 (by norm_num)).2
  have hr0 := (realSqrt_exact 3 (by norm_num)).1
  match ns, hc, hh, hl, hcost with
  | [], _, hh, _, _ => simp at hh
  | [x], _, hh, hl, _ =>
    simp only [List.head?_cons, Option.some.injEq] at hh
    simp only [List.getLast?_singleton, Option.some.injEq] at hl
    omega
  | x :: y :: rest, hc, hh, hl, hcost =>
    simp only [List.head?_cons, Option.some.injEq] at hh
    subst hh
    have hcost1 : pathCost Real.sqrt (BeginPlay cubeConfig).Nodes (0 :: y :: rest) *
        Real.sqrt 3 ≤ ((coordinateSum (BeginPlay cubeConfig).Nodes 26 -
          coordinateSum (BeginPlay cubeConfig).Nodes 0 : Int) : ℝ) := by
      rw [s0, s2]
      have h6 : (((6 : Int) - 0 : Int) : ℝ) = 2 * Real.sqrt 3 * Real.sqrt 3 := by
        rw [mul_assoc, hr]; norm_num
      rw [h6]
      exact mul_le_mul_of_nonneg_right hcost hr0
    obtain ⟨⟨a, ha, ha1, hxa, hya⟩, hcost2⟩ := diagonal_step Real.sqrt realSqrt_exact cubeConfig
      (by decide) (by decide) 0 y rest 26 hc hl hcost1
    have haz : a = ⟨0, 0, 0⟩ := GetNode_inj cubeConfig a _ ha (by decide) (hxa.symm.trans e0.symm)
    subst haz
    have hy13 : y = 13 := by rw [hya]; decide
    subst hy13
    match rest, hc, hl, hcost2 with
    | [], _, hl, _ =>
      rw [List.getLast?_cons_cons, List.getLast?_singleton] at hl
      exact absurd (Option.some.inj hl) (by decide)
    | z :: rest', hc, hl, hcost2 =>
      have hl' : (13 :: z :: rest').getLast? = some 26 := by
        rw [List.getLast?_cons_cons] at hl; exact hl
      obtain ⟨⟨a, ha, ha1, hxa, hya⟩, hcost3⟩ := diagonal_step Real.sqrt realSqrt_exact
        cubeConfig (by decide) (by decide) 13 z rest' 26 (List.chain'_cons.1 hc).2 hl' hcost2
      have haz : a = ⟨1, 1, 1⟩ :=
        GetNode_inj cubeConfig a _ ha (by decide) (hxa.symm.trans e1.symm)
      subst haz
      have hz26 : z = 26 := by rw [hya]; decide
      subst hz26
      match rest', hc, hl', hcost3 with
      | [], _, _, _ => rfl
      | w :: rest'', hc, hl', hcost3 =>
        exfalso
        have hl'' : (26 :: w :: rest'').getLast? = some 26 := by
          rw [List.getLast?_cons_cons] at hl'; exact hl'
        obtain ⟨⟨a, ha, ha1, hxa, hya⟩, _⟩ := diagonal_step Real.sqrt realSqrt_exact
          cubeConfig (by decide) (by decide) 26 w rest'' 26
          (List.chain'_cons.1 (List.chain'_cons.1 hc).2).2 hl'' hcost3
        have haz : a = ⟨2, 2, 2⟩ :=
          GetNode_inj cubeConfig a _ ha (by decide) (hxa.symm.trans e2.symm)
        subst haz
        revert ha1
        decide

/-- C15, counterexample: In Scenario A (3 x 3 x 3 grid, division size 100,
`MinSharedNeighborAxes` 0, no obstructions, exact real arithmetic) the start location
`(50, 50, 50)` is in the cell of node 0 and the destination `(250, 250, 250)` in the cell of
node 26; node 26 is not in the neighbour list of node 0; and no iteration bound makes
`FindPath` return `true` with an `out_path` of exactly two waypoints. -/
theorem C15_counterexample :
    GetNode (BeginPlay cubeConfig)
        (ConvertLocationToCoordinates (BeginPlay cubeConfig) ⟨50, 50, 50⟩) = 0 ∧
    GetNode (BeginPlay cubeConfig)
        (ConvertLocationToCoordinates (BeginPlay cubeConfig) ⟨250, 250, 250⟩) = 26 ∧
    26 ∉ (nodeAt (BeginPlay cubeConfig).Nodes 0).Neighbors ∧
    ¬ ∃ (fuel : Nat) (p q : FVector ℝ),
      FindPath Real.sqrt (fun _ _ => false) fuel (BeginPlay cubeConfig) ⟨50, 50, 50⟩
        ⟨250, 250, 250⟩ [] = some (true, [p, q]) := by
  have hs : GetNode (BeginPlay cubeConfig)
      (ConvertLocationToCoordinates (BeginPlay cubeConfig) ⟨50, 50, 50⟩) = 0 := by
    rw [cube_start_cell]; decide
  have he : GetNode (BeginPlay cubeConfig)
      (ConvertLocationToCoordinates (BeginPlay cubeConfig) ⟨250, 250, 250⟩) = 26 := by
    rw [cube_end_cell]; decide
  refine ⟨hs, he, cube_not_adjacent, ?_⟩
  rintro ⟨fuel, p, q, hrun⟩
  obtain ⟨ns, hmap, hh, hl, hc, _⟩ := FindPath_true_spec Real.sqrt (fun _ _ => false) fuel
    (BeginPlay cubeConfig) ⟨50, 50, 50⟩ ⟨250, 250, 250⟩ [] [p, q] hrun
  rw [hs] at hh
  rw [he] at hl
  match ns, hmap, hh, hl, hc with
  | [], hmap, _, _, _ => simp at hmap
  | [_], hmap, _, _, _ => simp at hmap
  | [a, b], _, hh, hl, hc =>
    simp only [List.head?_cons, Option.some.injEq] at hh
    simp only [List.getLast?_cons_cons, List.getLast?_singleton, Option.some.injEq] at hl
    subst hh; subst hl
    exact cube_not_adjacent (List.chain'_cons.1 hc).1
  | _ :: _ :: _ :: _, hmap, _, _, _ => simp at hmap

/-- C15, as the code behaves: In Scenario A (3 x 3 x 3 grid, division size 100,
`MinSharedNeighborAxes` 0, no obstructions, exact real arithmetic) `FindPath` from the
centre of cell `(0, 0, 0)` to the centre of cell `(2, 2, 2)` returns `true`, for every
sufficient iteration bound, with the two-hop path through the fully diagonal neighbour
`(1, 1, 1)`: `out_path` has exactly the three waypoints `(50, 50, 50)`, `(150, 150, 150)`,
`(250, 250, 250)`, the cell centres of the nodes 0, 13, 26, and the cost of that path, in
the grid units in which the search measures distances, is `2 * sqrt 3`. -/
theorem C15_scenario_A (out_path : List (FVector ℝ)) :
    ∃ fuel : Nat,
      (∀ fuel', fuel ≤ fuel' →
        FindPath Real.sqrt (fun _ _ => false) fuel' (BeginPlay cubeConfig) ⟨50, 50, 50⟩
          ⟨250, 250, 250⟩ out_path =
            some (true, [⟨50, 50, 50⟩, ⟨150, 150, 150⟩, ⟨250, 250, 250⟩])) ∧
      [0, 13, 26].map (nodeLocation (BeginPlay cubeConfig)) =
        [⟨50, 50, 50⟩, ⟨150, 150, 150⟩, ⟨250, 250, 250⟩] ∧
      IsNeighborPath (BeginPlay cubeConfig).Nodes [0, 13, 26] ∧
      pathCost Real.sqrt (BeginPlay cubeConfig).Nodes [0, 13, 26] = 2 * Real.sqrt 3 := by
  have hs : GetNode (BeginPlay cubeConfig)
      (ConvertLocationToCoordinates (BeginPlay cubeConfig) ⟨50, 50, 50⟩) = 0 := by
    rw [cube_start_cell]; decide
  have he : GetNode (BeginPlay cubeConfig)
      (ConvertLocationToCoordinates (BeginPlay cubeConfig) ⟨250, 250, 250⟩) = 26 := by
    rw [cube_end_cell]; decide
  obtain ⟨fuel, ns, hrun, hh, hl, hc, hopt⟩ := FindPath_open_grid Real.sqrt realSqrt_exact
    (fun _ _ => false) (fun _ _ => rfl) cubeConfig (by decide) (by decide) (by decide)
    (by decide) (by decide) (by decide) (by decide) ⟨50, 50, 50⟩ ⟨250, 250, 250⟩ out_path
  rw [hs] at hh hopt
  rw [he] at hl hopt
  have hcost := hopt [0, 13, 26] cube_diagonal_path rfl rfl
  rw [cube_diagonal_cost] at hcost
  have hns := cube_diagonal_unique ns hc hh hl hcost
  subst hns
  refine ⟨fuel, fun fuel' hle => ?_, cube_locations, cube_diagonal_path, cube_diagonal_cost⟩
  rw [hrun fuel' hle, cube_locations]

end ScenarioA

end Navigation3D

namespace Navigation3D

/-! ## The loop invariant under an arbitrary overlap query -/

section FreeStep

variable {K : Type} [LinearOrderedField K] [FloorRing K]

theorem relaxNeighbor_eq_blocked (sqrt : K → K) (B : FVector K → FVector K → Bool)
    (v : ANavigationVolume3D K) (endNode current : Nat) (st : SearchState K) (nb : Nat)
    (hg : SameGraph v.Nodes st.Nodes) (hobs : nodeObstructed B v nb = true) :
    relaxNeighbor sqrt B v endNode current st nb = st := by
  have hobs' : B (ConvertCoordinatesToLocation v (nodeAt st.Nodes nb).Coordinates)
      ⟨v.DivisionSize / 2, v.DivisionSize / 2, v.DivisionSize / 2⟩ = true := by
    rw [(hg nb).1]; exact hobs
  unfold relaxNeighbor
  simp only [hobs', Bool.not_true, Bool.false_eq_true, if_false, ite_self]

theorem relaxNeighbor_eq_push (sqrt : K → K) (B : FVector K → FVector K → Bool)
    (v : ANavigationVolume3D K) (endNode current : Nat) (st : SearchState K) (nb : Nat)
    (hg : SameGraph v.Nodes st.Nodes) (hfree : nodeObstructed B v nb = false)
    (h1 : gScore st.gScores current + distance sqrt st.Nodes current nb <
      gScore st.gScores nb) :
    relaxNeighbor sqrt B v endNode current st nb =
      { Nodes := setFScore st.Nodes nb
          (gScore st.gScores current + distance sqrt st.Nodes current nb +
            h sqrt st.Nodes endNode nb),
        openSet := multisetInsert (setFScore st.Nodes nb
          (gScore st.gScores current + distance sqrt st.Nodes current nb +
            h sqrt st.Nodes endNode nb)) st.openSet nb,
        cameFrom := Function.update st.cameFrom nb (some current),
        gScores := Function.update st.gScores nb
          (some (gScore st.gScores current + distance sqrt st.Nodes current nb)) } := by
  have hfree' : B (ConvertCoordinatesToLocation v (nodeAt st.Nodes nb).Coordinates)
      ⟨v.DivisionSize / 2, v.DivisionSize / 2, v.DivisionSize / 2⟩ = false := by
    rw [(hg nb).1]; exact hfree
  unfold relaxNeighbor
  simp only [if_pos h1, hfree', Bool.not_false, if_true]

theorem relaxNeighbor_free (sqrt : K → K) (hsq : ∀ x, 0 ≤ x → 0 ≤ sqrt x)
    (B : FVector K → FVector K → Bool)
    (v : ANavigationVolume3D K) (hwf : NeighborsInRange v.Nodes) (startNode endNode : Nat)
    (hs : startNode < v.Nodes.length) (current : Nat) (gc : K) (done : List Nat)
    (st : SearchState K) (nb : Nat)
    (hmid : FreeMidInv sqrt B v startNode endNode current gc done st)
    (hnb : nb ∈ (nodeAt v.Nodes current).Neighbors) :
    FreeMidInv sqrt B v startNode endNode current gc (nb :: done)
      (relaxNeighbor sqrt B v endNode current st nb) := by
  have hgraph := hmid.core.term.graph
  have hgcur : gScore st.gScores current = gc := gScore_of_some _ _ _ hmid.curG
  have hdist : distance sqrt st.Nodes current nb = distance sqrt v.Nodes current nb :=
    distance_sameGraph hgraph sqrt current nb
  have hd0 : 0 ≤ distance sqrt v.Nodes current nb := distance_nonneg sqrt hsq v.Nodes current nb
  by_cases hobs : nodeObstructed B v nb = true
  · rw [relaxNeighbor_eq_blocked sqrt B v endNode current st nb hgraph hobs]
    refine ⟨hmid.core, hmid.settled, hmid.curG, ?_⟩
    intro m hm hfree
    rcases List.mem_cons.1 hm with hm | hm
    · subst hm
      rw [hobs] at hfree
      cases hfree
    · exact hmid.curDone m hm hfree
  have hfree : nodeObstructed B v nb = false := by simpa using hobs
  by_cases h1 : gScore st.gScores current + distance sqrt st.Nodes current nb <
      gScore st.gScores nb
  · have hterm := (relaxNeighbor_term sqrt hsq B v hwf startNode endNode current hs st nb
      hmid.core.term ⟨gc, hmid.curG⟩ hnb).1
    rw [relaxNeighbor_eq_push sqrt B v endNode current st nb hgraph hfree h1] at hterm ⊢
    rw [hgcur, hdist] at h1 hterm ⊢
    rw [h_sameGraph hgraph] at hterm ⊢
    set t := gc + distance sqrt v.Nodes current nb with ht
    set f := t + h sqrt v.Nodes endNode nb with hf
    have hnbM : nb < st.Nodes.length := by
      rw [hmid.core.length]; exact hwf current nb hnb
    have hcn : current ≠ nb := by
      intro hcn
      rw [← hcn, hgcur] at h1
      linarith
    have hle : ∀ x, gScore (Function.update st.gScores nb (some t)) x ≤
        gScore st.gScores x := by
      intro x
      rw [gScore_update]
      split_ifs with hx
      · subst hx; exact le_of_lt h1
      · exact le_refl _
    have hFother : ∀ x, x ≠ nb →
        (nodeAt (setFScore st.Nodes nb f) x).FScore = (nodeAt st.Nodes x).FScore :=
      fun x hx => FScore_setFScore_ne _ _ _ _ (Ne.symm hx)
    have hFnb : (nodeAt (setFScore st.Nodes nb f) nb).FScore = f :=
      FScore_setFScore_self _ _ _ hnbM
    have hFle : ∀ x ∈ st.openSet,
        (nodeAt (setFScore st.Nodes nb f) x).FScore ≤ (nodeAt st.Nodes x).FScore := by
      intro x hx
      by_cases hxn : x = nb
      · subst hxn
        obtain ⟨g, hg⟩ := hmid.core.term.opened x hx
        rw [hFnb, hmid.core.fscore x g hg, hf]
        rw [gScore_of_some _ _ _ hg] at h1
        linarith
      · rw [hFother x hxn]
    refine ⟨⟨hterm, ?_, ?_, ?_, ?_, ?_, ?_⟩, ?_, ?_, ?_⟩
    · show (setFScore st.Nodes nb f).length = _
      rw [length_setFScore]; exact hmid.core.length
    · intro n g hg
      show (nodeAt (setFScore st.Nodes nb f) n).FScore = _
      by_cases hn : n = nb
      · subst hn
        have hg' : Function.update st.gScores n (some t) n = some g := hg
        rw [Function.update_same, Option.some.injEq] at hg'
        rw [hFnb, hf, hg']
      · have hg' : Function.update st.gScores nb (some t) n = some g := hg
        rw [Function.update_noteq hn] at hg'
        rw [hFother n hn]
        exact hmid.core.fscore n g hg'
    · intro n g hg
      by_cases hn : n = nb
      · subst hn
        have hg' : Function.update st.gScores n (some t) n = some g := hg
        rw [Function.update_same, Option.some.injEq] at hg'
        rw [← hg']
        exact lt_of_lt_of_le h1 (gScore_le_FLT_MAX _ hmid.core.below n)
      · have hg' : Function.update st.gScores nb (some t) n = some g := hg
        rw [Function.update_noteq hn] at hg'
        exact hmid.core.below n g hg'
    · intro n p hnp
      show _ ∧ gScore (Function.update st.gScores nb (some t)) p + _ ≤
        gScore (Function.update st.gScores nb (some t)) n
      by_cases hn : n = nb
      · subst hn
        have hnp' : Function.update st.cameFrom n (some current) n = some p := hnp
        rw [Function.update_same, Option.some.injEq] at hnp'
        subst hnp'
        refine ⟨hnb, ?_⟩
        rw [gScore_update, gScore_update, if_pos rfl, if_neg hcn, hgcur]
      · have hnp' : Function.update st.cameFrom nb (some current) n = some p := hnp
        rw [Function.update_noteq hn] at hnp'
        obtain ⟨hm, hc⟩ := hmid.core.came n p hnp'
        refine ⟨hm, ?_⟩
        rw [gScore_update _ _ _ n, if_neg hn]
        exact le_trans (add_le_add_right (hle p) _) hc
    · exact le_trans (hle startNode) hmid.core.startG
    · rintro ⟨g, hg⟩
      show endNode ∈ multisetInsert _ st.openSet nb
      rw [mem_multisetInsert]
      by_cases hn : endNode = nb
      · exact Or.inl hn
      · have hg' : Function.update st.gScores nb (some t) endNode = some g := hg
        rw [Function.update_noteq hn] at hg'
        exact Or.inr (hmid.core.goal ⟨g, hg'⟩)
    · intro n g hg hnc
      by_cases hn : n = nb
      · subst hn
        right
        exact queued_insert_self _ n st.openSet
      · have hg' : Function.update st.gScores nb (some t) n = some g := hg
        rw [Function.update_noteq hn] at hg'
        rcases hmid.settled n g hg' hnc with hrel | ⟨pre, post, hopen, hpre⟩
        · left
          intro m hm hmf
          exact le_trans (hle m) (hrel m hm hmf)
        · right
          have hpre' : ∀ e ∈ pre, (nodeAt (setFScore st.Nodes nb f) e).FScore ≤
              (nodeAt (setFScore st.Nodes nb f) n).FScore := by
            intro e he
            rw [hFother n hn]
            exact le_trans (hFle e (by rw [hopen]; simp [he])) (hpre e he)
          obtain ⟨pre', post', heq, hle'⟩ :=
            queued_insert_other (setFScore st.Nodes nb f) nb n post pre hpre'
          exact ⟨pre', post', by show multisetInsert _ st.openSet nb = _; rw [hopen]; exact heq,
            hle'⟩
    · show Function.update st.gScores nb (some t) current = some gc
      rw [Function.update_noteq hcn]
      exact hmid.curG
    · intro m hm hmf
      show gScore (Function.update st.gScores nb (some t)) m ≤ _
      rcases List.mem_cons.1 hm with hm | hm
      · subst hm
        rw [gScore_update, if_pos rfl]
      · exact le_trans (hle m) (hmid.curDone m hm hmf)
  · rw [relaxNeighbor_eq_self sqrt B v endNode current st nb h1]
    refine ⟨hmid.core, hmid.settled, hmid.curG, ?_⟩
    intro m hm hmf
    rcases List.mem_cons.1 hm with hm | hm
    · subst hm
      rw [hgcur, hdist] at h1
      exact not_lt.1 h1
    · exact hmid.curDone m hm hmf

theorem foldl_relaxNeighbor_free (sqrt : K → K) (hsq : ∀ x, 0 ≤ x → 0 ≤ sqrt x)
    (B : FVector K → FVector K → Bool)
    (v : ANavigationVolume3D K) (hwf : NeighborsInRange v.Nodes) (startNode endNode : Nat)
    (hs : startNode < v.Nodes.length) (current : Nat) (gc : K) (nbs : List Nat) :
    ∀ (done : List Nat) (st : SearchState K),
      FreeMidInv sqrt B v startNode endNode current gc done st →
      (∀ n ∈ nbs, n ∈ (nodeAt v.Nodes current).Neighbors) →
      FreeMidInv sqrt B v startNode endNode current gc (nbs.reverse ++ done)
        (nbs.foldl (relaxNeighbor sqrt B v endNode current) st) := by
  induction nbs with
  | nil => intro done st h _; exact h
  | cons n nbs ih =>
    intro done st hmid hsub
    rw [List.foldl_cons]
    have h1 := relaxNeighbor_free sqrt hsq B v hwf startNode endNode hs current gc done st n
      hmid (hsub n (List.mem_cons_self _ _))
    have h2 := ih (n :: done) _ h1 (fun m hm => hsub m (List.mem_cons_of_mem _ hm))
    simpa using h2

/-- One pass of the loop body keeps the invariant, whatever the overlap query reports. -/
theorem expandNode_free (sqrt : K → K) (hsq : ∀ x, 0 ≤ x → 0 ≤ sqrt x)
    (B : FVector K → FVector K → Bool)
    (v : ANavigationVolume3D K) (hwf : NeighborsInRange v.Nodes) (startNode endNode : Nat)
    (hs : startNode < v.Nodes.length) (st : SearchState K) (current : Nat) (rest : List Nat)
    (hinv : FreeInv sqrt B v startNode endNode st) (ho : st.openSet = current :: rest)
    (hne : current ≠ endNode) :
    FreeInv sqrt B v startNode endNode (expandNode sqrt B v endNode st current rest) := by
  obtain ⟨gc, hgc⟩ := hinv.core.term.opened current (by rw [ho]; exact List.mem_cons_self _ _)
  have hmid0 : FreeMidInv sqrt B v startNode endNode current gc [] { st with openSet := rest } := by
    refine ⟨⟨⟨hinv.core.term.graph, ?_, hinv.core.term.witness⟩, hinv.core.length,
      hinv.core.fscore, hinv.core.below, hinv.core.came, hinv.core.startG, ?_⟩, ?_, hgc, ?_⟩
    · intro n hn
      exact hinv.core.term.opened n (by rw [ho]; exact List.mem_cons_of_mem _ hn)
    · intro hg
      have := hinv.core.goal hg
      rw [ho] at this
      rcases List.mem_cons.1 this with h | h
      · exact absurd h.symm hne
      · exact h
    · intro n g hg hnc
      rcases hinv.settled n g hg with h | ⟨pre, post, hopen, hpre⟩
      · exact Or.inl h
      · right
        rw [ho] at hopen
        cases pre with
        | nil =>
          simp only [List.nil_append, List.cons.injEq] at hopen
          exact absurd hopen.1.symm hnc
        | cons e pre =>
          simp only [List.cons_append, List.cons.injEq] at hopen
          exact ⟨pre, post, hopen.2, fun x hx => hpre x (List.mem_cons_of_mem _ hx)⟩
    · intro m hm
      exact absurd hm (List.not_mem_nil m)
  have hmid := foldl_relaxNeighbor_free sqrt hsq B v hwf startNode endNode hs current gc
    (nodeAt st.Nodes current).Neighbors [] { st with openSet := rest } hmid0
    (fun n hn => by rw [(hinv.core.term.graph current).2] at hn; exact hn)
  refine ⟨hmid.core, ?_⟩
  intro n g hg
  by_cases hnc : n = current
  · left
    subst hnc
    have hg' : g = gc := by
      have := hmid.curG
      unfold expandNode at hg
      rw [this] at hg
      exact (Option.some.inj hg).symm
    intro m hm hmf
    rw [hg']
    apply hmid.curDone m _ hmf
    rw [List.append_nil, List.mem_reverse, (hinv.core.term.graph n).2]
    exact hm
  · exact hmid.settled n g hg hnc

theorem FindPath_init_free (sqrt : K → K) (B : FVector K → FVector K → Bool)
    (v : ANavigationVolume3D K) (startNode endNode : Nat) (hs : startNode < v.Nodes.length) :
    FreeInv sqrt B v startNode endNode (FindPath_init sqrt v startNode endNode) := by
  have hgs : ∀ n g, (FindPath_init sqrt v startNode endNode).gScores n = some g →
      n = startNode ∧ g = 0 := by
    intro n g hg
    simp only [FindPath_init] at hg
    by_cases hn : n = startNode
    · subst hn
      rw [Function.update_same, Option.some.injEq] at hg
      exact ⟨rfl, hg.symm⟩
    · rw [Function.update_noteq hn] at hg
      cases hg
  refine ⟨⟨FindPath_init_term sqrt v startNode endNode, ?_, ?_, ?_, ?_, ?_, ?_⟩, ?_⟩
  · simp [FindPath_init, length_setFScore]
  · intro n g hg
    obtain ⟨rfl, rfl⟩ := hgs n g hg
    simp only [FindPath_init]
    rw [FScore_setFScore_self _ _ _ hs]
    ring
  · intro n g hg
    obtain ⟨_, rfl⟩ := hgs n g hg
    exact FLT_MAX_pos
  · intro n p hnp
    simp [FindPath_init] at hnp
  · simp [FindPath_init, gScore]
  · rintro ⟨g, hg⟩
    obtain ⟨h1, _⟩ := hgs endNode g hg
    simp [FindPath_init, multisetInsert, h1]
  · intro n g hg
    obtain ⟨rfl, _⟩ := hgs n g hg
    right
    exact ⟨[], [], by simp [FindPath_init, multisetInsert], by simp⟩

end FreeStep

end Navigation3D

namespace Navigation3D

/-! ## Termination under an arbitrary overlap query -/

section FreeRun

variable {K : Type} [LinearOrderedField K] [FloorRing K]

/-- Whatever the overlap query reports, the loop returns once the iteration bound
suffices: every pass lowers the measure, and the walk along `cameFrom` ends. -/
theorem searchLoop_free_returns (sqrt : K → K) (hsq : ∀ x, 0 ≤ x → 0 ≤ sqrt x)
    (B : FVector K → FVector K → Bool)
    (v : ANavigationVolume3D K) (hwf : NeighborsInRange v.Nodes) (startNode endNode : Nat)
    (hs : startNode < v.Nodes.length)
    (hpos : ∀ p, ∀ n ∈ (nodeAt v.Nodes p).Neighbors, 0 < distance sqrt v.Nodes p n)
    (out_path : List (FVector K)) :
    ∀ (m : Nat) (st : SearchState K), FreeInv sqrt B v startNode endNode st →
      st.openSet.length + 2 * searchMeasure sqrt v.Nodes st.gScores ≤ m →
      ∃ r, searchLoop sqrt B v endNode out_path (m + (v.Nodes.length + 2)) st = some r := by
  intro m
  induction m with
  | zero =>
    intro st _ hm
    have h0 : st.openSet.length = 0 := by omega
    have hfuel : 0 + (v.Nodes.length + 2) = (v.Nodes.length + 1) + 1 := by omega
    rw [hfuel, searchLoop_nil _ _ _ _ _ _ _ (List.length_eq_zero.1 h0)]
    exact ⟨_, rfl⟩
  | succ m ih =>
    intro st hinv hm
    cases ho : st.openSet with
    | nil =>
      have hfuel : m + 1 + (v.Nodes.length + 2) = (m + 1 + v.Nodes.length + 1) + 1 := by omega
      rw [hfuel, searchLoop_nil _ _ _ _ _ _ _ ho]
      exact ⟨_, rfl⟩
    | cons current rest =>
      by_cases hce : current = endNode
      · have hfuel : m + 1 + (v.Nodes.length + 2) = (m + 1 + v.Nodes.length + 1) + 1 := by omega
        rw [hfuel]
        unfold searchLoop
        rw [ho]
        simp only [if_pos hce]
        obtain ⟨r, hr⟩ := rebuildPath_enough sqrt v startNode endNode st hinv.core hpos st.Nodes
          (m + 1 + v.Nodes.length + 1) (by omega) current
          (out_path ++ [ConvertCoordinatesToLocation v (nodeAt st.Nodes current).Coordinates])
        exact ⟨(true, r), by rw [hr]; rfl⟩
      · have hfuel : m + 1 + (v.Nodes.length + 2) = (m + (v.Nodes.length + 2)) + 1 := by omega
        rw [hfuel, searchLoop_cons_ne _ _ _ _ _ _ _ _ _ ho hce]
        have hlt := (expandNode_term sqrt hsq B v hwf startNode endNode hs st current rest
          hinv.core.term ho).2
        exact ih _ (expandNode_free sqrt hsq B v hwf startNode endNode hs st current rest
          hinv ho hce) (by omega)

/-- C18: On the graph built by `BeginPlay` for a configuration with at least one
division per axis, with an exact square root, for every start and destination location and
every fixed overlap query, `FindPath` terminates: there is an iteration bound from which on
it returns one and the same result. (Every pass of the main loop lowers the number of open
entries plus twice the number of pairs of a node and a repetition-free path cheaper than
the node's recorded `gScore`, which an insertion can only leave alone by strictly lowering
a `gScore`; and the walk along `cameFrom` from the goal passes through strictly falling
`gScore` values, so it reaches a node without a `cameFrom` entry.) -/
theorem C18_terminates (sqrt : K → K)
    (hexact : ∀ x, 0 ≤ x → 0 ≤ sqrt x ∧ sqrt x * sqrt x = x)
    (BoxOverlapActors : FVector K → FVector K → Bool) (cfg : ANavigationVolume3D K)
    (hx : 1 ≤ cfg.DivisionsX) (hy : 1 ≤ cfg.DivisionsY) (hz : 1 ≤ cfg.DivisionsZ)
    (start destination : FVector K) (out_path : List (FVector K)) :
    ∃ (fuel : Nat) (result : Bool × List (FVector K)), ∀ fuel', fuel ≤ fuel' →
      FindPath sqrt BoxOverlapActors fuel' (BeginPlay cfg) start destination out_path =
        some result := by
  have hsq : ∀ x, 0 ≤ x → 0 ≤ sqrt x := fun x hx => (hexact x hx).1
  set v := BeginPlay cfg with hv
  have hwf : NeighborsInRange v.Nodes := BeginPlay_neighborsInRange cfg hx hy
  have hs : GetNode v (ConvertLocationToCoordinates v start) < v.Nodes.length := by
    rw [hv, BeginPlay_length]
    exact GetNode_clamp_lt cfg hx hy hz _
  have hpos := BeginPlay_edge_pos sqrt hexact cfg hx hy
  obtain ⟨r, hr⟩ := searchLoop_free_returns sqrt hsq BoxOverlapActors v hwf _
    (GetNode v (ConvertLocationToCoordinates v destination)) hs hpos [] _ _
    (FindPath_init_free sqrt BoxOverlapActors v _ _ hs) (le_refl _)
  refine ⟨(FindPath_init sqrt v (GetNode v (ConvertLocationToCoordinates v start))
      (GetNode v (ConvertLocationToCoordinates v destination))).openSet.length +
    2 * searchMeasure sqrt v.Nodes
      (FindPath_init sqrt v (GetNode v (ConvertLocationToCoordinates v start))
        (GetNode v (ConvertLocationToCoordinates v destination))).gScores +
    (v.Nodes.length + 2), r, fun fuel' hle => ?_⟩
  unfold FindPath
  exact searchLoop_fuel_mono_le sqrt BoxOverlapActors v _ _ _ fuel' hle _ _ hr

theorem C18_terminates_witness :
    ∃ (fuel : Nat) (result : Bool × List (FVector ℝ)), ∀ fuel', fuel ≤ fuel' →
      FindPath Real.sqrt (fun _ _ => true) fuel' (BeginPlay cubeConfig) ⟨50, 50, 50⟩
        ⟨250, 250, 250⟩ [] = some result :=
  C18_terminates Real.sqrt (fun x hx => ⟨Real.sqrt_nonneg x, Real.mul_self_sqrt hx⟩)
    (fun _ _ => true) cubeConfig (by decide) (by decide) (by decide) ⟨50, 50, 50⟩
    ⟨250, 250, 250⟩ []

end FreeRun

end Navigation3D

namespace Navigation3D

/-! ## Completeness and soundness under an arbitrary overlap query -/

section Complete

variable {K : Type} [LinearOrderedField K] [FloorRing K]

theorem BeginPlay_edge_le_two (sqrt : K → K)
    (hexact : ∀ x, 0 ≤ x → 0 ≤ sqrt x ∧ sqrt x * sqrt x = x) (cfg : ANavigationVolume3D K)
    (hx : 1 ≤ cfg.DivisionsX) (hy : 1 ≤ cfg.DivisionsY) :
    ∀ p, ∀ n ∈ (nodeAt (BeginPlay cfg).Nodes p).Neighbors,
      distance sqrt (BeginPlay cfg).Nodes p n ≤ 2 := by
  intro p n hn
  obtain ⟨a, b, ha, hb, rfl, rfl, ⟨hdx, hdy, hdz⟩, _⟩ := BeginPlay_edge_cells cfg hx hy p n hn
  rw [BeginPlay_distance sqrt cfg a b ha hb]
  obtain ⟨_, fx2, fx3, _⟩ := unit_offset_facts _ hdx
  obtain ⟨_, fy2, fy3, _⟩ := unit_offset_facts _ hdy
  obtain ⟨_, fz2, fz3, _⟩ := unit_offset_facts _ hdz
  have h0 : (0 : Int) ≤ (b.X - a.X) ^ 2 + (b.Y - a.Y) ^ 2 + (b.Z - a.Z) ^ 2 := by omega
  have h4 : (b.X - a.X) ^ 2 + (b.Y - a.Y) ^ 2 + (b.Z - a.Z) ^ 2 ≤ (4 : Int) := by omega
  apply exactSqrt_le sqrt hexact _ 2 (by exact_mod_cast h0) (by norm_num)
  have : (((b.X - a.X) ^ 2 + (b.Y - a.Y) ^ 2 + (b.Z - a.Z) ^ 2 : Int) : K) ≤ ((4 : Int) : K) :=
    by exact_mod_cast h4
  refine le_trans this ?_
  norm_num

theorem GoodRev.cost_le (sqrt : K → K) (nodes : List (NavNode K)) (startNode : Nat)
    (gs : Nat → Option K)
    (hedge : ∀ p, ∀ n ∈ (nodeAt nodes p).Neighbors, distance sqrt nodes p n ≤ 2) :
    ∀ rp : List Nat, GoodRev sqrt nodes startNode gs rp →
      revCost sqrt nodes rp + 2 ≤ 2 * (rp.length : K)
  | [] => fun h => absurd h (by simp [GoodRev])
  | [_] => fun _ => by simp [revCost]
  | n :: p :: rest => fun h => by
    have ih := GoodRev.cost_le sqrt nodes startNode gs hedge (p :: rest) h.2.2.2
    have hd := hedge p n h.1
    show revCost sqrt nodes (p :: rest) + distance sqrt nodes p n + 2 ≤
      2 * (((p :: rest).length + 1 : Nat) : K)
    push_cast at ih ⊢
    linarith

theorem nodup_length_le (l : List Nat) (M : Nat) (hnd : l.Nodup) (hlt : ∀ x ∈ l, x < M) :
    l.length ≤ M := by
  have hsub : l.toFinset ⊆ Finset.range M := by
    intro x hx
    rw [List.mem_toFinset] at hx
    exact Finset.mem_range.2 (hlt x hx)
  have := Finset.card_le_card hsub
  rwa [List.toFinset_card_of_nodup hnd, Finset.card_range] at this

/-- A recorded `gScore` is the cost of a repetition-free path, so it stays two edge lengths
below twice the number of nodes. -/
theorem recorded_bound (sqrt : K → K) (v : ANavigationVolume3D K)
    (hwf : NeighborsInRange v.Nodes) (startNode : Nat) (hs : startNode < v.Nodes.length)
    (hedge : ∀ p, ∀ n ∈ (nodeAt v.Nodes p).Neighbors, distance sqrt v.Nodes p n ≤ 2)
    (st : SearchState K) (hinv : TermInv sqrt v startNode st) (n : Nat) (g : K)
    (hg : st.gScores n = some g) : g + 2 ≤ 2 * (v.Nodes.length : K) := by
  obtain ⟨rp, _, hgood, hcost⟩ := hinv.witness n g hg
  have h1 := GoodRev.cost_le sqrt v.Nodes startNode st.gScores hedge rp hgood
  have h2 := nodup_length_le rp v.Nodes.length (GoodRev.nodup sqrt _ _ _ rp hgood)
    (GoodRev.lt_length sqrt _ _ _ hwf hs rp hgood)
  have h3 : (rp.length : K) ≤ (v.Nodes.length : K) := by exact_mod_cast h2
  rw [hcost] at h1
  linarith

/-- When the open set is empty, the nodes with a recorded `gScore` are closed under
unobstructed neighbours. -/
theorem recorded_closed (sqrt : K → K) (B : FVector K → FVector K → Bool)
    (v : ANavigationVolume3D K) (hwf : NeighborsInRange v.Nodes) (startNode endNode : Nat)
    (hs : startNode < v.Nodes.length)
    (hedge : ∀ p, ∀ n ∈ (nodeAt v.Nodes p).Neighbors, distance sqrt v.Nodes p n ≤ 2)
    (hsmall : 2 * (v.Nodes.length : K) < FLT_MAX)
    (st : SearchState K) (hinv : FreeInv sqrt B v startNode endNode st)
    (ho : st.openSet = []) :
    ∀ (ns : List Nat) (a b : Nat), IsNeighborPath v.Nodes ns → ns.head? = some a →
      ns.getLast? = some b → (∀ n ∈ ns.tail, nodeObstructed B v n = false) →
      (∃ g, st.gScores a = some g) → ∃ g, st.gScores b = some g
  | [], _, _, _, hh, _, _, _ => by simp at hh
  | [x], a, b, _, hh, hl, _, hrec => by
    simp only [List.head?_cons, Option.some.injEq] at hh
    simp only [List.getLast?_singleton, Option.some.injEq] at hl
    subst hh; subst hl
    exact hrec
  | x :: y :: rest, a, b, hc, hh, hl, hfree, hrec => by
    simp only [List.head?_cons, Option.some.injEq] at hh
    subst hh
    obtain ⟨g, hg⟩ := hrec
    have hxy : y ∈ (nodeAt v.Nodes x).Neighbors := (List.chain'_cons.1 hc).1
    have hyf : nodeObstructed B v y = false := hfree y (by simp)
    have hy : ∃ g', st.gScores y = some g' := by
      rcases hinv.settled x g hg with hrel | ⟨pre, post, hopen, _⟩
      · have h1 := hrel y hxy hyf
        have h2 := recorded_bound sqrt v hwf startNode hs hedge st hinv.core.term x g hg
        have h3 := hedge x y hxy
        cases hgy : st.gScores y with
        | some g' => exact ⟨g', rfl⟩
        | none =>
          simp only [gScore, hgy] at h1
          linarith
      · rw [ho] at hopen
        simp at hopen
    exact recorded_closed sqrt B v hwf startNode endNode hs hedge hsmall st hinv ho
      (y :: rest) y b (List.chain'_cons.1 hc).2 rfl
      (by rw [List.getLast?_cons_cons] at hl; exact hl)
      (fun n hn => hfree n (by simp only [List.tail_cons] at hn ⊢; exact List.mem_cons_of_mem _ hn))
      hy

/-- When the loop returns `false`, it has reached a state with an empty open set in which
the invariant holds. -/
theorem searchLoop_false_final (sqrt : K → K) (hsq : ∀ x, 0 ≤ x → 0 ≤ sqrt x)
    (B : FVector K → FVector K → Bool)
    (v : ANavigationVolume3D K) (hwf : NeighborsInRange v.Nodes) (startNode endNode : Nat)
    (hs : startNode < v.Nodes.length) (out_path : List (FVector K)) :
    ∀ (fuel : Nat) (st : SearchState K) (path : List (FVector K)),
      FreeInv sqrt B v startNode endNode st →
      searchLoop sqrt B v endNode out_path fuel st = some (false, path) →
      ∃ st', FreeInv sqrt B v startNode endNode st' ∧ st'.openSet = [] := by
  intro fuel
  induction fuel with
  | zero => intro st path _ h; simp [searchLoop] at h
  | succ fuel ih =>
    intro st path hinv h
    cases ho : st.openSet with
    | nil => exact ⟨st, hinv, ho⟩
    | cons current rest =>
      by_cases hce : current = endNode
      · unfold searchLoop at h
        rw [ho] at h
        simp only [if_pos hce, Option.map_eq_some', Prod.mk.injEq, Bool.true_eq_false,
          false_and, and_false, exists_false] at h
      · rw [searchLoop_cons_ne _ _ _ _ _ _ _ _ _ ho hce] at h
        exact ih _ path (expandNode_free sqrt hsq B v hwf startNode endNode hs st current rest
          hinv ho hce) h

/-- C20: On the graph built by `BeginPlay` for a configuration with at least one
division per axis and fewer than `2^31` cells, with an exact square root, for every start
and destination location and every fixed overlap query, `FindPath` returns (for every
sufficient iteration bound) a result, and that result is `true` exactly when the start and
the destination are in the same cell or there is a sequence of nodes from the start node to
the destination node in which every node is in the neighbour list of the one before it and
every node after the first is reported unobstructed. -/
theorem C20_complete_and_sound (sqrt : K → K)
    (hexact : ∀ x, 0 ≤ x → 0 ≤ sqrt x ∧ sqrt x * sqrt x = x)
    (BoxOverlapActors : FVector K → FVector K → Bool) (cfg : ANavigationVolume3D K)
    (hx : 1 ≤ cfg.DivisionsX) (hy : 1 ≤ cfg.DivisionsY) (hz : 1 ≤ cfg.DivisionsZ)
    (h32 : GetTotalDivisions cfg < 2 ^ 31)
    (start destination : FVector K) (out_path : List (FVector K)) :
    ∃ (fuel : Nat) (result : Bool × List (FVector K)),
      (∀ fuel', fuel ≤ fuel' →
        FindPath sqrt BoxOverlapActors fuel' (BeginPlay cfg) start destination out_path =
          some result) ∧
      (result.1 = true ↔
        (ConvertLocationToCoordinates (BeginPlay cfg) start =
            ConvertLocationToCoordinates (BeginPlay cfg) destination ∨
          ∃ ns : List Nat,
            ns.head? = some (GetNode (BeginPlay cfg)
              (ConvertLocationToCoordinates (BeginPlay cfg) start)) ∧
            ns.getLast? = some (GetNode (BeginPlay cfg)
              (ConvertLocationToCoordinates (BeginPlay cfg) destination)) ∧
            List.Chain' (fun a b => b ∈ (nodeAt (BeginPlay cfg).Nodes a).Neighbors) ns ∧
            ∀ n ∈ ns.tail, BoxOverlapActors
              (ConvertCoordinatesToLocation (BeginPlay cfg)
                (nodeAt (BeginPlay cfg).Nodes n).Coordinates)
              ⟨(BeginPlay cfg).DivisionSize / 2, (BeginPlay cfg).DivisionSize / 2,
                (BeginPlay cfg).DivisionSize / 2⟩ = false)) := by
  have hsq : ∀ x, 0 ≤ x → 0 ≤ sqrt x := fun x hx => (hexact x hx).1
  set v := BeginPlay cfg with hv
  set s := GetNode v (ConvertLocationToCoordinates v start) with hsdef
  set d := GetNode v (ConvertLocationToCoordinates v destination) with hddef
  have hwf : NeighborsInRange v.Nodes := BeginPlay_neighborsInRange cfg hx hy
  have hs : s < v.Nodes.length := by
    rw [hv, BeginPlay_length]
    exact GetNode_clamp_lt cfg hx hy hz _
  have hpos := BeginPlay_edge_pos sqrt hexact cfg hx hy
  have hedge := BeginPlay_edge_le_two sqrt hexact cfg hx hy
  have hsmall : 2 * (v.Nodes.length : K) < FLT_MAX := by
    have hM : v.Nodes.length < 2 ^ 31 := by
      rw [hv, BeginPlay_length]
      omega
    have hM' : (v.Nodes.length : K) < ((2 ^ 31 : Nat) : K) := by exact_mod_cast hM
    unfold FLT_MAX
    push_cast at hM'
    linarith
  have hinit := FindPath_init_free sqrt BoxOverlapActors v s d hs
  obtain ⟨r, hr⟩ := searchLoop_free_returns sqrt hsq BoxOverlapActors v hwf s d hs hpos [] _ _
    hinit (le_refl _)
  refine ⟨(FindPath_init sqrt v s d).openSet.length +
    2 * searchMeasure sqrt v.Nodes (FindPath_init sqrt v s d).gScores +
    (v.Nodes.length + 2), r, fun fuel' hle => ?_, ?_, ?_⟩
  · unfold FindPath
    exact searchLoop_fuel_mono_le sqrt BoxOverlapActors v _ _ _ fuel' hle _ _ hr
  · intro htrue
    right
    obtain ⟨b, path⟩ := r
    simp only at htrue
    subst htrue
    obtain ⟨ns, _, hh, hl, hc, hfree⟩ := searchLoop_true_spec sqrt BoxOverlapActors v s d _ _
      path (FindPath_init_inv sqrt BoxOverlapActors v s d) hr
    exact ⟨ns, hh, hl, hc, hfree⟩
  · intro hpath
    obtain ⟨ns, hh, hl, hc, hfree⟩ : ∃ ns : List Nat, ns.head? = some s ∧
        ns.getLast? = some d ∧ IsNeighborPath v.Nodes ns ∧
        ∀ n ∈ ns.tail, nodeObstructed BoxOverlapActors v n = false := by
      rcases hpath with hsame | ⟨ns, hh, hl, hc, hfree⟩
      · refine ⟨[s], rfl, ?_, List.chain'_singleton _, fun n hn => by simp at hn⟩
        rw [hsdef, hddef, hsame]
        rfl
      · exact ⟨ns, hh, hl, hc, hfree⟩
    obtain ⟨b, path⟩ := r
    cases b with
    | true => rfl
    | false =>
      exfalso
      obtain ⟨st', hinv', ho'⟩ := searchLoop_false_final sqrt hsq BoxOverlapActors v hwf s d hs
        [] _ _ path hinit hr
      have hsrec : ∃ g, st'.gScores s = some g := by
        have h0 := hinv'.core.startG
        cases hg : st'.gScores s with
        | some g => exact ⟨g, rfl⟩
        | none =>
          simp only [gScore, hg] at h0
          have := @FLT_MAX_pos K _
          linarith
      have hdrec := recorded_closed sqrt BoxOverlapActors v hwf s d hs hedge hsmall st' hinv'
        ho' ns s d hc hh hl hfree hsrec
      have := hinv'.core.goal hdrec
      rw [ho'] at this
      exact absurd this (List.not_mem_nil _)

theorem C20_complete_and_sound_witness :
    ∃ (fuel : Nat) (result : Bool × List (FVector ℝ)),
      (∀ fuel', fuel ≤ fuel' →
        FindPath Real.sqrt (fun _ _ => true) fuel' (BeginPlay cubeConfig) ⟨50, 50, 50⟩
          ⟨250, 250, 250⟩ [] = some result) ∧
      (result.1 = true ↔
        (ConvertLocationToCoordinates (BeginPlay cubeConfig) ⟨50, 50, 50⟩ =
            ConvertLocationToCoordinates (BeginPlay cubeConfig) ⟨250, 250, 250⟩ ∨
          ∃ ns : List Nat,
            ns.head? = some (GetNode (BeginPlay cubeConfig)
              (ConvertLocationToCoordinates (BeginPlay cubeConfig) ⟨50, 50, 50⟩)) ∧
            ns.getLast? = some (GetNode (BeginPlay cubeConfig)
              (ConvertLocationToCoordinates (BeginPlay cubeConfig) ⟨250, 250, 250⟩)) ∧
            List.Chain' (fun a b => b ∈ (nodeAt (BeginPlay cubeConfig).Nodes a).Neighbors) ns ∧
            ∀ n ∈ ns.tail, (fun _ _ => true : FVector ℝ → FVector ℝ → Bool)
              (ConvertCoordinatesToLocation (BeginPlay cubeConfig)
                (nodeAt (BeginPlay cubeConfig).Nodes n).Coordinates)
              ⟨(BeginPlay cubeConfig).DivisionSize / 2, (BeginPlay cubeConfig).DivisionSize / 2,
                (BeginPlay cubeConfig).DivisionSize / 2⟩ = false)) :=
  C20_complete_and_sound Real.sqrt
    (fun x hx => ⟨Real.sqrt_nonneg x, Real.mul_self_sqrt hx⟩) (fun _ _ => true) cubeConfig
    (by decide) (by decide) (by decide) (by decide) ⟨50, 50, 50⟩ ⟨250, 250, 250⟩ []

end Complete

end Navigation3D

namespace Navigation3D

/-! ## The order of the open set -/

section EvalLemmas

variable {K : Type} [LinearOrderedField K] [FloorRing K]

theorem relaxNeighbor_push_eval (sqrt : K → K) (B : FVector K → FVector K → Bool)
    (v : ANavigationVolume3D K) (endNode current nb : Nat) (ns : List (NavNode K))
    (os : List Nat) (cf : Nat → Option Nat) (gs : Nat → Option K) (gc d hv : K)
    (os' : List Nat) (hg : SameGraph v.Nodes ns) (hgc : gs current = some gc)
    (hd : distance sqrt v.Nodes current nb = d) (hlt : gc + d < gScore gs nb)
    (hfree : nodeObstructed B v nb = false) (hh : h sqrt v.Nodes endNode nb = hv)
    (hins : multisetInsert (setFScore ns nb (gc + d + hv)) os nb = os') :
    relaxNeighbor sqrt B v endNode current
        { Nodes := ns, openSet := os, cameFrom := cf, gScores := gs } nb =
      { Nodes := setFScore ns nb (gc + d + hv), openSet := os',
        cameFrom := Function.update cf nb (some current),
        gScores := Function.update gs nb (some (gc + d)) } := by
  have hgc' : gScore gs current = gc := gScore_of_some _ _ _ hgc
  have hd' : distance sqrt ns current nb = d := by rw [distance_sameGraph hg]; exact hd
  have hh' : h sqrt ns endNode nb = hv := by rw [h_sameGraph hg]; exact hh
  rw [relaxNeighbor_eq_push sqrt B v endNode current _ nb hg hfree
    (by show gScore gs current + distance sqrt ns current nb < gScore gs nb
        rw [hgc', hd']; exact hlt)]
  simp only [hgc', hd', hh', hins]

theorem relaxNeighbor_skip_eval (sqrt : K → K) (B : FVector K → FVector K → Bool)
    (v : ANavigationVolume3D K) (endNode current nb : Nat) (st : SearchState K) (gc d : K)
    (hg : SameGraph v.Nodes st.Nodes) (hgc : st.gScores current = some gc)
    (hd : distance sqrt v.Nodes current nb = d) (hge : gScore st.gScores nb ≤ gc + d) :
    relaxNeighbor sqrt B v endNode current st nb = st := by
  apply relaxNeighbor_eq_self
  rw [gScore_of_some _ _ _ hgc, distance_sameGraph hg, hd]
  exact not_lt.2 hge

theorem multisetInsert_lt (nodes : List (NavNode K)) (e : Nat) (es : List Nat) (p : Nat)
    (hlt : (nodeAt nodes p).FScore < (nodeAt nodes e).FScore) :
    multisetInsert nodes (e :: es) p = p :: e :: es := by
  simp only [multisetInsert, NodeCompare, decide_eq_true_eq, if_pos hlt]

theorem multisetInsert_ge (nodes : List (NavNode K)) (e : Nat) (es : List Nat) (p : Nat)
    (hge : (nodeAt nodes e).FScore ≤ (nodeAt nodes p).FScore) :
    multisetInsert nodes (e :: es) p = e :: multisetInsert nodes es p := by
  simp only [multisetInsert, NodeCompare, decide_eq_true_eq, if_neg (not_lt.2 hge)]

end EvalLemmas

section WallRun

/-- The node `BeginPlay` builds for a cell of the 4 x 3 x 1 grid. -/
theorem wall_node (a : FIntVector) (ha : AreCoordinatesValid wallConfig a = true) (j : Nat)
    (hj : GetNode wallConfig a = j) (l : List Nat) (hl : cellNeighbors wallConfig a = l) :
    (nodeAt (BeginPlay wallConfig).Nodes j).Coordinates = a ∧
      (nodeAt (BeginPlay wallConfig).Nodes j).Neighbors = l := by
  subst hj; subst hl
  rw [BeginPlay_nodeAt wallConfig a ha]
  exact ⟨rfl, rfl⟩

theorem wall_start_cell :
    ConvertLocationToCoordinates (BeginPlay wallConfig) ⟨350, 250, 50⟩ = ⟨3, 2, 0⟩ := by
  norm_num [ConvertLocationToCoordinates, ConvertLocationToCoordinates_unclamped,
    ClampCoordinates, FMath.Clamp, FloatToInt, BeginPlay, wallConfig, GetGridSizeX,
    GetGridSizeY, GetGridSizeZ]

theorem wall_end_cell :
    ConvertLocationToCoordinates (BeginPlay wallConfig) ⟨50, 50, 50⟩ = ⟨0, 0, 0⟩ := by
  norm_num [ConvertLocationToCoordinates, ConvertLocationToCoordinates_unclamped,
    ClampCoordinates, FMath.Clamp, FloatToInt, BeginPlay, wallConfig, GetGridSizeX,
    GetGridSizeY, GetGridSizeZ]

/-- The coordinates `BeginPlay` stores in the nodes of the 4 x 3 x 1 grid. -/
theorem wall_coordinates :
    (nodeAt (BeginPlay wallConfig).Nodes 0).Coordinates = ⟨0, 0, 0⟩ ∧
    (nodeAt (BeginPlay wallConfig).Nodes 1).Coordinates = ⟨1, 0, 0⟩ ∧
    (nodeAt (BeginPlay wallConfig).Nodes 2).Coordinates = ⟨2, 0, 0⟩ ∧
    (nodeAt (BeginPlay wallConfig).Nodes 3).Coordinates = ⟨3, 0, 0⟩ ∧
    (nodeAt (BeginPlay wallConfig).Nodes 5).Coordinates = ⟨1, 1, 0⟩ ∧
    (nodeAt (BeginPlay wallConfig).Nodes 6).Coordinates = ⟨2, 1, 0⟩ ∧
    (nodeAt (BeginPlay wallConfig).Nodes 7).Coordinates = ⟨3, 1, 0⟩ ∧
    (nodeAt (BeginPlay wallConfig).Nodes 9).Coordinates = ⟨1, 2, 0⟩ ∧
    (nodeAt (BeginPlay wallConfig).Nodes 10).Coordinates = ⟨2, 2, 0⟩ ∧
    (nodeAt (BeginPlay wallConfig).Nodes 11).Coordinates = ⟨3, 2, 0⟩ :=
  ⟨(wall_node ⟨0, 0, 0⟩ (by decide) 0 (by decide) _ rfl).1,
    (wall_node ⟨1, 0, 0⟩ (by decide) 1 (by decide) _ rfl).1,
    (wall_node ⟨2, 0, 0⟩ (by decide) 2 (by decide) _ rfl).1,
    (wall_node ⟨3, 0, 0⟩ (by decide) 3 (by decide) _ rfl).1,
    (wall_node ⟨1, 1, 0⟩ (by decide) 5 (by decide) _ rfl).1,
    (wall_node ⟨2, 1, 0⟩ (by decide) 6 (by decide) _ rfl).1,
    (wall_node ⟨3, 1, 0⟩ (by decide) 7 (by decide) _ rfl).1,
    (wall_node ⟨1, 2, 0⟩ (by decide) 9 (by decide) _ rfl).1,
    (wall_node ⟨2, 2, 0⟩ (by decide) 10 (by decide) _ rfl).1,
    (wall_node ⟨3, 2, 0⟩ (by decide) 11 (by decide) _ rfl).1⟩

/-- The neighbour lists of the nodes the run expands. -/
theorem wall_neighbors :
    (nodeAt (BeginPlay wallConfig).Nodes 11).Neighbors = [7, 6, 10] ∧
    (nodeAt (BeginPlay wallConfig).Nodes 6).Neighbors = [3, 7, 11, 2, 10, 1, 5, 9] ∧
    (nodeAt (BeginPlay wallConfig).Nodes 7).Neighbors = [3, 11, 2, 6, 10] ∧
    (nodeAt (BeginPlay wallConfig).Nodes 3).Neighbors = [7, 2, 6] :=
  ⟨(wall_node ⟨3, 2, 0⟩ (by decide) 11 (by decide) _ (by decide)).2,
    (wall_node ⟨2, 1, 0⟩ (by decide) 6 (by decide) _ (by decide)).2,
    (wall_node ⟨3, 1, 0⟩ (by decide) 7 (by decide) _ (by decide)).2,
    (wall_node ⟨3, 0, 0⟩ (by decide) 3 (by decide) _ (by decide)).2⟩

theorem wall_length : (BeginPlay wallConfig).Nodes.length = 12 := by
  rw [BeginPlay_length]; decide

/-- The cells for which `wallOverlap` reports an obstruction. -/
theorem wall_obstructed :
    nodeObstructed wallOverlap (BeginPlay wallConfig) 1 = true ∧
    nodeObstructed wallOverlap (BeginPlay wallConfig) 2 = true ∧
    nodeObstructed wallOverlap (BeginPlay wallConfig) 5 = true ∧
    nodeObstructed wallOverlap (BeginPlay wallConfig) 10 = true ∧
    nodeObstructed wallOverlap (BeginPlay wallConfig) 3 = false ∧
    nodeObstructed wallOverlap (BeginPlay wallConfig) 6 = false ∧
    nodeObstructed wallOverlap (BeginPlay wallConfig) 7 = false ∧
    nodeObstructed wallOverlap (BeginPlay wallConfig) 9 = false := by
  obtain ⟨c0, c1, c2, c3, c5, c6, c7, c9, c10, c11⟩ := wall_coordinates
  simp only [nodeObstructed, nodeLocation, c1, c2, c3, c5, c6, c7, c9, c10]
  norm_num [ConvertCoordinatesToLocation, ConvertCoordinatesToLocation_gridSpaceLocation,
    ClampCoordinates, FMath.Clamp, BeginPlay, wallConfig, wallOverlap]

/-- The edge lengths and heuristic values the run computes. -/
theorem wall_distances :
    (distance Real.sqrt (BeginPlay wallConfig).Nodes 11 7 = 1 ∧
      distance Real.sqrt (BeginPlay wallConfig).Nodes 11 6 = Real.sqrt 2) ∧
    (distance Real.sqrt (BeginPlay wallConfig).Nodes 6 3 = Real.sqrt 2 ∧
      distance Real.sqrt (BeginPlay wallConfig).Nodes 6 7 = 1 ∧
      distance Real.sqrt (BeginPlay wallConfig).Nodes 6 11 = Real.sqrt 2 ∧
      distance Real.sqrt (BeginPlay wallConfig).Nodes 6 9 = Real.sqrt 2) ∧
    (distance Real.sqrt (BeginPlay wallConfig).Nodes 7 3 = 1 ∧
      distance Real.sqrt (BeginPlay wallConfig).Nodes 7 11 = 1 ∧
      distance Real.sqrt (BeginPlay wallConfig).Nodes 7 6 = 1) ∧
    (distance Real.sqrt (BeginPlay wallConfig).Nodes 3 7 = 1 ∧
      distance Real.sqrt (BeginPlay wallConfig).Nodes 3 6 = Real.sqrt 2) ∧
    (h Real.sqrt (BeginPlay wallConfig).Nodes 0 7 = Real.sqrt 10 ∧
      h Real.sqrt (BeginPlay wallConfig).Nodes 0 6 = Real.sqrt 5 ∧
      h Real.sqrt (BeginPlay wallConfig).Nodes 0 3 = 3 ∧
      h Real.sqrt (BeginPlay wallConfig).Nodes 0 9 = Real.sqrt 5) := by
  obtain ⟨c0, c1, c2, c3, c5, c6, c7, c9, c10, c11⟩ := wall_coordinates
  have h9 : Real.sqrt 9 = 3 := by
    rw [show (9 : ℝ) = 3 ^ 2 by norm_num]
    exact Real.sqrt_sq (by norm_num)
  simp only [distance, h, FVector.Distance, FVector.DistSquared, FVector.ofIntVector,
    c0, c3, c6, c7, c9, c11]
  norm_num [h9]

/-- The first four passes of the loop of `FindPath` on the 4 x 3 x 1 grid with the cells
`(1, 0, 0)`, `(1, 1, 0)`, `(2, 0, 0)`, `(2, 2, 0)` obstructed, from node 11 (cell
`(3, 2, 0)`) to node 0: they expand the nodes 11, 6, 7 and 3 and leave the open set
`[9, 3]`. The node 3 was first inserted behind node 9, then lowered in place to `FScore` 5
and inserted again in front; its first entry still stands behind node 9, whose `FScore` is
`2 * sqrt 2 + sqrt 5`. -/
theorem wall_run :
    ∃ st : SearchState ℝ,
      loopState Real.sqrt wallOverlap (BeginPlay wallConfig) 0 4
        (FindPath_init Real.sqrt (BeginPlay wallConfig) 11 0) = some st ∧
      st.openSet = [9, 3] ∧
      (nodeAt st.Nodes 9).FScore = 0 + Real.sqrt 2 + Real.sqrt 2 + Real.sqrt 5 ∧
      (nodeAt st.Nodes 3).FScore = 0 + 1 + 1 + 3 := by
  obtain ⟨a2, b2⟩ : (1.41 : ℝ) < Real.sqrt 2 ∧ Real.sqrt 2 < 1.42 :=
    ⟨by rw [Real.lt_sqrt (by norm_num)]; norm_num,
      by rw [Real.sqrt_lt' (by norm_num)]; norm_num⟩
  obtain ⟨a5, b5⟩ : (2.23 : ℝ) < Real.sqrt 5 ∧ Real.sqrt 5 < 2.24 :=
    ⟨by rw [Real.lt_sqrt (by norm_num)]; norm_num,
      by rw [Real.sqrt_lt' (by norm_num)]; norm_num⟩
  obtain ⟨a10, b10⟩ : (3.16 : ℝ) < Real.sqrt 10 ∧ Real.sqrt 10 < 3.17 :=
    ⟨by rw [Real.lt_sqrt (by norm_num)]; norm_num,
      by rw [Real.sqrt_lt' (by norm_num)]; norm_num⟩
  obtain ⟨⟨d11_7, d11_6⟩, ⟨d6_3, d6_7, d6_11, d6_9⟩, ⟨d7_3, d7_11, d7_6⟩,
    ⟨d3_7, d3_6⟩, h7, h6, h3, h9⟩ := wall_distances
  obtain ⟨o1, o2, o5, o10, o3, o6, o7, o9⟩ := wall_obstructed
  obtain ⟨n11, n6, n7, n3⟩ := wall_neighbors
  have hlen := wall_length
  obtain ⟨B, hB⟩ : ∃ B : FVector ℝ → FVector ℝ → Bool, B = wallOverlap := ⟨_, rfl⟩
  rw [← hB] at o1 o2 o5 o10 o3 o6 o7 o9 ⊢
  obtain ⟨v, hv⟩ : ∃ v, v = BeginPlay wallConfig := ⟨_, rfl⟩
  rw [← hv] at d11_7 d11_6 d6_3 d6_7 d6_11 d6_9 d7_3 d7_11 d7_6 d3_7 d3_6 h7 h6 h3 h9
  rw [← hv] at o1 o2 o5 o10 o3 o6 o7 o9 n11 n6 n7 n3 hlen ⊢
  clear hv hB
  obtain ⟨N0, hN0⟩ : ∃ x, x = setFScore v.Nodes 11 (h Real.sqrt v.Nodes 0 11) :=
    ⟨_, rfl⟩
  have G0 : SameGraph v.Nodes N0 := by rw [hN0]; exact (SameGraph.refl _).setFScore _ _
  have L0 : N0.length = 12 := by rw [hN0, length_setFScore]; exact hlen
  obtain ⟨N1, hN1⟩ : ∃ x, x = setFScore N0 7 (0 + 1 + Real.sqrt 10) :=
    ⟨_, rfl⟩
  have G1 : SameGraph v.Nodes N1 := by rw [hN1]; exact G0.setFScore _ _
  have L1 : N1.length = 12 := by rw [hN1, length_setFScore]; exact L0
  have F1_7 : (nodeAt N1 7).FScore = 0 + 1 + Real.sqrt 10 := by
    rw [hN1]; exact FScore_setFScore_self _ _ _ (by omega)
  have e1 : relaxNeighbor Real.sqrt B v 0 11
      ({ Nodes := N0, openSet := [],
          cameFrom := (fun _ => none),
          gScores := (Function.update (fun _ => none) 11 (some (0))) } : SearchState ℝ) 7 =
      ({ Nodes := N1, openSet := [7],
          cameFrom := (Function.update (fun _ => none) 7 (some 11)),
          gScores := (Function.update (Function.update (fun _ => none) 11 (some (0))) 7 (some (0 +
          1))) } : SearchState ℝ) := by
    rw [hN1]
    refine relaxNeighbor_push_eval Real.sqrt B v 0 11 7 _ _ _ _ (0)
      (1) (Real.sqrt 10) _ G0 rfl d11_7 (by
      simp only [gScore, Function.update_apply]
      norm_num [FLT_MAX]
      try linarith) o7 h7 ?_
    rw [← hN1]
    rfl
  obtain ⟨N2, hN2⟩ : ∃ x, x = setFScore N1 6 (0 + Real.sqrt 2 + Real.sqrt 5) :=
    ⟨_, rfl⟩
  have G2 : SameGraph v.Nodes N2 := by rw [hN2]; exact G1.setFScore _ _
  have L2 : N2.length = 12 := by rw [hN2, length_setFScore]; exact L1
  have F2_6 : (nodeAt N2 6).FScore = 0 + Real.sqrt 2 + Real.sqrt 5 := by
    rw [hN2]; exact FScore_setFScore_self _ _ _ (by omega)
  have F2_7 : (nodeAt N2 7).FScore = 0 + 1 + Real.sqrt 10 := by
    rw [hN2, FScore_setFScore_ne _ _ _ _ (by decide)]; exact F1_7
  have e2 : relaxNeighbor Real.sqrt B v 0 11
      ({ Nodes := N1, openSet := [7],
          cameFrom := (Function.update (fun _ => none) 7 (some 11)),
          gScores := (Function.update (Function.update (fun _ => none) 11 (some (0))) 7 (some (0 +
          1))) } : SearchState ℝ) 6 =
      ({ Nodes := N2, openSet := [6, 7],
          cameFrom := (Function.update (Function.update (fun _ => none) 7 (some 11)) 6 (some 11)),
          gScores := (Function.update (Function.update (Function.update (fun _ => none) 11 (some
          (0))) 7 (some (0 + 1))) 6 (some (0 + Real.sqrt 2))) } : SearchState ℝ) := by
    rw [hN2]
    refine relaxNeighbor_push_eval Real.sqrt B v 0 11 6 _ _ _ _ (0)
      (Real.sqrt 2) (Real.sqrt 5) _ G1 rfl d11_6 (by
      simp only [gScore, Function.update_apply]
      norm_num [FLT_MAX]
      try linarith) o6 h6 ?_
    rw [← hN2]
    rw [multisetInsert_lt _ _ _ _ (by rw [F2_6, F2_7]; linarith)]
  have e3 : relaxNeighbor Real.sqrt B v 0 11
      ({ Nodes := N2, openSet := [6, 7],
          cameFrom := (Function.update (Function.update (fun _ => none) 7 (some 11)) 6 (some 11)),
          gScores := (Function.update (Function.update (Function.update (fun _ => none) 11 (some
          (0))) 7 (some (0 + 1))) 6 (some (0 + Real.sqrt 2))) } : SearchState ℝ) 10 =
      ({ Nodes := N2, openSet := [6, 7],
          cameFrom := (Function.update (Function.update (fun _ => none) 7 (some 11)) 6 (some 11)),
          gScores := (Function.update (Function.update (Function.update (fun _ => none) 11 (some
          (0))) 7 (some (0 + 1))) 6 (some (0 + Real.sqrt 2))) } : SearchState ℝ) := by
    exact relaxNeighbor_eq_blocked Real.sqrt B v 0 11 _ 10 G2 o10
  have x1 : expandNode Real.sqrt B v 0
      ({ Nodes := N0, openSet := [11],
          cameFrom := (fun _ => none),
          gScores := (Function.update (fun _ => none) 11 (some (0))) } : SearchState ℝ) 11 [] =
      ({ Nodes := N2, openSet := [6, 7],
          cameFrom := (Function.update (Function.update (fun _ => none) 7 (some 11)) 6 (some 11)),
          gScores := (Function.update (Function.update (Function.update (fun _ => none) 11 (some
          (0))) 7 (some (0 + 1))) 6 (some (0 + Real.sqrt 2))) } : SearchState ℝ) := by
    unfold expandNode
    rw [show (nodeAt N0 11).Neighbors = _ from ((G0 11).2.trans n11)]
    simp only [List.foldl_cons, List.foldl_nil, e1, e2, e3]
  obtain ⟨N3, hN3⟩ : ∃ x, x = setFScore N2 3 (0 + Real.sqrt 2 + Real.sqrt 2 + 3) :=
    ⟨_, rfl⟩
  have G3 : SameGraph v.Nodes N3 := by rw [hN3]; exact G2.setFScore _ _
  have L3 : N3.length = 12 := by rw [hN3, length_setFScore]; exact L2
  have F3_3 : (nodeAt N3 3).FScore = 0 + Real.sqrt 2 + Real.sqrt 2 + 3 := by
    rw [hN3]; exact FScore_setFScore_self _ _ _ (by omega)
  have F3_7 : (nodeAt N3 7).FScore = 0 + 1 + Real.sqrt 10 := by
    rw [hN3, FScore_setFScore_ne _ _ _ _ (by decide)]; exact F2_7
  have e4 : relaxNeighbor Real.sqrt B v 0 6
      ({ Nodes := N2, openSet := [7],
          cameFrom := (Function.update (Function.update (fun _ => none) 7 (some 11)) 6 (some 11)),
          gScores := (Function.update (Function.update (Function.update (fun _ => none) 11 (some
          (0))) 7 (some (0 + 1))) 6 (some (0 + Real.sqrt 2))) } : SearchState ℝ) 3 =
      ({ Nodes := N3, openSet := [7, 3],
          cameFrom := (Function.update (Function.update (Function.update (fun _ => none) 7 (some
          11)) 6 (some 11)) 3 (some 6)),
          gScores := (Function.update (Function.update (Function.update (Function.update (fun _ =>
          none) 11 (some (0))) 7 (some (0 + 1))) 6 (some (0 + Real.sqrt 2))) 3 (some (0 +
          Real.sqrt 2 + Real.sqrt 2))) } : SearchState ℝ) := by
    rw [hN3]
    refine relaxNeighbor_push_eval Real.sqrt B v 0 6 3 _ _ _ _ (0 + Real.sqrt 2)
      (Real.sqrt 2) (3) _ G2 rfl d6_3 (by
      simp only [gScore, Function.update_apply]
      norm_num [FLT_MAX]
      try linarith) o3 h3 ?_
    rw [← hN3]
    rw [multisetInsert_ge _ _ _ _ (by rw [F3_3, F3_7]; linarith)]
    rfl
  have e5 : relaxNeighbor Real.sqrt B v 0 6
      ({ Nodes := N3, openSet := [7, 3],
          cameFrom := (Function.update (Function.update (Function.update (fun _ => none) 7 (some
          11)) 6 (some 11)) 3 (some 6)),
          gScores := (Function.update (Function.update (Function.update (Function.update (fun _ =>
          none) 11 (some (0))) 7 (some (0 + 1))) 6 (some (0 + Real.sqrt 2))) 3 (some (0 +
          Real.sqrt 2 + Real.sqrt 2))) } : SearchState ℝ) 7 =
      ({ Nodes := N3, openSet := [7, 3],
          cameFrom := (Function.update (Function.update (Function.update (fun _ => none) 7 (some
          11)) 6 (some 11)) 3 (some 6)),
          gScores := (Function.update (Function.update (Function.update (Function.update (fun _ =>
          none) 11 (some (0))) 7 (some (0 + 1))) 6 (some (0 + Real.sqrt 2))) 3 (some (0 +
          Real.sqrt 2 + Real.sqrt 2))) } : SearchState ℝ) := by
    refine relaxNeighbor_skip_eval Real.sqrt B v 0 6 7 _ (0 + Real.sqrt 2) (1)
      G3 rfl d6_7 ?_
    simp only [gScore, Function.update_apply]
    norm_num
    try linarith
  have e6 : relaxNeighbor Real.sqrt B v 0 6
      ({ Nodes := N3, openSet := [7, 3],
          cameFrom := (Function.update (Function.update (Function.update (fun _ => none) 7 (some
          11)) 6 (some 11)) 3 (some 6)),
          gScores := (Function.update (Function.update (Function.update (Function.update (fun _ =>
          none) 11 (some (0))) 7 (some (0 + 1))) 6 (some (0 + Real.sqrt 2))) 3 (some (0 +
          Real.sqrt 2 + Real.sqrt 2))) } : SearchState ℝ) 11 =
      ({ Nodes := N3, openSet := [7, 3],
          cameFrom := (Function.update (Function.update (Function.update (fun _ => none) 7 (some
          11)) 6 (some 11)) 3 (some 6)),
          gScores := (Function.update (Function.update (Function.update (Function.update (fun _ =>
          none) 11 (some (0))) 7 (some (0 + 1))) 6 (some (0 + Real.sqrt 2))) 3 (some (0 +
          Real.sqrt 2 + Real.sqrt 2))) } : SearchState ℝ) := by
    refine relaxNeighbor_skip_eval Real.sqrt B v 0 6 11 _ (0 + Real.sqrt 2) (Real.sqrt 2)
      G3 rfl d6_11 ?_
    simp only [gScore, Function.update_apply]
    norm_num
    try linarith
  have e7 : relaxNeighbor Real.sqrt B v 0 6
      ({ Nodes := N3, openSet := [7, 3],
          cameFrom := (Function.update (Function.update (Function.update (fun _ => none) 7 (some
          11)) 6 (some 11)) 3 (some 6)),
          gScores := (Function.update (Function.update (Function.update (Function.update (fun _ =>
          none) 11 (some (0))) 7 (some (0 + 1))) 6 (some (0 + Real.sqrt 2))) 3 (some (0 +
          Real.sqrt 2 + Real.sqrt 2))) } : SearchState ℝ) 2 =
      ({ Nodes := N3, openSet := [7, 3],
          cameFrom := (Function.update (Function.update (Function.update (fun _ => none) 7 (some
          11)) 6 (some 11)) 3 (some 6)),
          gScores := (Function.update (Function.update (Function.update (Function.update (fun _ =>
          none) 11 (some (0))) 7 (some (0 + 1))) 6 (some (0 + Real.sqrt 2))) 3 (some (0 +
          Real.sqrt 2 + Real.sqrt 2))) } : SearchState ℝ) := by
    exact relaxNeighbor_eq_blocked Real.sqrt B v 0 6 _ 2 G3 o2
  have e8 : relaxNeighbor Real.sqrt B v 0 6
      ({ Nodes := N3, openSet := [7, 3],
          cameFrom := (Function.update (Function.update (Function.update (fun _ => none) 7 (some
          11)) 6 (some 11)) 3 (some 6)),
          gScores := (Function.update (Function.update (Function.update (Function.update (fun _ =>
          none) 11 (some (0))) 7 (some (0 + 1))) 6 (some (0 + Real.sqrt 2))) 3 (some (0 +
          Real.sqrt 2 + Real.sqrt 2))) } : SearchState ℝ) 10 =
      ({ Nodes := N3, openSet := [7, 3],
          cameFrom := (Function.update (Function.update (Function.update (fun _ => none) 7 (some
          11)) 6 (some 11)) 3 (some 6)),
          gScores := (Function.update (Function.update (Function.update (Function.update (fun _ =>
          none) 11 (some (0))) 7 (some (0 + 1))) 6 (some (0 + Real.sqrt 2))) 3 (some (0 +
          Real.sqrt 2 + Real.sqrt 2))) } : SearchState ℝ) := by
    exact relaxNeighbor_eq_blocked Real.sqrt B v 0 6 _ 10 G3 o10
  have e9 : relaxNeighbor Real.sqrt B v 0 6
      ({ Nodes := N3, openSet := [7, 3],
          cameFrom := (Function.update (Function.update (Function.update (fun _ => none) 7 (some
          11)) 6 (some 11)) 3 (some 6)),
          gScores := (Function.update (Function.update (Function.update (Function.update (fun _ =>
          none) 11 (some (0))) 7 (some (0 + 1))) 6 (some (0 + Real.sqrt 2))) 3 (some (0 +
          Real.sqrt 2 + Real.sqrt 2))) } : SearchState ℝ) 1 =
      ({ Nodes := N3, openSet := [7, 3],
          cameFrom := (Function.update (Function.update (Function.update (fun _ => none) 7 (some
          11)) 6 (some 11)) 3 (some 6)),
          gScores := (Function.update (Function.update (Function.update (Function.update (fun _ =>
          none) 11 (some (0))) 7 (some (0 + 1))) 6 (some (0 + Real.sqrt 2))) 3 (some (0 +
          Real.sqrt 2 + Real.sqrt 2))) } : SearchState ℝ) := by
    exact relaxNeighbor_eq_blocked Real.sqrt B v 0 6 _ 1 G3 o1
  have e10 : relaxNeighbor Real.sqrt B v 0 6
      ({ Nodes := N3, openSet := [7, 3],
          cameFrom := (Function.update (Function.update (Function.update (fun _ => none) 7 (some
          11)) 6 (some 11)) 3 (some 6)),
          gScores := (Function.update (Function.update (Function.update (Function.update (fun _ =>
          none) 11 (some (0))) 7 (some (0 + 1))) 6 (some (0 + Real.sqrt 2))) 3 (some (0 +
          Real.sqrt 2 + Real.sqrt 2))) } : SearchState ℝ) 5 =
      ({ Nodes := N3, openSet := [7, 3],
          cameFrom := (Function.update (Function.update (Function.update (fun _ => none) 7 (some
          11)) 6 (some 11)) 3 (some 6)),
          gScores := (Function.update (Function.update (Function.update (Function.update (fun _ =>
          none) 11 (some (0))) 7 (some (0 + 1))) 6 (some (0 + Real.sqrt 2))) 3 (some (0 +
          Real.sqrt 2 + Real.sqrt 2))) } : SearchState ℝ) := by
    exact relaxNeighbor_eq_blocked Real.sqrt B v 0 6 _ 5 G3 o5
  obtain ⟨N4, hN4⟩ : ∃ x, x = setFScore N3 9 (0 + Real.sqrt 2 + Real.sqrt 2 + Real.sqrt 5) :=
    ⟨_, rfl⟩
  have G4 : SameGraph v.Nodes N4 := by rw [hN4]; exact G3.setFScore _ _
  have L4 : N4.length = 12 := by rw [hN4, length_setFScore]; exact L3
  have F4_9 : (nodeAt N4 9).FScore = 0 + Real.sqrt 2 + Real.sqrt 2 + Real.sqrt 5 := by
    rw [hN4]; exact FScore_setFScore_self _ _ _ (by omega)
  have F4_7 : (nodeAt N4 7).FScore = 0 + 1 + Real.sqrt 10 := by
    rw [hN4, FScore_setFScore_ne _ _ _ _ (by decide)]; exact F3_7
  have F4_3 : (nodeAt N4 3).FScore = 0 + Real.sqrt 2 + Real.sqrt 2 + 3 := by
    rw [hN4, FScore_setFScore_ne _ _ _ _ (by decide)]; exact F3_3
  have e11 : relaxNeighbor Real.sqrt B v 0 6
      ({ Nodes := N3, openSet := [7, 3],
          cameFrom := (Function.update (Function.update (Function.update (fun _ => none) 7 (some
          11)) 6 (some 11)) 3 (some 6)),
          gScores := (Function.update (Function.update (Function.update (Function.update (fun _ =>
          none) 11 (some (0))) 7 (some (0 + 1))) 6 (some (0 + Real.sqrt 2))) 3 (some (0 +
          Real.sqrt 2 + Real.sqrt 2))) } : SearchState ℝ) 9 =
      ({ Nodes := N4, openSet := [7, 9, 3],
          cameFrom := (Function.update (Function.update (Function.update (Function.update (fun _
          => none) 7 (some 11)) 6 (some 11)) 3 (some 6)) 9 (some 6)),
          gScores := (Function.update (Function.update (Function.update (Function.update
          (Function.update (fun _ => none) 11 (some (0))) 7 (some (0 + 1))) 6 (some (0 + Real.sqrt
          2))) 3 (some (0 + Real.sqrt 2 + Real.sqrt 2))) 9 (some (0 + Real.sqrt 2 + Real.sqrt 2)))
          } : SearchState ℝ) := by
    rw [hN4]
    refine relaxNeighbor_push_eval Real.sqrt B v 0 6 9 _ _ _ _ (0 + Real.sqrt 2)
      (Real.sqrt 2) (Real.sqrt 5) _ G3 rfl d6_9 (by
      simp only [gScore, Function.update_apply]
      norm_num [FLT_MAX]
      try linarith) o9 h9 ?_
    rw [← hN4]
    rw [multisetInsert_ge _ _ _ _ (by rw [F4_9, F4_7]; linarith)]
    rw [multisetInsert_lt _ _ _ _ (by rw [F4_9, F4_3]; linarith)]
  have x2 : expandNode Real.sqrt B v 0
      ({ Nodes := N2, openSet := [6, 7],
          cameFrom := (Function.update (Function.update (fun _ => none) 7 (some 11)) 6 (some 11)),
          gScores := (Function.update (Function.update (Function.update (fun _ => none) 11 (some
          (0))) 7 (some (0 + 1))) 6 (some (0 + Real.sqrt 2))) } : SearchState ℝ) 6 [7] =
      ({ Nodes := N4, openSet := [7, 9, 3],
          cameFrom := (Function.update (Function.update (Function.update (Function.update (fun _
          => none) 7 (some 11)) 6 (some 11)) 3 (some 6)) 9 (some 6)),
          gScores := (Function.update (Function.update (Function.update (Function.update
          (Function.update (fun _ => none) 11 (some (0))) 7 (some (0 + 1))) 6 (some (0 + Real.sqrt
          2))) 3 (some (0 + Real.sqrt 2 + Real.sqrt 2))) 9 (some (0 + Real.sqrt 2 + Real.sqrt 2)))
          } : SearchState ℝ) := by
    unfold expandNode
    rw [show (nodeAt N2 6).Neighbors = _ from ((G2 6).2.trans n6)]
    simp only [List.foldl_cons, List.foldl_nil, e4, e5, e6, e7, e8, e9, e10, e11]
  obtain ⟨N5, hN5⟩ : ∃ x, x = setFScore N4 3 (0 + 1 + 1 + 3) :=
    ⟨_, rfl⟩
  have G5 : SameGraph v.Nodes N5 := by rw [hN5]; exact G4.setFScore _ _
  have L5 : N5.length = 12 := by rw [hN5, length_setFScore]; exact L4
  have F5_3 : (nodeAt N5 3).FScore = 0 + 1 + 1 + 3 := by
    rw [hN5]; exact FScore_setFScore_self _ _ _ (by omega)
  have F5_9 : (nodeAt N5 9).FScore = 0 + Real.sqrt 2 + Real.sqrt 2 + Real.sqrt 5 := by
    rw [hN5, FScore_setFScore_ne _ _ _ _ (by decide)]; exact F4_9
  have e12 : relaxNeighbor Real.sqrt B v 0 7
      ({ Nodes := N4, openSet := [9, 3],
          cameFrom := (Function.update (Function.update (Function.update (Function.update (fun _
          => none) 7 (some 11)) 6 (some 11)) 3 (some 6)) 9 (some 6)),
          gScores := (Function.update (Function.update (Function.update (Function.update
          (Function.update (fun _ => none) 11 (some (0))) 7 (some (0 + 1))) 6 (some (0 + Real.sqrt
          2))) 3 (some (0 + Real.sqrt 2 + Real.sqrt 2))) 9 (some (0 + Real.sqrt 2 + Real.sqrt 2)))
          } : SearchState ℝ) 3 =
      ({ Nodes := N5, openSet := [3, 9, 3],
          cameFrom := (Function.update (Function.update (Function.update (Function.update
          (Function.update (fun _ => none) 7 (some 11)) 6 (some 11)) 3 (some 6)) 9 (some 6)) 3
          (some 7)),
          gScores := (Function.update (Function.update (Function.update (Function.update
          (Function.update (Function.update (fun _ => none) 11 (some (0))) 7 (some (0 + 1))) 6
          (some (0 + Real.sqrt 2))) 3 (some (0 + Real.sqrt 2 + Real.sqrt 2))) 9 (some (0 +
          Real.sqrt 2 + Real.sqrt 2))) 3 (some (0 + 1 + 1))) } : SearchState ℝ) := by
    rw [hN5]
    refine relaxNeighbor_push_eval Real.sqrt B v 0 7 3 _ _ _ _ (0 + 1)
      (1) (3) _ G4 rfl d7_3 (by
      simp only [gScore, Function.update_apply]
      norm_num [FLT_MAX]
      try linarith) o3 h3 ?_
    rw [← hN5]
    rw [multisetInsert_lt _ _ _ _ (by rw [F5_3, F5_9]; linarith)]
  have e13 : relaxNeighbor Real.sqrt B v 0 7
      ({ Nodes := N5, openSet := [3, 9, 3],
          cameFrom := (Function.update (Function.update (Function.update (Function.update
          (Function.update (fun _ => none) 7 (some 11)) 6 (some 11)) 3 (some 6)) 9 (some 6)) 3
          (some 7)),
          gScores := (Function.update (Function.update (Function.update (Function.update
          (Function.update (Function.update (fun _ => none) 11 (some (0))) 7 (some (0 + 1))) 6
          (some (0 + Real.sqrt 2))) 3 (some (0 + Real.sqrt 2 + Real.sqrt 2))) 9 (some (0 +
          Real.sqrt 2 + Real.sqrt 2))) 3 (some (0 + 1 + 1))) } : SearchState ℝ) 11 =
      ({ Nodes := N5, openSet := [3, 9, 3],
          cameFrom := (Function.update (Function.update (Function.update (Function.update
          (Function.update (fun _ => none) 7 (some 11)) 6 (some 11)) 3 (some 6)) 9 (some 6)) 3
          (some 7)),
          gScores := (Function.update (Function.update (Function.update (Function.update
          (Function.update (Function.update (fun _ => none) 11 (some (0))) 7 (some (0 + 1))) 6
          (some (0 + Real.sqrt 2))) 3 (some (0 + Real.sqrt 2 + Real.sqrt 2))) 9 (some (0 +
          Real.sqrt 2 + Real.sqrt 2))) 3 (some (0 + 1 + 1))) } : SearchState ℝ) := by
    refine relaxNeighbor_skip_eval Real.sqrt B v 0 7 11 _ (0 + 1) (1)
      G5 rfl d7_11 ?_
    simp only [gScore, Function.update_apply]
    norm_num
    try linarith
  have e14 : relaxNeighbor Real.sqrt B v 0 7
      ({ Nodes := N5, openSet := [3, 9, 3],
          cameFrom := (Function.update (Function.update (Function.update (Function.update
          (Function.update (fun _ => none) 7 (some 11)) 6 (some 11)) 3 (some 6)) 9 (some 6)) 3
          (some 7)),
          gScores := (Function.update (Function.update (Function.update (Function.update
          (Function.update (Function.update (fun _ => none) 11 (some (0))) 7 (some (0 + 1))) 6
          (some (0 + Real.sqrt 2))) 3 (some (0 + Real.sqrt 2 + Real.sqrt 2))) 9 (some (0 +
          Real.sqrt 2 + Real.sqrt 2))) 3 (some (0 + 1 + 1))) } : SearchState ℝ) 2 =
      ({ Nodes := N5, openSet := [3, 9, 3],
          cameFrom := (Function.update (Function.update (Function.update (Function.update
          (Function.update (fun _ => none) 7 (some 11)) 6 (some 11)) 3 (some 6)) 9 (some 6)) 3
          (some 7)),
          gScores := (Function.update (Function.update (Function.update (Function.update
          (Function.update (Function.update (fun _ => none) 11 (some (0))) 7 (some (0 + 1))) 6
          (some (0 + Real.sqrt 2))) 3 (some (0 + Real.sqrt 2 + Real.sqrt 2))) 9 (some (0 +
          Real.sqrt 2 + Real.sqrt 2))) 3 (some (0 + 1 + 1))) } : SearchState ℝ) := by
    exact relaxNeighbor_eq_blocked Real.sqrt B v 0 7 _ 2 G5 o2
  have e15 : relaxNeighbor Real.sqrt B v 0 7
      ({ Nodes := N5, openSet := [3, 9, 3],
          cameFrom := (Function.update (Function.update (Function.update (Function.update
          (Function.update (fun _ => none) 7 (some 11)) 6 (some 11)) 3 (some 6)) 9 (some 6)) 3
          (some 7)),
          gScores := (Function.update (Function.update (Function.update (Function.update
          (Function.update (Function.update (fun _ => none) 11 (some (0))) 7 (some (0 + 1))) 6
          (some (0 + Real.sqrt 2))) 3 (some (0 + Real.sqrt 2 + Real.sqrt 2))) 9 (some (0 +
          Real.sqrt 2 + Real.sqrt 2))) 3 (some (0 + 1 + 1))) } : SearchState ℝ) 6 =
      ({ Nodes := N5, openSet := [3, 9, 3],
          cameFrom := (Function.update (Function.update (Function.update (Function.update
          (Function.update (fun _ => none) 7 (some 11)) 6 (some 11)) 3 (some 6)) 9 (some 6)) 3
          (some 7)),
          gScores := (Function.update (Function.update (Function.update (Function.update
          (Function.update (Function.update (fun _ => none) 11 (some (0))) 7 (some (0 + 1))) 6
          (some (0 + Real.sqrt 2))) 3 (some (0 + Real.sqrt 2 + Real.sqrt 2))) 9 (some (0 +
          Real.sqrt 2 + Real.sqrt 2))) 3 (some (0 + 1 + 1))) } : SearchState ℝ) := by
    refine relaxNeighbor_skip_eval Real.sqrt B v 0 7 6 _ (0 + 1) (1)
      G5 rfl d7_6 ?_
    simp only [gScore, Function.update_apply]
    norm_num
    try linarith
  have e16 : relaxNeighbor Real.sqrt B v 0 7
      ({ Nodes := N5, openSet := [3, 9, 3],
          cameFrom := (Function.update (Function.update (Function.update (Function.update
          (Function.update (fun _ => none) 7 (some 11)) 6 (some 11)) 3 (some 6)) 9 (some 6)) 3
          (some 7)),
          gScores := (Function.update (Function.update (Function.update (Function.update
          (Function.update (Function.update (fun _ => none) 11 (some (0))) 7 (some (0 + 1))) 6
          (some (0 + Real.sqrt 2))) 3 (some (0 + Real.sqrt 2 + Real.sqrt 2))) 9 (some (0 +
          Real.sqrt 2 + Real.sqrt 2))) 3 (some (0 + 1 + 1))) } : SearchState ℝ) 10 =
      ({ Nodes := N5, openSet := [3, 9, 3],
          cameFrom := (Function.update (Function.update (Function.update (Function.update
          (Function.update (fun _ => none) 7 (some 11)) 6 (some 11)) 3 (some 6)) 9 (some 6)) 3
          (some 7)),
          gScores := (Function.update (Function.update (Function.update (Function.update
          (Function.update (Function.update (fun _ => none) 11 (some (0))) 7 (some (0 + 1))) 6
          (some (0 + Real.sqrt 2))) 3 (some (0 + Real.sqrt 2 + Real.sqrt 2))) 9 (some (0 +
          Real.sqrt 2 + Real.sqrt 2))) 3 (some (0 + 1 + 1))) } : SearchState ℝ) := by
    exact relaxNeighbor_eq_blocked Real.sqrt B v 0 7 _ 10 G5 o10
  have x3 : expandNode Real.sqrt B v 0
      ({ Nodes := N4, openSet := [7, 9, 3],
          cameFrom := (Function.update (Function.update (Function.update (Function.update (fun _
          => none) 7 (some 11)) 6 (some 11)) 3 (some 6)) 9 (some 6)),
          gScores := (Function.update (Function.update (Function.update (Function.update
          (Function.update (fun _ => none) 11 (some (0))) 7 (some (0 + 1))) 6 (some (0 + Real.sqrt
          2))) 3 (some (0 + Real.sqrt 2 + Real.sqrt 2))) 9 (some (0 + Real.sqrt 2 + Real.sqrt 2)))
          } : SearchState ℝ) 7 [9, 3] =
      ({ Nodes := N5, openSet := [3, 9, 3],
          cameFrom := (Function.update (Function.update (Function.update (Function.update
          (Function.update (fun _ => none) 7 (some 11)) 6 (some 11)) 3 (some 6)) 9 (some 6)) 3
          (some 7)),
          gScores := (Function.update (Function.update (Function.update (Function.update
          (Function.update (Function.update (fun _ => none) 11 (some (0))) 7 (some (0 + 1))) 6
          (some (0 + Real.sqrt 2))) 3 (some (0 + Real.sqrt 2 + Real.sqrt 2))) 9 (some (0 +
          Real.sqrt 2 + Real.sqrt 2))) 3 (some (0 + 1 + 1))) } : SearchState ℝ) := by
    unfold expandNode
    rw [show (nodeAt N4 7).Neighbors = _ from ((G4 7).2.trans n7)]
    simp only [List.foldl_cons, List.foldl_nil, e12, e13, e14, e15, e16]
  have e17 : relaxNeighbor Real.sqrt B v 0 3
      ({ Nodes := N5, openSet := [9, 3],
          cameFrom := (Function.update (Function.update (Function.update (Function.update
          (Function.update (fun _ => none) 7 (some 11)) 6 (some 11)) 3 (some 6)) 9 (some 6)) 3
          (some 7)),
          gScores := (Function.update (Function.update (Function.update (Function.update
          (Function.update (Function.update (fun _ => none) 11 (some (0))) 7 (some (0 + 1))) 6
          (some (0 + Real.sqrt 2))) 3 (some (0 + Real.sqrt 2 + Real.sqrt 2))) 9 (some (0 +
          Real.sqrt 2 + Real.sqrt 2))) 3 (some (0 + 1 + 1))) } : SearchState ℝ) 7 =
      ({ Nodes := N5, openSet := [9, 3],
          cameFrom := (Function.update (Function.update (Function.update (Function.update
          (Function.update (fun _ => none) 7 (some 11)) 6 (some 11)) 3 (some 6)) 9 (some 6)) 3
          (some 7)),
          gScores := (Function.update (Function.update (Function.update (Function.update
          (Function.update (Function.update (fun _ => none) 11 (some (0))) 7 (some (0 + 1))) 6
          (some (0 + Real.sqrt 2))) 3 (some (0 + Real.sqrt 2 + Real.sqrt 2))) 9 (some (0 +
          Real.sqrt 2 + Real.sqrt 2))) 3 (some (0 + 1 + 1))) } : SearchState ℝ) := by
    refine relaxNeighbor_skip_eval Real.sqrt B v 0 3 7 _ (0 + 1 + 1) (1)
      G5 rfl d3_7 ?_
    simp only [gScore, Function.update_apply]
    norm_num
    try linarith
  have e18 : relaxNeighbor Real.sqrt B v 0 3
      ({ Nodes := N5, openSet := [9, 3],
          cameFrom := (Function.update (Function.update (Function.update (Function.update
          (Function.update (fun _ => none) 7 (some 11)) 6 (some 11)) 3 (some 6)) 9 (some 6)) 3
          (some 7)),
          gScores := (Function.update (Function.update (Function.update (Function.update
          (Function.update (Function.update (fun _ => none) 11 (some (0))) 7 (some (0 + 1))) 6
          (some (0 + Real.sqrt 2))) 3 (some (0 + Real.sqrt 2 + Real.sqrt 2))) 9 (some (0 +
          Real.sqrt 2 + Real.sqrt 2))) 3 (some (0 + 1 + 1))) } : SearchState ℝ) 2 =
      ({ Nodes := N5, openSet := [9, 3],
          cameFrom := (Function.update (Function.update (Function.update (Function.update
          (Function.update (fun _ => none) 7 (some 11)) 6 (some 11)) 3 (some 6)) 9 (some 6)) 3
          (some 7)),
          gScores := (Function.update (Function.update (Function.update (Function.update
          (Function.update (Function.update (fun _ => none) 11 (some (0))) 7 (some (0 + 1))) 6
          (some (0 + Real.sqrt 2))) 3 (some (0 + Real.sqrt 2 + Real.sqrt 2))) 9 (some (0 +
          Real.sqrt 2 + Real.sqrt 2))) 3 (some (0 + 1 + 1))) } : SearchState ℝ) := by
    exact relaxNeighbor_eq_blocked Real.sqrt B v 0 3 _ 2 G5 o2
  have e19 : relaxNeighbor Real.sqrt B v 0 3
      ({ Nodes := N5, openSet := [9, 3],
          cameFrom := (Function.update (Function.update (Function.update (Function.update
          (Function.update (fun _ => none) 7 (some 11)) 6 (some 11)) 3 (some 6)) 9 (some 6)) 3
          (some 7)),
          gScores := (Function.update (Function.update (Function.update (Function.update
          (Function.update (Function.update (fun _ => none) 11 (some (0))) 7 (some (0 + 1))) 6
          (some (0 + Real.sqrt 2))) 3 (some (0 + Real.sqrt 2 + Real.sqrt 2))) 9 (some (0 +
          Real.sqrt 2 + Real.sqrt 2))) 3 (some (0 + 1 + 1))) } : SearchState ℝ) 6 =
      ({ Nodes := N5, openSet := [9, 3],
          cameFrom := (Function.update (Function.update (Function.update (Function.update
          (Function.update (fun _ => none) 7 (some 11)) 6 (some 11)) 3 (some 6)) 9 (some 6)) 3
          (some 7)),
          gScores := (Function.update (Function.update (Function.update (Function.update
          (Function.update (Function.update (fun _ => none) 11 (some (0))) 7 (some (0 + 1))) 6
          (some (0 + Real.sqrt 2))) 3 (some (0 + Real.sqrt 2 + Real.sqrt 2))) 9 (some (0 +
          Real.sqrt 2 + Real.sqrt 2))) 3 (some (0 + 1 + 1))) } : SearchState ℝ) := by
    refine relaxNeighbor_skip_eval Real.sqrt B v 0 3 6 _ (0 + 1 + 1) (Real.sqrt 2)
      G5 rfl d3_6 ?_
    simp only [gScore, Function.update_apply]
    norm_num
    try linarith
  have x4 : expandNode Real.sqrt B v 0
      ({ Nodes := N5, openSet := [3, 9, 3],
          cameFrom := (Function.update (Function.update (Function.update (Function.update
          (Function.update (fun _ => none) 7 (some 11)) 6 (some 11)) 3 (some 6)) 9 (some 6)) 3
          (some 7)),
          gScores := (Function.update (Function.update (Function.update (Function.update
          (Function.update (Function.update (fun _ => none) 11 (some (0))) 7 (some (0 + 1))) 6
          (some (0 + Real.sqrt 2))) 3 (some (0 + Real.sqrt 2 + Real.sqrt 2))) 9 (some (0 +
          Real.sqrt 2 + Real.sqrt 2))) 3 (some (0 + 1 + 1))) } : SearchState ℝ) 3 [9, 3] =
      ({ Nodes := N5, openSet := [9, 3],
          cameFrom := (Function.update (Function.update (Function.update (Function.update
          (Function.update (fun _ => none) 7 (some 11)) 6 (some 11)) 3 (some 6)) 9 (some 6)) 3
          (some 7)),
          gScores := (Function.update (Function.update (Function.update (Function.update
          (Function.update (Function.update (fun _ => none) 11 (some (0))) 7 (some (0 + 1))) 6
          (some (0 + Real.sqrt 2))) 3 (some (0 + Real.sqrt 2 + Real.sqrt 2))) 9 (some (0 +
          Real.sqrt 2 + Real.sqrt 2))) 3 (some (0 + 1 + 1))) } : SearchState ℝ) := by
    unfold expandNode
    rw [show (nodeAt N5 3).Neighbors = _ from ((G5 3).2.trans n3)]
    simp only [List.foldl_cons, List.foldl_nil, e17, e18, e19]
  have hinit : FindPath_init Real.sqrt v 11 0 =
      ({ Nodes := N0, openSet := [11],
          cameFrom := (fun _ => none),
          gScores := (Function.update (fun _ => none) 11 (some (0))) } : SearchState ℝ) := by
    rw [hN0]; rfl
  have hrun : loopState Real.sqrt B v 0 4 (FindPath_init Real.sqrt v 11 0) = some
      ({ Nodes := N5, openSet := [9, 3],
          cameFrom := (Function.update (Function.update (Function.update (Function.update
          (Function.update (fun _ => none) 7 (some 11)) 6 (some 11)) 3 (some 6)) 9 (some 6)) 3
          (some 7)),
          gScores := (Function.update (Function.update (Function.update (Function.update
          (Function.update (Function.update (fun _ => none) 11 (some (0))) 7 (some (0 + 1))) 6
          (some (0 + Real.sqrt 2))) 3 (some (0 + Real.sqrt 2 + Real.sqrt 2))) 9 (some (0 +
          Real.sqrt 2 + Real.sqrt 2))) 3 (some (0 + 1 + 1))) } : SearchState ℝ) := by
    rw [hinit]
    simp only [loopState, x1, x2, x3, x4]
    simp
  exact ⟨_, hrun, rfl, F5_9, F5_3⟩

end WallRun

end Navigation3D

namespace Navigation3D

section OrderClaims

variable {K : Type} [LinearOrderedField K] [FloorRing K]

/-- C19, at the failing input: on the 4 x 3 x 1 grid (division size 100,
`MinSharedNeighborAxes` 0, exact real arithmetic) with the cells `(1, 0, 0)`, `(1, 1, 0)`,
`(2, 0, 0)`, `(2, 2, 0)` obstructed, in the query from the centre of cell `(3, 2, 0)` to
the centre of cell `(0, 0, 0)`, the loop condition is evaluated a fifth time with an open set
whose first node, the one taken as `current`, has a greater `FScore` than another node held
in it: node 3 was held behind node 9, its `FScore` was then lowered in place and it was
inserted again, and the earlier entry has kept its place behind node 9. -/
theorem C19_head_not_least :
    ∃ (k : Nat) (st : SearchState ℝ) (current other : Nat) (rest : List Nat),
      loopState Real.sqrt wallOverlap (BeginPlay wallConfig)
          (GetNode (BeginPlay wallConfig)
            (ConvertLocationToCoordinates (BeginPlay wallConfig) ⟨50, 50, 50⟩)) k
          (FindPath_init Real.sqrt (BeginPlay wallConfig)
            (GetNode (BeginPlay wallConfig)
              (ConvertLocationToCoordinates (BeginPlay wallConfig) ⟨350, 250, 50⟩))
            (GetNode (BeginPlay wallConfig)
              (ConvertLocationToCoordinates (BeginPlay wallConfig) ⟨50, 50, 50⟩))) = some st ∧
        st.openSet = current :: rest ∧ other ∈ rest ∧
        (nodeAt st.Nodes other).FScore < (nodeAt st.Nodes current).FScore := by
  have hs : GetNode (BeginPlay wallConfig)
      (ConvertLocationToCoordinates (BeginPlay wallConfig) ⟨350, 250, 50⟩) = 11 := by
    rw [wall_start_cell]; decide
  have he : GetNode (BeginPlay wallConfig)
      (ConvertLocationToCoordinates (BeginPlay wallConfig) ⟨50, 50, 50⟩) = 0 := by
    rw [wall_end_cell]; decide
  obtain ⟨st, hrun, hopen, h9, h3⟩ := wall_run
  have a2 : (1.41 : ℝ) < Real.sqrt 2 := by rw [Real.lt_sqrt (by norm_num)]; norm_num
  have a5 : (2.23 : ℝ) < Real.sqrt 5 := by rw [Real.lt_sqrt (by norm_num)]; norm_num
  refine ⟨4, st, 9, 3, [3], ?_, hopen, List.mem_singleton.2 rfl, ?_⟩
  · rw [hs, he]; exact hrun
  · rw [h9, h3]; linarith

end OrderClaims

end Navigation3D

namespace Navigation3D

/-! ## Independence of the `FScore` values found on the nodes -/

section Scratch

variable {K : Type} [LinearOrderedField K] [FloorRing K]

theorem multisetInsert_congr (nodes nodes' : List (NavNode K)) (p : Nat) :
    ∀ os : List Nat,
      (∀ n ∈ p :: os, (nodeAt nodes' n).FScore = (nodeAt nodes n).FScore) →
      multisetInsert nodes' os p = multisetInsert nodes os p
  | [], _ => rfl
  | e :: es, hF => by
    have hp := hF p (List.mem_cons_self _ _)
    have he := hF e (List.mem_cons_of_mem _ (List.mem_cons_self _ _))
    have ih := multisetInsert_congr nodes nodes' p es (fun n hn => by
      rcases List.mem_cons.1 hn with h | h
      · rw [h]; exact hp
      · exact hF n (List.mem_cons_of_mem _ (List.mem_cons_of_mem _ h)))
    simp only [multisetInsert, NodeCompare, hp, he, ih]

/-- Writing the same `FScore` to the same node of two arrays of equal length makes the two
arrays agree on that node's `FScore` and keeps their agreement on every other node. -/
theorem FScore_setFScore_congr (nodes nodes' : List (NavNode K))
    (hlen : nodes'.length = nodes.length) (nb : Nat) (f : K) (n : Nat)
    (hn : n = nb ∨ (nodeAt nodes' n).FScore = (nodeAt nodes n).FScore) :
    (nodeAt (setFScore nodes' nb f) n).FScore = (nodeAt (setFScore nodes nb f) n).FScore := by
  by_cases hnb : nb = n
  · subst hnb
    by_cases hlt : nb < nodes.length
    · rw [FScore_setFScore_self _ _ _ hlt, FScore_setFScore_self _ _ _ (by omega)]
    · have e1 : setFScore nodes nb f = nodes := by
        unfold setFScore; exact List.set_eq_of_length_le (by omega)
      have e2 : setFScore nodes' nb f = nodes' := by
        unfold setFScore; exact List.set_eq_of_length_le (by omega)
      rw [e1, e2]
      unfold nodeAt
      rw [List.getD_eq_getElem?_getD, List.getD_eq_getElem?_getD,
        List.getElem?_eq_none (by omega), List.getElem?_eq_none (by omega)]
  · rw [FScore_setFScore_ne _ _ _ _ hnb, FScore_setFScore_ne _ _ _ _ hnb]
    rcases hn with h | h
    · exact absurd h.symm hnb
    · exact h

theorem relaxNeighbor_sim (sqrt : K → K) (B : FVector K → FVector K → Bool)
    (v v' : ANavigationVolume3D K)
    (hconv : ∀ c, ConvertCoordinatesToLocation v' c = ConvertCoordinatesToLocation v c)
    (hsize : v'.DivisionSize = v.DivisionSize) (endNode current : Nat)
    (st st' : SearchState K) (nb : Nat) (hs : ScratchSim st st') :
    ScratchSim (relaxNeighbor sqrt B v endNode current st nb)
      (relaxNeighbor sqrt B v' endNode current st' nb) := by
  obtain ⟨hg, hl, ho, hc, hgs, hf⟩ := hs
  unfold relaxNeighbor
  simp only [hgs, distance_sameGraph hg, h_sameGraph hg, (hg nb).1, hconv, hsize, ho, hc]
  split_ifs with h1 h2
  · have hF : ∀ n ∈ nb :: st.openSet,
        (nodeAt (setFScore st'.Nodes nb (gScore st.gScores current +
          distance sqrt st.Nodes current nb + h sqrt st.Nodes endNode nb)) n).FScore =
        (nodeAt (setFScore st.Nodes nb (gScore st.gScores current +
          distance sqrt st.Nodes current nb + h sqrt st.Nodes endNode nb)) n).FScore := by
      intro n hn
      apply FScore_setFScore_congr _ _ hl
      rcases List.mem_cons.1 hn with h | h
      · exact Or.inl h
      · exact Or.inr (hf n h)
    refine ⟨?_, ?_, multisetInsert_congr _ _ nb _ hF, rfl, rfl, ?_⟩
    · intro i
      have a := (hg.setFScore nb (gScore st.gScores current +
        distance sqrt st.Nodes current nb + h sqrt st.Nodes endNode nb)) i
      have b := ((SameGraph.refl st.Nodes).setFScore nb (gScore st.gScores current +
        distance sqrt st.Nodes current nb + h sqrt st.Nodes endNode nb)) i
      exact ⟨a.1.trans b.1.symm, a.2.trans b.2.symm⟩
    · show (setFScore st'.Nodes nb _).length = (setFScore st.Nodes nb _).length
      rw [length_setFScore, length_setFScore]; exact hl
    · intro n hn
      apply hF
      have hn' : n ∈ multisetInsert (setFScore st.Nodes nb (gScore st.gScores current +
          distance sqrt st.Nodes current nb + h sqrt st.Nodes endNode nb)) st.openSet nb := hn
      rw [mem_multisetInsert] at hn'
      rcases hn' with h | h
      · rw [h]; exact List.mem_cons_self _ _
      · exact List.mem_cons_of_mem _ h
  · exact ⟨hg, hl, ho, hc, hgs, hf⟩
  · exact ⟨hg, hl, ho, hc, hgs, hf⟩

theorem foldl_relaxNeighbor_sim (sqrt : K → K) (B : FVector K → FVector K → Bool)
    (v v' : ANavigationVolume3D K)
    (hconv : ∀ c, ConvertCoordinatesToLocation v' c = ConvertCoordinatesToLocation v c)
    (hsize : v'.DivisionSize = v.DivisionSize) (endNode current : Nat) (nbs : List Nat) :
    ∀ st st' : SearchState K, ScratchSim st st' →
      ScratchSim (nbs.foldl (relaxNeighbor sqrt B v endNode current) st)
        (nbs.foldl (relaxNeighbor sqrt B v' endNode current) st') := by
  induction nbs with
  | nil => intro st st' hs; exact hs
  | cons n nbs ih =>
    intro st st' hs
    rw [List.foldl_cons, List.foldl_cons]
    exact ih _ _ (relaxNeighbor_sim sqrt B v v' hconv hsize endNode current st st' n hs)

theorem rebuildPath_sim (v v' : ANavigationVolume3D K)
    (hconv : ∀ c, ConvertCoordinatesToLocation v' c = ConvertCoordinatesToLocation v c)
    (nodes nodes' : List (NavNode K)) (hg : SameGraph nodes nodes')
    (cameFrom : Nat → Option Nat) :
    ∀ (fuel current : Nat) (acc : List (FVector K)),
      rebuildPath v' nodes' cameFrom fuel current acc =
        rebuildPath v nodes cameFrom fuel current acc := by
  intro fuel
  induction fuel with
  | zero => intro current acc; rfl
  | succ fuel ih =>
    intro current acc
    unfold rebuildPath
    cases hc : cameFrom current with
    | none => rfl
    | some prev =>
      simp only
      rw [hconv, (hg prev).1]
      exact ih prev _

/-- The loop returns the same from two states that differ at most in the `FScore` of nodes
outside the open set. -/
theorem searchLoop_sim (sqrt : K → K) (B : FVector K → FVector K → Bool)
    (v v' : ANavigationVolume3D K)
    (hconv : ∀ c, ConvertCoordinatesToLocation v' c = ConvertCoordinatesToLocation v c)
    (hsize : v'.DivisionSize = v.DivisionSize) (endNode : Nat) (out_path : List (FVector K)) :
    ∀ (fuel : Nat) (st st' : SearchState K), ScratchSim st st' →
      searchLoop sqrt B v' endNode out_path fuel st' =
        searchLoop sqrt B v endNode out_path fuel st := by
  intro fuel
  induction fuel with
  | zero => intro st st' _; rfl
  | succ fuel ih =>
    intro st st' hs
    unfold searchLoop
    rw [hs.openSet]
    cases ho : st.openSet with
    | nil => rfl
    | cons current rest =>
      simp only
      by_cases hce : current = endNode
      · rw [if_pos hce, if_pos hce, hconv, (hs.graph current).1, hs.cameFrom,
          rebuildPath_sim v v' hconv st.Nodes st'.Nodes hs.graph]
      · rw [if_neg hce, if_neg hce, (hs.graph current).2]
        apply ih
        apply foldl_relaxNeighbor_sim sqrt B v v' hconv hsize
        exact ⟨hs.graph, hs.length, rfl, hs.cameFrom, hs.gScores, fun n hn =>
          hs.fscore n (by rw [ho]; exact List.mem_cons_of_mem _ hn)⟩

theorem FindPath_init_sim (sqrt : K → K) (v : ANavigationVolume3D K)
    (nodes' : List (NavNode K)) (hg : SameGraph v.Nodes nodes')
    (hlen : nodes'.length = v.Nodes.length) (startNode endNode : Nat) :
    ScratchSim (FindPath_init sqrt v startNode endNode)
      (FindPath_init sqrt { v with Nodes := nodes' } startNode endNode) := by
  unfold FindPath_init
  simp only [h_sameGraph hg, multisetInsert]
  refine ⟨?_, ?_, rfl, rfl, rfl, ?_⟩
  · intro i
    have a := (hg.setFScore startNode (h sqrt v.Nodes endNode startNode)) i
    have b := ((SameGraph.refl v.Nodes).setFScore startNode
      (h sqrt v.Nodes endNode startNode)) i
    exact ⟨a.1.trans b.1.symm, a.2.trans b.2.symm⟩
  · show (setFScore nodes' startNode _).length = (setFScore v.Nodes startNode _).length
    rw [length_setFScore, length_setFScore]; exact hlen
  · intro n hn
    exact FScore_setFScore_congr _ _ hlen _ _ n (Or.inl (List.mem_singleton.1 hn))

/-- Two node arrays that hold the same coordinates and neighbour lists, node by node, have
the same length and agree on the coordinates and neighbours read at every index. -/
theorem sameGraph_of_map_eq (nodes nodes' : List (NavNode K))
    (hsame : nodes'.map (fun n => (n.Coordinates, n.Neighbors)) =
      nodes.map (fun n => (n.Coordinates, n.Neighbors))) :
    SameGraph nodes nodes' ∧ nodes'.length = nodes.length := by
  have hlen : nodes'.length = nodes.length := by
    have := congrArg List.length hsame
    simpa using this
  refine ⟨fun i => ?_, hlen⟩
  have h1 := congrArg (fun l => l.getD i
    ((default : NavNode K).Coordinates, (default : NavNode K).Neighbors)) hsame
  simp only [List.getD_map] at h1
  unfold nodeAt
  exact ⟨(Prod.mk.inj h1).1, (Prod.mk.inj h1).2⟩

/-- C21: for any two states of the volume that differ only in the `FScore` fields of their
nodes (same configuration, same coordinates and same neighbour list in every node), and the
same start, destination, overlap query, square root and iteration bound, `FindPath` gives
the same outcome: the same boolean with the same `out_path`, or in both cases none within
the bound. The search reads the `FScore` of a node only while the node is in the open set,
and writes it before every insertion. -/
theorem C21_fscore_independent (sqrt : K → K)
    (BoxOverlapActors : FVector K → FVector K → Bool) (fuel : Nat)
    (v : ANavigationVolume3D K) (nodes' : List (NavNode K))
    (hsame : nodes'.map (fun n => (n.Coordinates, n.Neighbors)) =
      v.Nodes.map (fun n => (n.Coordinates, n.Neighbors)))
    (start destination : FVector K) (out_path : List (FVector K)) :
    FindPath sqrt BoxOverlapActors fuel { v with Nodes := nodes' } start destination out_path =
      FindPath sqrt BoxOverlapActors fuel v start destination out_path := by
  obtain ⟨hg, hlen⟩ := sameGraph_of_map_eq v.Nodes nodes' hsame
  unfold FindPath
  exact searchLoop_sim sqrt BoxOverlapActors v { v with Nodes := nodes' } (fun _ => rfl) rfl
    _ _ fuel _ _ (FindPath_init_sim sqrt v nodes' hg hlen _ _)

theorem C21_fscore_independent_witness :
    ([⟨⟨0, 0, 0⟩, [1], 3⟩, ⟨⟨1, 0, 0⟩, [0], 0⟩] : List (NavNode ℚ)).map
        (fun n => (n.Coordinates, n.Neighbors)) =
      lineVolume.Nodes.map (fun n => (n.Coordinates, n.Neighbors)) ∧
    FindPath ratSqrt noOverlap 5
        { lineVolume with Nodes := [⟨⟨0, 0, 0⟩, [1], 3⟩, ⟨⟨1, 0, 0⟩, [0], 0⟩] }
        ⟨50, 50, 50⟩ ⟨150, 50, 50⟩ [⟨7, 7, 7⟩] =
      FindPath ratSqrt noOverlap 5 lineVolume ⟨50, 50, 50⟩ ⟨150, 50, 50⟩ [⟨7, 7, 7⟩] ∧
    FindPath ratSqrt noOverlap 5 lineVolume ⟨50, 50, 50⟩ ⟨150, 50, 50⟩ [⟨7, 7, 7⟩] =
      some (true, [⟨50, 50, 50⟩, ⟨150, 50, 50⟩]) :=
  ⟨by rw [lineVolume_eq]; rfl,
    C21_fscore_independent ratSqrt noOverlap 5 lineVolume
      [⟨⟨0, 0, 0⟩, [1], 3⟩, ⟨⟨1, 0, 0⟩, [0], 0⟩] (by rw [lineVolume_eq]; rfl)
      ⟨50, 50, 50⟩ ⟨150, 50, 50⟩ [⟨7, 7, 7⟩],
    lineVolume_run⟩

end Scratch

end Navigation3D

namespace Navigation3D

/-! ## The open set as a sequence -/

section TreeInsertLemmas

variable {K : Type} [LinearOrderedField K] [FloorRing K]

theorem multisetInsert_append (nodes : List (NavNode K)) (p : Nat) (back : List Nat)
    (hb : ∀ b, back.head? = some b → NodeCompare nodes p b = true) :
    ∀ front : List Nat, (∀ a ∈ front, NodeCompare nodes p a = false) →
      multisetInsert nodes (front ++ back) p = front ++ p :: back := by
  intro front
  induction front with
  | nil =>
    intro _
    cases back with
    | nil => rfl
    | cons b back =>
      simp only [List.nil_append, multisetInsert]
      rw [if_pos (hb b rfl)]
  | cons a front ih =>
    intro ha
    simp only [List.cons_append, multisetInsert]
    rw [if_neg (by rw [ha a (List.mem_cons_self _ _)]; simp)]
    exact congrArg (List.cons a) (ih (fun x hx => ha x (List.mem_cons_of_mem _ hx)))

/-- The position taken by `multisetInsert` is one a tree descent can take. -/
theorem multisetInsert_admits (nodes : List (NavNode K)) (p : Nat) :
    ∀ es : List Nat, InsertAdmits nodes es p (multisetInsert nodes es p) := by
  intro es
  induction es with
  | nil => exact ⟨[], [], rfl, rfl, by simp, by simp⟩
  | cons e es ih =>
    by_cases hc : NodeCompare nodes p e = true
    · refine ⟨[], e :: es, rfl, ?_, by simp, ?_⟩
      · simp only [multisetInsert, if_pos hc, List.nil_append]
      · intro b hb
        simp only [List.head?_cons, Option.some.injEq] at hb
        rw [← hb]; exact hc
    · obtain ⟨front, back, h1, h2, h3, h4⟩ := ih
      refine ⟨e :: front, back, by rw [h1]; rfl, ?_, ?_, h4⟩
      · simp only [multisetInsert, if_neg hc, h2, List.cons_append]
      · intro a ha
        cases front with
        | nil =>
          simp only [List.getLast?_singleton, Option.some.injEq] at ha
          rw [← ha]; simpa using hc
        | cons f front =>
          rw [List.getLast?_cons_cons] at ha
          exact h3 a ha

/-- On a sequence ordered by `FScore` a tree descent can take no other position than the
one taken by `multisetInsert`. -/
theorem InsertAdmits_ordered (nodes : List (NavNode K)) (es : List Nat) (p : Nat)
    (es' : List Nat)
    (hord : es.Pairwise (fun a b => (nodeAt nodes a).FScore ≤ (nodeAt nodes b).FScore))
    (h : InsertAdmits nodes es p es') : es' = multisetInsert nodes es p := by
  obtain ⟨front, back, h1, h2, h3, h4⟩ := h
  subst h1
  rw [h2]
  symm
  apply multisetInsert_append nodes p back h4
  intro a ha
  obtain ⟨l, hl⟩ : ∃ l, front.getLast? = some l := by
    cases hf : front.getLast? with
    | none => rw [List.getLast?_eq_none_iff] at hf; rw [hf] at ha; cases ha
    | some l => exact ⟨l, rfl⟩
  have hpl := h3 l hl
  simp only [NodeCompare, decide_eq_false_iff_not, not_lt] at hpl ⊢
  refine le_trans ?_ hpl
  have hfront : front.Pairwise
      (fun a b => (nodeAt nodes a).FScore ≤ (nodeAt nodes b).FScore) :=
    (List.pairwise_append.1 hord).1
  obtain ⟨init, hinit⟩ : ∃ init, front = init ++ [l] := by
    rw [List.getLast?_eq_some_iff] at hl
    exact hl
  rw [hinit] at ha hfront
  rcases List.mem_append.1 ha with hmem | hmem
  · exact (List.pairwise_append.1 hfront).2.2 a hmem l (List.mem_singleton.2 rfl)
  · rw [List.mem_singleton.1 hmem]

end TreeInsertLemmas

/-! ## Indexing and conversion with machine arithmetic -/

section MachineLemmas

variable {K : Type} [LinearOrderedField K] [FloorRing K]

theorem wrapInt32_of_mem {n : Int} (h1 : MIN_int32 ≤ n) (h2 : n ≤ MAX_int32) :
    wrapInt32 n = n := by
  unfold wrapInt32
  unfold MIN_int32 at *
  unfold MAX_int32 at h2
  omega

/-- Within a grid whose number of cells is an `int32`, no step of the index computation of
`GetNode` overflows. -/
theorem GetNodeIndex_int32_eq (v : ANavigationVolume3D K) (c : FIntVector)
    (hc : AreCoordinatesValid v c = true)
    (h32 : v.DivisionsX * v.DivisionsY * v.DivisionsZ ≤ MAX_int32) :
    GetNodeIndex_int32 v c = GetNodeIndex v c := by
  have hb := GetNodeIndex_bounds v c hc
  rw [GetNodeIndex_of_valid v c hc] at hb
  have hv := (AreCoordinatesValid_iff v c).1 hc
  obtain ⟨⟨h1, h2⟩, ⟨h3, h4⟩, h5, h6⟩ := hv
  unfold GetTotalDivisions at hb
  have hxy : 0 ≤ v.DivisionsX * v.DivisionsY := mul_nonneg (by omega) (by omega)
  have hxy1 : v.DivisionsX * v.DivisionsY * 1 ≤ v.DivisionsX * v.DivisionsY * v.DivisionsZ :=
    mul_le_mul_of_nonneg_left (by omega) hxy
  rw [mul_one] at hxy1
  have hz0 : 0 ≤ c.Z * (v.DivisionsX * v.DivisionsY) := mul_nonneg h5 hxy
  have hy0 : 0 ≤ c.Y * v.DivisionsX := mul_nonneg h3 (by omega)
  have hring : v.DivisionsX * (c.Y + v.DivisionsY * c.Z) =
      c.Z * (v.DivisionsX * v.DivisionsY) + c.Y * v.DivisionsX := by ring
  have hM : MAX_int32 = 2147483647 := rfl
  have hm : MIN_int32 = -2147483648 := rfl
  unfold GetNodeIndex_int32
  simp only [ClampCoordinates_of_valid v c hc]
  rw [GetNodeIndex_of_valid v c hc]
  rw [wrapInt32_of_mem (n := v.DivisionsX * v.DivisionsY) (by omega) (by omega)]
  rw [wrapInt32_of_mem (n := c.Z * (v.DivisionsX * v.DivisionsY)) (by omega) (by omega)]
  rw [wrapInt32_of_mem (n := c.Y * v.DivisionsX) (by omega) (by omega)]
  rw [wrapInt32_of_mem (n := c.Z * (v.DivisionsX * v.DivisionsY) + c.Y * v.DivisionsX)
    (by omega) (by omega)]
  rw [wrapInt32_of_mem (by omega) (by omega)]
  omega

theorem GetTotalDivisions_int32_eq (v : ANavigationVolume3D K) (hx : 1 ≤ v.DivisionsX)
    (hy : 1 ≤ v.DivisionsY) (hz : 1 ≤ v.DivisionsZ)
    (h32 : v.DivisionsX * v.DivisionsY * v.DivisionsZ ≤ MAX_int32) :
    GetTotalDivisions_int32 v = GetTotalDivisions v := by
  have hxy : 0 ≤ v.DivisionsX * v.DivisionsY := mul_nonneg (by omega) (by omega)
  have hxy1 : v.DivisionsX * v.DivisionsY * 1 ≤ v.DivisionsX * v.DivisionsY * v.DivisionsZ :=
    mul_le_mul_of_nonneg_left hz hxy
  rw [mul_one] at hxy1
  have hxyz : 0 ≤ v.DivisionsX * v.DivisionsY * v.DivisionsZ := mul_nonneg hxy (by omega)
  have hM : MAX_int32 = 2147483647 := rfl
  have hm : MIN_int32 = -2147483648 := rfl
  unfold GetTotalDivisions_int32 GetTotalDivisions
  rw [wrapInt32_of_mem (n := v.DivisionsX * v.DivisionsY) (by omega) (by omega)]
  rw [wrapInt32_of_mem (by omega) (by omega)]

theorem FloatToInt32_of_mem {x : K} (h1 : MIN_int32 ≤ FloatToInt x)
    (h2 : FloatToInt x ≤ MAX_int32) : FloatToInt32 x = FloatToInt x := by
  unfold FloatToInt32
  rw [if_pos ⟨h1, h2⟩]

/-- With exact `float` operations, and when the three products converted by
`ConvertLocationToCoordinates` truncate to `int32` values, the conversion with machine
arithmetic is `ConvertLocationToCoordinates`. -/
theorem ConvertLocationToCoordinates_float_id (v : ANavigationVolume3D K)
    (location : FVector K)
    (hX : MIN_int32 ≤ (ConvertLocationToCoordinates_unclamped v
        (v.ActorTransform.InverseTransformLocation location)).X ∧
      (ConvertLocationToCoordinates_unclamped v
        (v.ActorTransform.InverseTransformLocation location)).X ≤ MAX_int32)
    (hY : MIN_int32 ≤ (ConvertLocationToCoordinates_unclamped v
        (v.ActorTransform.InverseTransformLocation location)).Y ∧
      (ConvertLocationToCoordinates_unclamped v
        (v.ActorTransform.InverseTransformLocation location)).Y ≤ MAX_int32)
    (hZ : MIN_int32 ≤ (ConvertLocationToCoordinates_unclamped v
        (v.ActorTransform.InverseTransformLocation location)).Z ∧
      (ConvertLocationToCoordinates_unclamped v
        (v.ActorTransform.InverseTransformLocation location)).Z ≤ MAX_int32) :
    ConvertLocationToCoordinates_float id v location =
      ConvertLocationToCoordinates v location := by
  unfold ConvertLocationToCoordinates_unclamped at hX hY hZ
  simp only [GetGridSizeX, GetGridSizeY, GetGridSizeZ] at hX hY hZ
  simp only [ConvertLocationToCoordinates_float, ConvertLocationToCoordinates,
    ConvertLocationToCoordinates_unclamped, GetGridSizeX_float, GetGridSizeY_float,
    GetGridSizeZ_float, GetGridSizeX, GetGridSizeY, GetGridSizeZ, id]
  rw [FloatToInt32_of_mem hX.1 hX.2, FloatToInt32_of_mem hY.1 hY.2,
    FloatToInt32_of_mem hZ.1 hZ.2]

end MachineLemmas

section Rounding


end Rounding

section MachineClaims

variable {K : Type} [LinearOrderedField K] [FloorRing K]

/-- C13, counterexample: `GetNode` and `GetTotalDivisions` compute in `int32`. On the grid
of 65536 x 65536 x 2 cells the index computed for the coordinate `(0, 0, 1)` is `0` and not
`1 * DivisionsX * DivisionsY`, it is the index of the coordinate `(0, 0, 0)` as well,
`GetTotalDivisions()` is `0` and not the product of the division counts, and the index is
not below it. On the grid of 50000 x 50000 x 1 cells the index computed for the coordinate
`(49999, 49999, 0)` is negative. -/
theorem C13_counterexample :
    ((1 ≤ overflowConfig.DivisionsX ∧ 1 ≤ overflowConfig.DivisionsY ∧
        1 ≤ overflowConfig.DivisionsZ) ∧
      AreCoordinatesValid overflowConfig ⟨0, 0, 0⟩ = true ∧
      AreCoordinatesValid overflowConfig ⟨0, 0, 1⟩ = true ∧
      GetNodeIndex_int32 overflowConfig ⟨0, 0, 1⟩ = 0 ∧
      GetNodeIndex_int32 overflowConfig ⟨0, 0, 1⟩ ≠
        1 * overflowConfig.DivisionsX * overflowConfig.DivisionsY +
          0 * overflowConfig.DivisionsX + 0 ∧
      ((⟨0, 0, 0⟩ : FIntVector) ≠ ⟨0, 0, 1⟩ ∧
        GetNodeIndex_int32 overflowConfig ⟨0, 0, 0⟩ =
          GetNodeIndex_int32 overflowConfig ⟨0, 0, 1⟩) ∧
      GetTotalDivisions_int32 overflowConfig = 0 ∧
      GetTotalDivisions_int32 overflowConfig ≠
        overflowConfig.DivisionsX * overflowConfig.DivisionsY * overflowConfig.DivisionsZ ∧
      ¬ GetNodeIndex_int32 overflowConfig ⟨0, 0, 1⟩ < GetTotalDivisions_int32 overflowConfig) ∧
    ((1 ≤ wideConfig.DivisionsX ∧ 1 ≤ wideConfig.DivisionsY ∧ 1 ≤ wideConfig.DivisionsZ) ∧
      AreCoordinatesValid wideConfig ⟨49999, 49999, 0⟩ = true ∧
      GetNodeIndex_int32 wideConfig ⟨49999, 49999, 0⟩ = -1794967297 ∧
      GetNodeIndex_int32 wideConfig ⟨49999, 49999, 0⟩ ≠
        0 * wideConfig.DivisionsX * wideConfig.DivisionsY +
          49999 * wideConfig.DivisionsX + 49999 ∧
      ¬ 0 ≤ GetNodeIndex_int32 wideConfig ⟨49999, 49999, 0⟩) := by
  decide

/-- C13, within the `int32` range: when the product of the division counts is at most
`MAX_int32`, the index `GetNode` computes in `int32` for a coordinate `(x, y, z)` of the
grid is `z * DivisionsX * DivisionsY + y * DivisionsX + x`; `GetTotalDivisions()` is the
product of the division counts and the index lies in `[0, GetTotalDivisions())`; distinct
coordinates of the grid have distinct indices; and after `BeginPlay` the node at that index
stores these coordinates. -/
theorem C13_node_indexing_in_range (v : ANavigationVolume3D K) (c c' : FIntVector)
    (hc : AreCoordinatesValid v c = true) (hc' : AreCoordinatesValid v c' = true)
    (h32 : v.DivisionsX * v.DivisionsY * v.DivisionsZ ≤ MAX_int32) :
    GetNodeIndex_int32 v c = c.Z * v.DivisionsX * v.DivisionsY + c.Y * v.DivisionsX + c.X ∧
    GetTotalDivisions_int32 v = v.DivisionsX * v.DivisionsY * v.DivisionsZ ∧
    (0 ≤ GetNodeIndex_int32 v c ∧ GetNodeIndex_int32 v c < GetTotalDivisions_int32 v) ∧
    (c ≠ c' → GetNodeIndex_int32 v c ≠ GetNodeIndex_int32 v c') ∧
    (nodeAt (BeginPlay v).Nodes (GetNodeIndex_int32 v c).toNat).Coordinates = c := by
  obtain ⟨⟨h1, h2⟩, ⟨h3, h4⟩, h5, h6⟩ := (AreCoordinatesValid_iff v c).1 hc
  have ht := GetTotalDivisions_int32_eq v (by omega) (by omega) (by omega) h32
  rw [GetNodeIndex_int32_eq v c hc h32, GetNodeIndex_int32_eq v c' hc' h32, ht]
  refine ⟨?_, rfl, GetNodeIndex_bounds v c hc, ?_, ?_⟩
  · rw [GetNodeIndex_of_valid v c hc]; ring
  · intro hne h
    exact hne (GetNodeIndex_inj v c c' hc hc' h)
  · have h := BeginPlay_nodeAt v c hc
    unfold GetNode at h
    rw [h]

theorem C13_node_indexing_in_range_witness :
    AreCoordinatesValid sampleVolume ⟨2, 3, 4⟩ = true ∧
    AreCoordinatesValid sampleVolume ⟨0, 1, 2⟩ = true ∧
    sampleVolume.DivisionsX * sampleVolume.DivisionsY * sampleVolume.DivisionsZ ≤ MAX_int32 ∧
    (GetNodeIndex_int32 sampleVolume ⟨2, 3, 4⟩ =
        4 * sampleVolume.DivisionsX * sampleVolume.DivisionsY +
          3 * sampleVolume.DivisionsX + 2 ∧
      GetTotalDivisions_int32 sampleVolume =
        sampleVolume.DivisionsX * sampleVolume.DivisionsY * sampleVolume.DivisionsZ ∧
      (0 ≤ GetNodeIndex_int32 sampleVolume ⟨2, 3, 4⟩ ∧
        GetNodeIndex_int32 sampleVolume ⟨2, 3, 4⟩ < GetTotalDivisions_int32 sampleVolume) ∧
      ((⟨2, 3, 4⟩ : FIntVector) ≠ ⟨0, 1, 2⟩ →
        GetNodeIndex_int32 sampleVolume ⟨2, 3, 4⟩ ≠ GetNodeIndex_int32 sampleVolume ⟨0, 1, 2⟩) ∧
      (nodeAt (BeginPlay sampleVolume).Nodes
        (GetNodeIndex_int32 sampleVolume ⟨2, 3, 4⟩).toNat).Coordinates = ⟨2, 3, 4⟩) :=
  ⟨by decide, by decide, by decide,
    C13_node_indexing_in_range sampleVolume ⟨2, 3, 4⟩ ⟨0, 1, 2⟩ (by decide) (by decide)
      (by decide)⟩

end MachineClaims

end Navigation3D
